import Mathlib

/-!
# Coroutine manager: shallow embedding of `coroutine_await.h` and `coroutine_yield.h`

The two headers are embedded side by side, one namespace each, with the names
of the C++ source.

Conventions of the embedding.

* `uint64_t`, `size_t` and `unsigned int` values are natural numbers; wrap-around
  is written out (`% 2 ^ 64`, `% 2 ^ 32`) where the C++ arithmetic can wrap.
* `std::vector<coroutine_t>` is a `List`; `std::queue<size_t>` is a `List` whose
  head is the front of the queue.
* An access `coroutines[i]` with `i` outside the vector is undefined behaviour in
  C++; the embedding reports it as `Except.error (fault.out_of_range i size)`.
* A coroutine handle is `Option frame`: `none` is the null handle, `some f` a
  handle whose frame is in state `f`.  Each slot owns its frame (handles are
  not aliased between slots).
* A coroutine body is a script (`Body`): it either finishes or suspends on a
  wait object and names the code to run after resumption.  The code after a
  resumption may depend on the wait object as it stands at resumption (this is
  how the body reads the resume value) and on the tick at resumption
  (`get_cur_tick()`).  Bodies of this embedding do not call the manager
  themselves.
* A `float` is the rational number it stands for.  Arithmetic on `float` is
  IEEE 754 binary32 in the default rounding mode: the conversion of the
  `uint64_t` difference to `float` and the division by `1000.0f` round to the
  nearest binary32 value, ties to the even significand (`f32_round`); the
  comparison `>=` is exact.
* A coroutine function whose body returns without ever suspending leaves its
  caller with a handle to a destroyed frame (`final_suspend` does not suspend
  when the promise holds no wait object); every use of such a handle is
  undefined behaviour and is reported as `Except.error fault.destroyed_frame`.
-/

/-- Undefined behaviour made visible: an element access outside the slot table,
and a call of `handle.done()` through a handle whose frame has been destroyed. -/
inductive fault where
  | out_of_range (index size : Nat)
  | destroyed_frame
deriving DecidableEq

/-- The value of `std::numeric_limits<unsigned int>::max()`. -/
def UINT_MAX : Nat := 4294967295

/-- The initialisation `unsigned int _index = (id >> 32)` for a 64-bit `id`. -/
def index_of (id : Nat) : Nat := (id >>> 32) % 2 ^ 32

/-- The slot `create_coroutine` works on: the front of `free_indexes` when the
queue is not empty, else the size of the table (the slot that `emplace_back`
adds). -/
def next_index (free_indexes : List Nat) (size : Nat) : Nat :=
  match free_indexes with
  | i :: _ => i
  | [] => size

/-- Unsigned 64-bit subtraction `a - b`. -/
def u64_sub (a b : Nat) : Nat := (a % 2 ^ 64 + 2 ^ 64 - b % 2 ^ 64) % 2 ^ 64

/-- Rounding to the nearest integer, ties to the even one. -/
def round_half_even (n : ℚ) : ℤ :=
  if n - ⌊n⌋ < 1 / 2 then ⌊n⌋
  else if 1 / 2 < n - ⌊n⌋ then ⌊n⌋ + 1
  else if ⌊n⌋ % 2 = 0 then ⌊n⌋
  else ⌊n⌋ + 1

/-- The binary32 value nearest to a rational `q` that is not negative, ties to
the even significand: with `2 ^ e <= q < 2 ^ (e + 1)` the 24-bit significand is
`q / 2 ^ (e - 23)` rounded to an integer.  The values rounded in the headers
are a 64-bit tick difference and its quotient by 1000: they are 0 or lie
between `2 ^ (-10)` and `2 ^ 64`, inside the normal range of binary32, so
neither gradual underflow nor overflow comes into play. -/
def f32_round (q : ℚ) : ℚ :=
  if q ≤ 0 then 0
  else round_half_even (q / 2 ^ (Int.log 2 q - 23)) * 2 ^ (Int.log 2 q - 23)

/-- The comparison `sep / 1000.0f >= timeout_seconds` with
`sep = cur_tick - start_tick` of type `uint64_t`: `sep` is converted to `float`,
the quotient is a `float`, both rounded to binary32; `timeout_seconds` is the
value of the `float` member. -/
def timed_out (cur_tick start_tick : Nat) (timeout_seconds : ℚ) : Bool :=
  decide (timeout_seconds ≤ f32_round (f32_round (u64_sub cur_tick start_tick : ℚ) / 1000))

namespace coroutine_await

/-- The wait objects of `coroutine_await.h` with their data members.  The
template argument of `wait_for_event<T>` is the tag `T`; a payload pointer
`const T*` is `Option Nat` (`none` is `nullptr`). -/
inductive awaitable where
  | wait_for_seconds (start_tick : Nat) (timeout_seconds : ℚ)
  | wait_for_frame (start_tick : Nat)
  | wait_for_event (T : Nat) (start_tick : Nat) (timeout_seconds : ℚ) (event_id : Int)
      (return_value : Option Nat)
  | wait_for_coroutine (wait_coroutine_id : Nat)
  | wait_for_coroutine_group (wait_coroutine_groups : List Nat)

/-- A coroutine body from its current point on: it returns, or it evaluates
`co_await a` and continues with `k` once resumed. -/
inductive Body where
  | finish : Body
  | await (a : awaitable) (k : awaitable → Nat → Body) : Body

/-- Constructor `wait_for_seconds(seconds)`, run at tick `tick`. -/
def new_wait_for_seconds (tick : Nat) (seconds : ℚ) : awaitable :=
  .wait_for_seconds tick seconds

/-- Constructor `wait_for_frame()`, run at tick `tick`. -/
def new_wait_for_frame (tick : Nat) : awaitable :=
  .wait_for_frame tick

/-- Constructor `wait_for_event<T>(event_id, seconds)`, run at tick `tick`. -/
def new_wait_for_event (T : Nat) (tick : Nat) (event_id : Int) (seconds : ℚ) : awaitable :=
  .wait_for_event T tick seconds event_id none

/-- The data part of `await_suspend`: `wait_for_seconds` and `wait_for_event`
take the current tick as their start tick, the other wait objects keep their
members. -/
def await_suspend (a : awaitable) (tick : Nat) : awaitable :=
  match a with
  | .wait_for_seconds _ s => .wait_for_seconds tick s
  | .wait_for_event T _ s e r => .wait_for_event T tick s e r
  | a => a

/-- Result of `wait_for_event<T>::await_resume`, for the other wait objects `none`. -/
def await_resume (a : awaitable) : Option Nat :=
  match a with
  | .wait_for_event _ _ _ _ r => r
  | _ => none

/-- The promise object of a coroutine frame. -/
structure promise_type where
  awaitable_ptr : Option awaitable

/-- The state of a coroutine frame as seen through its handle: `done` is
`handle.done()`, `rest` is the code after the current suspension point. -/
structure frame where
  done : Bool
  promise : promise_type
  rest : awaitable → Nat → Body

/-- Runs a body from its current point to its next suspension.  At `co_await a`
the wait object is attached to the promise (`on_suspend`).  At the end of a
body that has suspended before, `final_suspend` finds the pointer of the last
wait, clears it and suspends: the frame stays and the coroutine is done.  (A
body that ends without ever having suspended is not run through here: see
`start`.) -/
def run (b : Body) (tick : Nat) : frame :=
  match b with
  | .finish => { done := true, promise := ⟨none⟩, rest := fun _ _ => .finish }
  | .await a k => { done := false, promise := ⟨some (await_suspend a tick)⟩, rest := k }

/-- The call `handle.resume()` on a suspended frame at tick `tick`. -/
def resume (f : frame) (tick : Nat) : frame :=
  match f.promise.awaitable_ptr with
  | none => f
  | some a => run (f.rest a tick) tick

/-- The struct `coroutine_t` of `coroutine_await.h`: the coroutine handle and the id. -/
structure coroutine_t where
  handle : Option frame
  id : Nat

/-- What the caller of a coroutine function holds when the call returns: a
`coroutine_t` whose handle points to the frame suspended at its first wait, or
a `coroutine_t` whose handle dangles because the frame has been destroyed. -/
inductive started where
  | dangling : started
  | suspended (c : coroutine_t) : started

/-- The call of a coroutine function at tick `tick`: `get_return_object` builds
the `coroutine_t` with id 0, `initial_suspend` does not suspend, so the body
runs at once.  When it suspends, the caller gets the handle of the suspended
frame.  When it returns without having suspended, `final_suspend` finds
`awaitable_ptr` null and returns `suspend_if(false)`: the coroutine is not
suspended at its end, its frame is destroyed, and the handle in the
`coroutine_t` that the caller gets dangles. -/
def start (body : Nat → Body) (tick : Nat) : started :=
  match body tick with
  | .finish => .dangling
  | .await a k => .suspended { handle := some (run (.await a k) tick), id := 0 }

/-- The member `coroutine_t::is_done()` of `coroutine_await.h`. -/
def coroutine_t.is_done (c : coroutine_t) : Bool :=
  match c.handle with
  | none => true
  | some h => if h.done then true else h.promise.awaitable_ptr.isNone

/-- The effect of `close()` on the object (its return value is always `true`). -/
def coroutine_t.close (c : coroutine_t) : coroutine_t :=
  match c.handle with
  | none => c
  | some _ => { handle := none, id := 0 }

/-- The data members of `coroutine_manager` in `coroutine_await.h`. -/
structure coroutine_manager where
  coroutines : List coroutine_t
  free_indexes : List Nat
  serial : Nat
  cur_tick : Nat

/-- Constructor `coroutine_manager(tick)`. -/
def new_manager (tick : Nat) : coroutine_manager :=
  { coroutines := [], free_indexes := [], serial := 0, cur_tick := tick }

/-- The member `coroutine_manager::get_coroutine(id)` of `coroutine_await.h`; the pointer it
returns is the slot it points to. -/
def get_coroutine (m : coroutine_manager) (id : Nat) : Except fault (Option coroutine_t) :=
  let _index := index_of id
  if _index > m.coroutines.length then .ok none
  else
    match m.coroutines[_index]? with
    | none => .error (.out_of_range _index m.coroutines.length)
    | some c =>
      if c.id ≠ id then .ok none
      else if c.is_done then .ok none
      else .ok (some c)

/-- The member `coroutine_manager::exists_coroutine(id)` of `coroutine_await.h`. -/
def exists_coroutine (m : coroutine_manager) (id : Nat) : Except fault Bool :=
  match get_coroutine m id with
  | .error e => .error e
  | .ok r => .ok r.isSome

/-- The member `coroutine_manager::destroy_coroutine(id)` of `coroutine_await.h`: its return
value and the manager afterwards. -/
def destroy_coroutine (m : coroutine_manager) (id : Nat) :
    Except fault (Bool × coroutine_manager) :=
  let _index := index_of id
  if _index > m.coroutines.length then .ok (false, m)
  else
    match m.coroutines[_index]? with
    | none => .error (.out_of_range _index m.coroutines.length)
    | some c =>
      if c.id ≠ id then .ok (false, m)
      else if c.is_done then .ok (false, m)
      else
        .ok (true, { m with
          coroutines := m.coroutines.set _index c.close
          free_indexes := m.free_indexes ++ [_index] })

/-- The value of `serial` after `++serial; if (serial == 0) serial = 1;`. -/
def next_serial (serial : Nat) : Nat :=
  if (serial + 1) % 2 ^ 32 = 0 then 1 else (serial + 1) % 2 ^ 32

/-- The member `coroutine_manager::create_coroutine(handler)` of `coroutine_await.h`: the id
it returns and the manager afterwards. -/
def create_coroutine (m : coroutine_manager) (handler : coroutine_t) :
    Except fault (Nat × coroutine_manager) :=
  if handler.is_done then .ok (0, m)
  else
    let (index, m1) :=
      match m.free_indexes with
      | i :: rest => (i, { m with free_indexes := rest })
      | [] => (m.coroutines.length, { m with coroutines := m.coroutines ++ [handler] })
    if index > UINT_MAX then .ok (0, m1)
    else
      let serial := next_serial m1.serial
      let id := ((index <<< 32) % 2 ^ 64) ||| serial
      if index < m1.coroutines.length then
        .ok (id, { m1 with
          serial := serial
          coroutines := m1.coroutines.set index { handle := handler.handle, id := id } })
      else .error (.out_of_range index m1.coroutines.length)

/-- The call `create_coroutine(f(...))` of `coroutine_await.h` with the `coroutine_t` that the
call of a coroutine function has returned.  The first thing `create_coroutine`
does is `handler.is_done()`; on a dangling handle that is not null, so
`handle.done()` is evaluated on the destroyed frame. -/
def create_started (m : coroutine_manager) (s : started) :
    Except fault (Nat × coroutine_manager) :=
  match s with
  | .dangling => .error .destroyed_frame
  | .suspended c => create_coroutine m c

/-- The loop of `wait_for_coroutine_group::can_resume` over the listed ids. -/
def group_can_resume (m : coroutine_manager) : List Nat → Except fault Bool
  | [] => .ok true
  | id :: ids =>
    match exists_coroutine m id with
    | .error e => .error e
    | .ok true => .ok false
    | .ok false => group_can_resume m ids

/-- The virtual call `awaitable::can_resume()`; `get_cur_tick()` and
`coroutine_manager::instance` are the manager `m`. -/
def can_resume (m : coroutine_manager) (a : awaitable) : Except fault Bool :=
  match a with
  | .wait_for_seconds start_tick timeout_seconds =>
    .ok (timed_out m.cur_tick start_tick timeout_seconds)
  | .wait_for_frame start_tick => .ok (decide (m.cur_tick > start_tick))
  | .wait_for_event _ start_tick timeout_seconds _ _ =>
    .ok (timed_out m.cur_tick start_tick timeout_seconds)
  | .wait_for_coroutine wait_coroutine_id =>
    match exists_coroutine m wait_coroutine_id with
    | .error e => .error e
    | .ok r => .ok (!r)
  | .wait_for_coroutine_group wait_coroutine_groups => group_can_resume m wait_coroutine_groups

/-- The body of the loop of `update` for slot `i`. -/
def update_step (m : coroutine_manager) (i : Nat) : Except fault coroutine_manager :=
  match m.coroutines[i]? with
  | none => .ok m
  | some c =>
    if c.is_done then
      if c.handle.isSome then
        .ok { m with
          coroutines := m.coroutines.set i c.close
          free_indexes := m.free_indexes ++ [i] }
      else .ok m
    else
      match c.handle with
      | none => .ok m
      | some f =>
        match f.promise.awaitable_ptr with
        | none => .ok m
        | some a =>
          match can_resume m a with
          | .error e => .error e
          | .ok true =>
            .ok { m with
              coroutines := m.coroutines.set i { c with handle := some (resume f m.cur_tick) } }
          | .ok false => .ok m

/-- The loop `for (i = ...; i < coroutines.size(); i++)` of `update`, with `n`
bounding the number of iterations that are left. -/
def update_loop : Nat → Nat → coroutine_manager → Except fault coroutine_manager
  | 0, _, m => .ok m
  | n + 1, i, m =>
    if i < m.coroutines.length then
      match update_step m i with
      | .error e => .error e
      | .ok m1 => update_loop n (i + 1) m1
    else .ok m

/-- The member `coroutine_manager::update(tick)` of `coroutine_await.h`. -/
def update (m : coroutine_manager) (tick : Nat) : Except fault coroutine_manager :=
  update_loop m.coroutines.length 0 { m with cur_tick := tick }

/-- The body of the loop of `trigger_event<T>` for slot `i`. -/
def trigger_step (m : coroutine_manager) (T : Nat) (event_id : Int) (ret_value : Option Nat)
    (i : Nat) : coroutine_manager :=
  match m.coroutines[i]? with
  | none => m
  | some c =>
    if c.is_done then m
    else
      match c.handle with
      | none => m
      | some f =>
        match f.promise.awaitable_ptr with
        | some (.wait_for_event T1 start_tick timeout_seconds event_id1 _) =>
          if T1 ≠ T then m
          else if event_id1 ≠ event_id then m
          else if f.done then m
          else
            let f1 : frame := { f with promise :=
              ⟨some (.wait_for_event T1 start_tick timeout_seconds event_id1 ret_value)⟩ }
            { m with
              coroutines := m.coroutines.set i { c with handle := some (resume f1 m.cur_tick) } }
        | _ => m

/-- The loop of `trigger_event<T>`, with `n` bounding the iterations that are left. -/
def trigger_loop (T : Nat) (event_id : Int) (ret_value : Option Nat) :
    Nat → Nat → coroutine_manager → coroutine_manager
  | 0, _, m => m
  | n + 1, i, m =>
    if i < m.coroutines.length then
      trigger_loop T event_id ret_value n (i + 1) (trigger_step m T event_id ret_value i)
    else m

/-- The member `coroutine_manager::trigger_event<T>(event_id, ret_value)` of
`coroutine_await.h`. -/
def trigger_event (m : coroutine_manager) (T : Nat) (event_id : Int) (ret_value : Option Nat) :
    coroutine_manager :=
  trigger_loop T event_id ret_value m.coroutines.length 0 m

/-- The tag standing for the payload type `float` of `wait_for_event<float>`. -/
def float_tag : Nat := 0

/-- The body `coroutine1_wait_for_seconds` of `test_await.cpp` (console output left out). -/
def coroutine1_wait_for_seconds (seconds : ℚ) : Nat → Body :=
  fun tick => .await (new_wait_for_seconds tick seconds) (fun _ _ => .finish)

/-- The body `coroutine2_wait_for_frame` of `test_await.cpp`. -/
def coroutine2_wait_for_frame : Nat → Body :=
  fun tick => .await (new_wait_for_frame tick) (fun _ _ => .finish)

/-- The body `coroutine3_wait_for_event` of `test_await.cpp`; it waits five
seconds at most, whatever `seconds` is. -/
def coroutine3_wait_for_event (event_id : Int) (_seconds : ℚ) : Nat → Body :=
  fun tick => .await (new_wait_for_event float_tag tick event_id 5) (fun _ _ => .finish)

/-- The body `coroutine4_wait_for_coroutine_group` of `test_await.cpp`. -/
def coroutine4_wait_for_coroutine_group (coroutines : List Nat) : Nat → Body :=
  fun _ => .await (.wait_for_coroutine_group coroutines) (fun _ _ => .finish)

/-- Specification of the event fan-out for one slot, after the words of the
design: a slot whose coroutine waits on `wait_for_event<T>` with event id
`event_id` gets the payload and is resumed at once; every other slot stays as
it is. -/
def event_fan_out_slot (tick : Nat) (T : Nat) (event_id : Int) (ret_value : Option Nat)
    (c : coroutine_t) : coroutine_t :=
  match c.handle with
  | none => c
  | some f =>
    if f.done then c
    else
      match f.promise.awaitable_ptr with
      | some (.wait_for_event T1 start_tick timeout_seconds event_id1 _) =>
        if T1 = T ∧ event_id1 = event_id then
          let a1 := awaitable.wait_for_event T1 start_tick timeout_seconds event_id1 ret_value
          { c with handle := some (run (f.rest a1 tick) tick) }
        else c
      | _ => c

/-- One create→destroy cycle: `create_coroutine(handler)` followed by
`destroy_coroutine` of the id it returned.  The result is that id and the
manager afterwards. -/
def cycle (m : coroutine_manager) (handler : coroutine_t) :
    Except fault (Nat × coroutine_manager) :=
  match create_coroutine m handler with
  | .error e => .error e
  | .ok (id, m1) =>
    match destroy_coroutine m1 id with
    | .error e => .error e
    | .ok (_, m2) => .ok (id, m2)

/-- A sequence of create→destroy cycles, one for each listed coroutine: the ids
issued, in order, and the manager afterwards. -/
def cycles : coroutine_manager → List coroutine_t →
    Except fault (List Nat × coroutine_manager)
  | m, [] => .ok ([], m)
  | m, handler :: handlers =>
    match cycle m handler with
    | .error e => .error e
    | .ok (id, m1) =>
      match cycles m1 handlers with
      | .error e => .error e
      | .ok (ids, m2) => .ok (id :: ids, m2)

/-- A manager whose table holds `2 ^ 32` waiting coroutines, with the ids that
`2 ^ 32` calls of `create_coroutine` on a fresh manager hand out, and whose
free-list is empty. -/
def table_at_capacity : coroutine_manager :=
  { coroutines := (List.range (2 ^ 32)).map (fun i =>
      { handle := some (run (coroutine2_wait_for_frame 0) 0)
        id := i * 2 ^ 32 + (i % (2 ^ 32 - 1) + 1) })
    free_indexes := []
    serial := 1
    cur_tick := 0 }

/-- The frame as the manager finds it while the body runs after
`handle.resume()`: nothing on the way into the body writes the promise
(`awaitable_ptr` is written by `get_return_object`, by `on_suspend` at the next
`co_await` and by `final_suspend` at the end of the body), so the wait object
the coroutine was resumed from is still attached; `handle.done()` is false. -/
def frame.running (f : frame) : frame :=
  { f with done := false }

/-- The wait object attached to slot `i`, `none` when the slot holds no
coroutine or its `awaitable_ptr` is null. -/
def attached (m : coroutine_manager) (i : Nat) : Option awaitable :=
  match m.coroutines[i]? with
  | some c =>
    match c.handle with
    | some f => f.promise.awaitable_ptr
    | none => none
  | none => none

/-- A body that awaits one `wait_for_event<float>` object twice and shows in
the table what the second wait gave it: it returns when `await_resume` gave
the null pointer and waits for the next frame otherwise.

    wait_for_event<float> w(event_id, seconds);
    co_await w;
    const float* r = co_await w;
    if (r != nullptr) co_await wait_for_frame();
-/
def coroutine_waits_twice (event_id : Int) (seconds : ℚ) : Nat → Body :=
  fun tick => .await (new_wait_for_event float_tag tick event_id seconds)
    (fun w _ => .await w
      (fun w2 tick2 =>
        match await_resume w2 with
        | none => .finish
        | some _ => .await (new_wait_for_frame tick2) (fun _ _ => .finish)))

/-- A body that declares a `wait_for_frame` object at its start, waits for the
next frame on a temporary, and then waits on the object declared at the start:
`wait_for_frame w; co_await wait_for_frame(); co_await w;`. -/
def coroutine_waits_on_early_frame : Nat → Body :=
  fun tick => .await (new_wait_for_frame tick)
    (fun _ _ => .await (new_wait_for_frame tick) (fun _ _ => .finish))

/-- The manager after `create_coroutine(coroutine_waits_twice(1, 5))` on a
manager constructed at tick 0. -/
def waits_twice_created : coroutine_manager :=
  { coroutines := [{ handle := some (run (coroutine_waits_twice 1 5 0) 0), id := 1 }]
    free_indexes := []
    serial := 1
    cur_tick := 0 }

/-- The manager while the body of `coroutine_waits_twice(1, 5)` runs after
`trigger_event<float>(1, payload 10)` has stored the payload in its wait object
and called `resume()`: control is inside the body, between the first and the
second `co_await`. -/
def waits_twice_running : coroutine_manager :=
  let f := run (coroutine_waits_twice 1 5 0) 0
  let f1 : frame :=
    { f with promise := ⟨some (.wait_for_event float_tag 0 5 1 (some 10))⟩ }
  { coroutines := [{ handle := some f1.running, id := 1 }]
    free_indexes := []
    serial := 1
    cur_tick := 0 }

/-- The manager states a caller can bring about: a freshly constructed manager,
and the state after any public operation that returns. -/
inductive reachable : coroutine_manager → Prop where
  | fresh (tick : Nat) : reachable (new_manager tick)
  | create (m m1 : coroutine_manager) (body : Nat → Body) (id : Nat) :
      reachable m → create_started m (start body m.cur_tick) = .ok (id, m1) → reachable m1
  | destroy (m m1 : coroutine_manager) (id : Nat) (r : Bool) :
      reachable m → destroy_coroutine m id = .ok (r, m1) → reachable m1
  | update (m m1 : coroutine_manager) (tick : Nat) :
      reachable m → update m tick = .ok m1 → reachable m1
  | trigger_event (m : coroutine_manager) (T : Nat) (event_id : Int) (ret_value : Option Nat) :
      reachable m → reachable (trigger_event m T event_id ret_value)

/-- The invariant of the slot table and the free-list: every free-list entry
names a closed slot of the table (null handle, id 0), no entry occurs twice,
the id stored in an occupied slot with a 32-bit index names that slot and
is not 0, and a slot that stores an id other than 0 is occupied and has a
32-bit index. -/
def table_invariant (m : coroutine_manager) : Prop :=
  (∀ i ∈ m.free_indexes, m.coroutines[i]? = some { handle := none, id := 0 }) ∧
  m.free_indexes.Nodup ∧
  (∀ (i : Nat) (c : coroutine_t), m.coroutines[i]? = some c → c.handle ≠ none →
    i ≤ UINT_MAX → index_of c.id = i ∧ c.id ≠ 0) ∧
  (∀ (i : Nat) (c : coroutine_t), m.coroutines[i]? = some c → c.id ≠ 0 →
    c.handle ≠ none ∧ i ≤ UINT_MAX)

end coroutine_await

namespace coroutine_yield

/-- The wait objects of `coroutine_yield.h` (the classes derived from
`yield_constructor`) with their data members.  A `void*` result is `Option Nat`
(`none` is `nullptr`). -/
inductive yield_constructor where
  | wait_for_seconds (start_tick : Nat) (timeout_seconds : ℚ)
  | wait_for_frame
  | wait_for_event (start_tick : Nat) (triggered : Bool) (event_id : Int) (timeout_seconds : ℚ)
      (result : Option Nat)
  | wait_for_coroutine (coroutine_id : Nat)
  | wait_for_coroutine_group (wait_coroutine_groups : List Nat)

/-- A coroutine body from its current point on: it returns, or it evaluates
`co_yield c` for a pointer `c` to a wait object (`none` is `nullptr`) and
continues with `k` once resumed; `k` sees the wait object as it stands then. -/
inductive Body where
  | finish : Body
  | yield (c : Option yield_constructor) (k : Option yield_constructor → Nat → Body) : Body

/-- Constructor `wait_for_seconds(seconds)`. -/
def new_wait_for_seconds (seconds : ℚ) : yield_constructor :=
  .wait_for_seconds 0 seconds

/-- Constructor `wait_for_event(event_id, seconds)`. -/
def new_wait_for_event (event_id : Int) (seconds : ℚ) : yield_constructor :=
  .wait_for_event 0 false event_id seconds none

/-- The virtual call `start()` at tick `tick`. -/
def yield_constructor.start (c : yield_constructor) (tick : Nat) : yield_constructor :=
  match c with
  | .wait_for_seconds _ s => .wait_for_seconds tick s
  | .wait_for_event _ _ e s r => .wait_for_event tick false e s r
  | c => c

/-- The virtual call `trigger(_event_id, _result)`: its return value and the
wait object afterwards. -/
def yield_constructor.trigger (c : yield_constructor) (_event_id : Int) (_result : Option Nat) :
    Int × yield_constructor :=
  match c with
  | .wait_for_event start_tick triggered event_id timeout_seconds _ =>
    if event_id ≠ _event_id then (-1, c)
    else if triggered then (0, c)
    else (1, .wait_for_event start_tick true event_id timeout_seconds _result)
  | c => (-1, c)

/-- The promise object of a coroutine frame; `constructor_ptr` is its member
`constructor`. -/
structure promise_type where
  constructor_ptr : Option yield_constructor

/-- The state of a coroutine frame as seen through its handle: `done` is
`handle.done()`, `rest` is the code after the current suspension point. -/
structure frame where
  done : Bool
  promise : promise_type
  rest : Option yield_constructor → Nat → Body

/-- Runs a body from its current point to its next suspension.  At `co_yield c`
`yield_value` starts the wait object when the pointer is not null and stores
the pointer in the promise.  At the end of a body that has suspended before on
a wait object, `final_suspend` finds the pointer of the last wait, clears it
and suspends: the frame stays and the coroutine is done.  (A body that ends
without ever having suspended is not run through here: see `start`.) -/
def run (b : Body) (tick : Nat) : frame :=
  match b with
  | .finish => { done := true, promise := ⟨none⟩, rest := fun _ _ => .finish }
  | .yield c k =>
    { done := false, promise := ⟨c.map (fun w => w.start tick)⟩, rest := k }

/-- The call `handle.resume()` on a suspended frame at tick `tick`. -/
def resume (f : frame) (tick : Nat) : frame :=
  run (f.rest f.promise.constructor_ptr tick) tick

/-- The struct `coroutine_t` of `coroutine_yield.h`: the coroutine handle and the id. -/
structure coroutine_t where
  handle : Option frame
  id : Nat

/-- What the caller of a coroutine function holds when the call returns: a
`coroutine_t` whose handle points to the frame suspended at its first wait, or
a `coroutine_t` whose handle dangles because the frame has been destroyed. -/
inductive started where
  | dangling : started
  | suspended (c : coroutine_t) : started

/-- The call of a coroutine function at tick `tick`: `get_return_object` builds
the `coroutine_t` with id 0, `initial_suspend` does not suspend, so the body
runs at once.  When it suspends, the caller gets the handle of the suspended
frame.  When it returns without having suspended, `final_suspend` finds
`constructor` null and returns `suspend_if(false)`: the coroutine is not
suspended at its end, its frame is destroyed, and the handle in the
`coroutine_t` that the caller gets dangles. -/
def start (body : Nat → Body) (tick : Nat) : started :=
  match body tick with
  | .finish => .dangling
  | .yield c k => .suspended { handle := some (run (.yield c k) tick), id := 0 }

/-- The member `coroutine_t::is_done()` of `coroutine_yield.h`. -/
def coroutine_t.is_done (c : coroutine_t) : Bool :=
  match c.handle with
  | none => true
  | some h => if h.done then true else h.promise.constructor_ptr.isNone

/-- The effect of `close()` on the object (its return value is always `true`). -/
def coroutine_t.close (c : coroutine_t) : coroutine_t :=
  match c.handle with
  | none => c
  | some _ => { handle := none, id := 0 }

/-- The data members of `coroutine_manager` in `coroutine_yield.h`. -/
structure coroutine_manager where
  coroutines : List coroutine_t
  free_indexes : List Nat
  serial : Nat
  cur_tick : Nat

/-- Constructor `coroutine_manager(tick)`. -/
def new_manager (tick : Nat) : coroutine_manager :=
  { coroutines := [], free_indexes := [], serial := 0, cur_tick := tick }

/-- The member `coroutine_manager::get_coroutine(id)` of `coroutine_yield.h`; the pointer it
returns is the slot it points to. -/
def get_coroutine (m : coroutine_manager) (id : Nat) : Except fault (Option coroutine_t) :=
  let _index := index_of id
  if _index > m.coroutines.length then .ok none
  else
    match m.coroutines[_index]? with
    | none => .error (.out_of_range _index m.coroutines.length)
    | some c =>
      if c.id ≠ id then .ok none
      else if c.is_done then .ok none
      else .ok (some c)

/-- The member `coroutine_manager::exists_coroutine(id)` of `coroutine_yield.h`. -/
def exists_coroutine (m : coroutine_manager) (id : Nat) : Except fault Bool :=
  match get_coroutine m id with
  | .error e => .error e
  | .ok r => .ok r.isSome

/-- The member `coroutine_manager::destroy_coroutine(id)` of `coroutine_yield.h`: its return
value and the manager afterwards. -/
def destroy_coroutine (m : coroutine_manager) (id : Nat) :
    Except fault (Bool × coroutine_manager) :=
  let _index := index_of id
  if _index > m.coroutines.length then .ok (false, m)
  else
    match m.coroutines[_index]? with
    | none => .error (.out_of_range _index m.coroutines.length)
    | some c =>
      if c.id ≠ id then .ok (false, m)
      else if c.is_done then .ok (false, m)
      else
        .ok (true, { m with
          coroutines := m.coroutines.set _index c.close
          free_indexes := m.free_indexes ++ [_index] })

/-- The value of `serial` after `++serial; if (serial == 0) serial = 1;`. -/
def next_serial (serial : Nat) : Nat :=
  if (serial + 1) % 2 ^ 32 = 0 then 1 else (serial + 1) % 2 ^ 32

/-- The member `coroutine_manager::create_coroutine(handler)` of `coroutine_yield.h`: the id
it returns and the manager afterwards. -/
def create_coroutine (m : coroutine_manager) (handler : coroutine_t) :
    Except fault (Nat × coroutine_manager) :=
  if handler.is_done then .ok (0, m)
  else
    let (index, m1) :=
      match m.free_indexes with
      | i :: rest => (i, { m with free_indexes := rest })
      | [] => (m.coroutines.length, { m with coroutines := m.coroutines ++ [handler] })
    if index > UINT_MAX then .ok (0, m1)
    else
      let serial := next_serial m1.serial
      let id := ((index <<< 32) % 2 ^ 64) ||| serial
      if index < m1.coroutines.length then
        .ok (id, { m1 with
          serial := serial
          coroutines := m1.coroutines.set index { handle := handler.handle, id := id } })
      else .error (.out_of_range index m1.coroutines.length)

/-- The call `create_coroutine(f(...))` of `coroutine_yield.h` with the `coroutine_t` that the
call of a coroutine function has returned.  The first thing `create_coroutine`
does is `handler.is_done()`; on a dangling handle that is not null, so
`handle.done()` is evaluated on the destroyed frame. -/
def create_started (m : coroutine_manager) (s : started) :
    Except fault (Nat × coroutine_manager) :=
  match s with
  | .dangling => .error .destroyed_frame
  | .suspended c => create_coroutine m c

/-- The loop of `wait_for_coroutine_group::can_resume` over the listed ids. -/
def group_can_resume (m : coroutine_manager) : List Nat → Except fault Bool
  | [] => .ok true
  | id :: ids =>
    match exists_coroutine m id with
    | .error e => .error e
    | .ok true => .ok false
    | .ok false => group_can_resume m ids

/-- The virtual call `yield_constructor::can_resume()`; `get_cur_tick()` and
`coroutine_manager::instance` are the manager `m`. -/
def can_resume (m : coroutine_manager) (c : yield_constructor) : Except fault Bool :=
  match c with
  | .wait_for_seconds start_tick timeout_seconds =>
    .ok (timed_out m.cur_tick start_tick timeout_seconds)
  | .wait_for_frame => .ok true
  | .wait_for_event start_tick _ _ timeout_seconds _ =>
    .ok (timed_out m.cur_tick start_tick timeout_seconds)
  | .wait_for_coroutine coroutine_id =>
    match exists_coroutine m coroutine_id with
    | .error e => .error e
    | .ok r => .ok (!r)
  | .wait_for_coroutine_group wait_coroutine_groups => group_can_resume m wait_coroutine_groups

/-- The body of the loop of `update` for slot `i`. -/
def update_step (m : coroutine_manager) (i : Nat) : Except fault coroutine_manager :=
  match m.coroutines[i]? with
  | none => .ok m
  | some c =>
    if c.is_done then
      if c.handle.isSome then
        .ok { m with
          coroutines := m.coroutines.set i c.close
          free_indexes := m.free_indexes ++ [i] }
      else .ok m
    else
      match c.handle with
      | none => .ok m
      | some f =>
        match f.promise.constructor_ptr with
        | none => .ok m
        | some w =>
          match can_resume m w with
          | .error e => .error e
          | .ok true =>
            .ok { m with
              coroutines := m.coroutines.set i { c with handle := some (resume f m.cur_tick) } }
          | .ok false => .ok m

/-- The loop `for (i = ...; i < coroutines.size(); i++)` of `update`, with `n`
bounding the number of iterations that are left. -/
def update_loop : Nat → Nat → coroutine_manager → Except fault coroutine_manager
  | 0, _, m => .ok m
  | n + 1, i, m =>
    if i < m.coroutines.length then
      match update_step m i with
      | .error e => .error e
      | .ok m1 => update_loop n (i + 1) m1
    else .ok m

/-- The member `coroutine_manager::update(tick)` of `coroutine_yield.h`. -/
def update (m : coroutine_manager) (tick : Nat) : Except fault coroutine_manager :=
  update_loop m.coroutines.length 0 { m with cur_tick := tick }

/-- The body of the loop of `trigger_event` for slot `i`: the manager afterwards
and whether the loop is left by `break`. -/
def trigger_step (m : coroutine_manager) (event_id : Int) (result : Option Nat) (i : Nat) :
    coroutine_manager × Bool :=
  match m.coroutines[i]? with
  | none => (m, false)
  | some c =>
    if c.is_done then (m, false)
    else
      match c.handle with
      | none => (m, false)
      | some f =>
        match f.promise.constructor_ptr with
        | none => (m, false)
        | some w =>
          let (res, w1) := w.trigger event_id result
          if res < 0 then (m, false)
          else
            let f1 : frame := { f with promise := ⟨some w1⟩ }
            if res ≥ 0 then
              ({ m with
                coroutines :=
                  m.coroutines.set i { c with handle := some (resume f1 m.cur_tick) } }, true)
            else
              ({ m with coroutines := m.coroutines.set i { c with handle := some f1 } }, true)

/-- The loop of `trigger_event`, with `n` bounding the iterations that are left. -/
def trigger_loop (event_id : Int) (result : Option Nat) :
    Nat → Nat → coroutine_manager → coroutine_manager
  | 0, _, m => m
  | n + 1, i, m =>
    if i < m.coroutines.length then
      match trigger_step m event_id result i with
      | (m1, true) => m1
      | (m1, false) => trigger_loop event_id result n (i + 1) m1
    else m

/-- The member `coroutine_manager::trigger_event(event_id, result)` of
`coroutine_yield.h`. -/
def trigger_event (m : coroutine_manager) (event_id : Int) (result : Option Nat) :
    coroutine_manager :=
  trigger_loop event_id result m.coroutines.length 0 m

/-- The body `coroutine1_yield_for_seconds` of `test_yield.cpp` (console output left out). -/
def coroutine1_yield_for_seconds (seconds : ℚ) : Nat → Body :=
  fun _ => .yield (some (new_wait_for_seconds seconds)) (fun _ _ => .finish)

/-- The body `coroutine2_yield_for_frame` of `test_yield.cpp`. -/
def coroutine2_yield_for_frame : Nat → Body :=
  fun _ => .yield (some .wait_for_frame) (fun _ _ => .finish)

/-- The body `coroutine3_yield_for_event` of `test_yield.cpp`. -/
def coroutine3_yield_for_event (event_id : Int) (seconds : ℚ) : Nat → Body :=
  fun _ => .yield (some (new_wait_for_event event_id seconds)) (fun _ _ => .finish)

/-- The body `coroutine4_yield_for_coroutine_group` of `test_yield.cpp`. -/
def coroutine4_yield_for_coroutine_group (coroutines : List Nat) : Nat → Body :=
  fun _ => .yield (some (.wait_for_coroutine_group coroutines)) (fun _ _ => .finish)

/-- A manager whose table holds `2 ^ 32` waiting coroutines, with the ids that
`2 ^ 32` calls of `create_coroutine` on a fresh manager hand out, and whose
free-list is empty. -/
def table_at_capacity : coroutine_manager :=
  { coroutines := (List.range (2 ^ 32)).map (fun i =>
      { handle := some (run (coroutine2_yield_for_frame 0) 0)
        id := i * 2 ^ 32 + (i % (2 ^ 32 - 1) + 1) })
    free_indexes := []
    serial := 1
    cur_tick := 0 }

/-- The frame as the manager finds it while the body runs after
`handle.resume()`: nothing on the way into the body writes the promise
(`constructor` is written by `yield_value` at the next `co_yield` and by
`final_suspend` at the end of the body), so the wait object the coroutine was
resumed from is still attached; `handle.done()` is false. -/
def frame.running (f : frame) : frame :=
  { f with done := false }

/-- The wait object attached to slot `i`, `none` when the slot holds no
coroutine or the pointer `constructor` is null. -/
def attached (m : coroutine_manager) (i : Nat) : Option yield_constructor :=
  match m.coroutines[i]? with
  | some c =>
    match c.handle with
    | some f => f.promise.constructor_ptr
    | none => none
  | none => none

/-- The member `result` of a `wait_for_event`, `none` for the other wait objects. -/
def yield_constructor.result (c : yield_constructor) : Option Nat :=
  match c with
  | .wait_for_event _ _ _ _ r => r
  | _ => none

/-- A body that yields one `wait_for_event` object twice and shows in the table
what the second wait left in `result`: it returns when `result` is the null
pointer and waits for the next frame otherwise.

    wait_for_event w(event_id, seconds);
    wait_for_frame next;
    co_yield &w;
    co_yield &w;
    if (w.result != nullptr) co_yield &next;
-/
def coroutine_yields_twice (event_id : Int) (seconds : ℚ) : Nat → Body :=
  fun _ => .yield (some (new_wait_for_event event_id seconds))
    (fun w _ => .yield w
      (fun w2 _ =>
        match w2.bind yield_constructor.result with
        | none => .finish
        | some _ => .yield (some .wait_for_frame) (fun _ _ => .finish)))

/-- The manager after `create_coroutine(coroutine_yields_twice(1, 5))` on a
manager constructed at tick 0. -/
def yields_twice_created : coroutine_manager :=
  { coroutines := [{ handle := some (run (coroutine_yields_twice 1 5 0) 0), id := 1 }]
    free_indexes := []
    serial := 1
    cur_tick := 0 }

/-- The manager while the body of `coroutine_yields_twice(1, 5)` runs after
`trigger_event(1, payload 10)` has called `trigger` on its wait object (which
sets `triggered` and stores the payload) and then `handle.resume()`: control is
inside the body, between the first and the second `co_yield`. -/
def yields_twice_running : coroutine_manager :=
  let f := run (coroutine_yields_twice 1 5 0) 0
  let w1 := (yield_constructor.trigger (.wait_for_event 0 false 1 5 none) 1 (some 10)).2
  let f1 : frame := { f with promise := ⟨some w1⟩ }
  { coroutines := [{ handle := some f1.running, id := 1 }]
    free_indexes := []
    serial := 1
    cur_tick := 0 }

/-- The manager states a caller can bring about: a freshly constructed manager,
and the state after any public operation that returns. -/
inductive reachable : coroutine_manager → Prop where
  | fresh (tick : Nat) : reachable (new_manager tick)
  | create (m m1 : coroutine_manager) (body : Nat → Body) (id : Nat) :
      reachable m → create_started m (start body m.cur_tick) = .ok (id, m1) → reachable m1
  | destroy (m m1 : coroutine_manager) (id : Nat) (r : Bool) :
      reachable m → destroy_coroutine m id = .ok (r, m1) → reachable m1
  | update (m m1 : coroutine_manager) (tick : Nat) :
      reachable m → update m tick = .ok m1 → reachable m1
  | trigger_event (m : coroutine_manager) (event_id : Int) (result : Option Nat) :
      reachable m → reachable (trigger_event m event_id result)

/-- The invariant of the slot table and the free-list: every free-list entry
names a closed slot of the table (null handle, id 0), no entry occurs twice,
the id stored in an occupied slot with a 32-bit index names that slot and
is not 0, and a slot that stores an id other than 0 is occupied and has a
32-bit index. -/
def table_invariant (m : coroutine_manager) : Prop :=
  (∀ i ∈ m.free_indexes, m.coroutines[i]? = some { handle := none, id := 0 }) ∧
  m.free_indexes.Nodup ∧
  (∀ (i : Nat) (c : coroutine_t), m.coroutines[i]? = some c → c.handle ≠ none →
    i ≤ UINT_MAX → index_of c.id = i ∧ c.id ≠ 0) ∧
  (∀ (i : Nat) (c : coroutine_t), m.coroutines[i]? = some c → c.id ≠ 0 →
    c.handle ≠ none ∧ i ≤ UINT_MAX)

end coroutine_yield

/-! ## Arithmetic of ids -/

theorem next_serial_pos_await (s : Nat) : 1 ≤ coroutine_await.next_serial s := by
  unfold coroutine_await.next_serial
  split_ifs <;> omega

theorem next_serial_lt_await (s : Nat) : coroutine_await.next_serial s < 2 ^ 32 := by
  unfold coroutine_await.next_serial
  split_ifs <;> omega

theorem next_serial_pos_yield (s : Nat) : 1 ≤ coroutine_yield.next_serial s := by
  unfold coroutine_yield.next_serial
  split_ifs <;> omega

theorem next_serial_lt_yield (s : Nat) : coroutine_yield.next_serial s < 2 ^ 32 := by
  unfold coroutine_yield.next_serial
  split_ifs <;> omega

/-- The id built by `((uint64_t)index << 32) | serial` is `index * 2^32 + serial`
when both parts fit in 32 bits. -/
theorem make_id_eq (index serial : Nat) (hi : index ≤ UINT_MAX) (hs : serial < 2 ^ 32) :
    ((index <<< 32) % 2 ^ 64) ||| serial = index * 2 ^ 32 + serial := by
  unfold UINT_MAX at hi
  have h1 : index <<< 32 = 2 ^ 32 * index := by rw [Nat.shiftLeft_eq, Nat.mul_comm]
  have h2 : (2 ^ 32 * index) % 2 ^ 64 = 2 ^ 32 * index := Nat.mod_eq_of_lt (by omega)
  rw [h1, h2, ← Nat.mul_add_lt_is_or hs, Nat.mul_comm]

theorem index_of_make_id (index serial : Nat) (hi : index ≤ UINT_MAX) (hs : serial < 2 ^ 32) :
    index_of (index * 2 ^ 32 + serial) = index := by
  unfold UINT_MAX at hi
  unfold index_of
  rw [Nat.shiftRight_eq_div_pow]
  omega

theorem index_of_lt (id : Nat) : index_of id < 2 ^ 32 := by
  unfold index_of
  exact Nat.mod_lt _ (by norm_num)

/-! ## Lookup, creation and destruction in `coroutine_await` -/

theorem await_exists_true_iff (m : coroutine_await.coroutine_manager) (id : Nat) :
    coroutine_await.exists_coroutine m id = .ok true ↔
      ∃ c, m.coroutines[index_of id]? = some c ∧ c.id = id ∧ c.is_done = false := by
  unfold coroutine_await.exists_coroutine coroutine_await.get_coroutine
  simp only []
  split_ifs with h1
  · simp
    intro c hc
    have := (List.getElem?_eq_some_iff.1 hc).1
    omega
  · cases hc : m.coroutines[index_of id]? with
    | none => simp
    | some c =>
      simp only []
      split_ifs with h2 h3 <;> simp_all

theorem await_exists_of_slot (m : coroutine_await.coroutine_manager) (id : Nat) (c : coroutine_await.coroutine_t)
    (hc : m.coroutines[index_of id]? = some c) :
    coroutine_await.exists_coroutine m id = .ok (decide (c.id = id) && !c.is_done) := by
  have hlt := (List.getElem?_eq_some_iff.1 hc).1
  unfold coroutine_await.exists_coroutine coroutine_await.get_coroutine
  simp only [hc]
  rw [if_neg (by omega)]
  split_ifs <;> simp_all

theorem await_close_of_not_done (c : coroutine_await.coroutine_t) (h : c.is_done = false) :
    c.close = { handle := none, id := 0 } := by
  unfold coroutine_await.coroutine_t.is_done at h
  unfold coroutine_await.coroutine_t.close
  cases hh : c.handle with
  | none => simp [hh] at h
  | some f => rfl

theorem await_destroy_of_exists (m : coroutine_await.coroutine_manager) (id : Nat)
    (h : coroutine_await.exists_coroutine m id = .ok true) :
    coroutine_await.destroy_coroutine m id = .ok (true,
      { m with
        coroutines := m.coroutines.set (index_of id) { handle := none, id := 0 }
        free_indexes := m.free_indexes ++ [index_of id] }) := by
  obtain ⟨c, hc, hid, hd⟩ := (await_exists_true_iff m id).1 h
  have hlt := (List.getElem?_eq_some_iff.1 hc).1
  unfold coroutine_await.destroy_coroutine
  simp only [hc]
  rw [if_neg (by omega), if_neg (by simp [hid]), if_neg (by simp [hd]),
    await_close_of_not_done c hd]

theorem await_exists_false_of_closed (m : coroutine_await.coroutine_manager) (id : Nat)
    (h : m.coroutines[index_of id]? = some { handle := none, id := 0 }) :
    coroutine_await.exists_coroutine m id = .ok false := by
  rw [await_exists_of_slot m id _ h]
  simp [coroutine_await.coroutine_t.is_done]

theorem await_destroy_live (m : coroutine_await.coroutine_manager) (id : Nat)
    (h : coroutine_await.exists_coroutine m id = .ok true) :
    ∃ m1 : coroutine_await.coroutine_manager,
      coroutine_await.destroy_coroutine m id = .ok (true, m1) ∧
      coroutine_await.exists_coroutine m1 id = .ok false ∧
      index_of id < m.coroutines.length ∧
      m1.coroutines[index_of id]? = some { handle := none, id := 0 } ∧
      (∀ j, j ≠ index_of id → m1.coroutines[j]? = m.coroutines[j]?) ∧
      m1.coroutines.length = m.coroutines.length ∧
      m1.free_indexes = m.free_indexes ++ [index_of id] ∧
      m1.serial = m.serial ∧ m1.cur_tick = m.cur_tick := by
  obtain ⟨c, hc, hid, hd⟩ := (await_exists_true_iff m id).1 h
  have hlt := (List.getElem?_eq_some_iff.1 hc).1
  refine ⟨_, await_destroy_of_exists m id h, ?_, hlt, ?_, ?_, ?_, rfl, rfl, rfl⟩
  · apply await_exists_false_of_closed
    simp [hlt]
  · simp [hlt]
  · intro j hj
    simp [List.getElem?_set_ne (Ne.symm hj)]
  · simp

theorem await_create_done (m : coroutine_await.coroutine_manager) (handler : coroutine_await.coroutine_t)
    (h : handler.is_done = true) :
    coroutine_await.create_coroutine m handler = .ok (0, m) := by
  unfold coroutine_await.create_coroutine
  rw [if_pos h]

theorem await_create_live (m : coroutine_await.coroutine_manager) (handler : coroutine_await.coroutine_t)
    (hlive : handler.is_done = false)
    (hfree : ∀ i ∈ m.free_indexes, i < m.coroutines.length)
    (hcap : next_index m.free_indexes m.coroutines.length ≤ UINT_MAX) :
    coroutine_await.create_coroutine m handler = .ok
      (next_index m.free_indexes m.coroutines.length * 2 ^ 32 + coroutine_await.next_serial m.serial,
       { coroutines :=
           (if m.free_indexes = [] then m.coroutines ++ [handler] else m.coroutines).set
             (next_index m.free_indexes m.coroutines.length)
             { handle := handler.handle
               id := next_index m.free_indexes m.coroutines.length * 2 ^ 32
                 + coroutine_await.next_serial m.serial }
         free_indexes := m.free_indexes.tail
         serial := coroutine_await.next_serial m.serial
         cur_tick := m.cur_tick }) := by
  unfold coroutine_await.create_coroutine
  rw [if_neg (by simp [hlive])]
  cases hf : m.free_indexes with
  | nil =>
    rw [hf] at hcap
    simp only [next_index] at hcap ⊢
    rw [if_neg (by omega), make_id_eq _ _ hcap (next_serial_lt_await _)]
    simp
  | cons i rest =>
    rw [hf] at hcap
    have hi : i < m.coroutines.length := hfree i (by simp [hf])
    simp only [next_index] at hcap ⊢
    rw [if_neg (by omega), make_id_eq _ _ hcap (next_serial_lt_await _)]
    simp [hi]

/-! ## Lookup, creation and destruction in `coroutine_yield` -/

theorem yield_exists_true_iff (m : coroutine_yield.coroutine_manager) (id : Nat) :
    coroutine_yield.exists_coroutine m id = .ok true ↔
      ∃ c, m.coroutines[index_of id]? = some c ∧ c.id = id ∧ c.is_done = false := by
  unfold coroutine_yield.exists_coroutine coroutine_yield.get_coroutine
  simp only []
  split_ifs with h1
  · simp
    intro c hc
    have := (List.getElem?_eq_some_iff.1 hc).1
    omega
  · cases hc : m.coroutines[index_of id]? with
    | none => simp
    | some c =>
      simp only []
      split_ifs with h2 h3 <;> simp_all

theorem yield_exists_of_slot (m : coroutine_yield.coroutine_manager) (id : Nat) (c : coroutine_yield.coroutine_t)
    (hc : m.coroutines[index_of id]? = some c) :
    coroutine_yield.exists_coroutine m id = .ok (decide (c.id = id) && !c.is_done) := by
  have hlt := (List.getElem?_eq_some_iff.1 hc).1
  unfold coroutine_yield.exists_coroutine coroutine_yield.get_coroutine
  simp only [hc]
  rw [if_neg (by omega)]
  split_ifs <;> simp_all

theorem yield_close_of_not_done (c : coroutine_yield.coroutine_t) (h : c.is_done = false) :
    c.close = { handle := none, id := 0 } := by
  unfold coroutine_yield.coroutine_t.is_done at h
  unfold coroutine_yield.coroutine_t.close
  cases hh : c.handle with
  | none => simp [hh] at h
  | some f => rfl

theorem yield_destroy_of_exists (m : coroutine_yield.coroutine_manager) (id : Nat)
    (h : coroutine_yield.exists_coroutine m id = .ok true) :
    coroutine_yield.destroy_coroutine m id = .ok (true,
      { m with
        coroutines := m.coroutines.set (index_of id) { handle := none, id := 0 }
        free_indexes := m.free_indexes ++ [index_of id] }) := by
  obtain ⟨c, hc, hid, hd⟩ := (yield_exists_true_iff m id).1 h
  have hlt := (List.getElem?_eq_some_iff.1 hc).1
  unfold coroutine_yield.destroy_coroutine
  simp only [hc]
  rw [if_neg (by omega), if_neg (by simp [hid]), if_neg (by simp [hd]),
    yield_close_of_not_done c hd]

theorem yield_exists_false_of_closed (m : coroutine_yield.coroutine_manager) (id : Nat)
    (h : m.coroutines[index_of id]? = some { handle := none, id := 0 }) :
    coroutine_yield.exists_coroutine m id = .ok false := by
  rw [yield_exists_of_slot m id _ h]
  simp [coroutine_yield.coroutine_t.is_done]

theorem yield_destroy_live (m : coroutine_yield.coroutine_manager) (id : Nat)
    (h : coroutine_yield.exists_coroutine m id = .ok true) :
    ∃ m1 : coroutine_yield.coroutine_manager,
      coroutine_yield.destroy_coroutine m id = .ok (true, m1) ∧
      coroutine_yield.exists_coroutine m1 id = .ok false ∧
      index_of id < m.coroutines.length ∧
      m1.coroutines[index_of id]? = some { handle := none, id := 0 } ∧
      (∀ j, j ≠ index_of id → m1.coroutines[j]? = m.coroutines[j]?) ∧
      m1.coroutines.length = m.coroutines.length ∧
      m1.free_indexes = m.free_indexes ++ [index_of id] ∧
      m1.serial = m.serial ∧ m1.cur_tick = m.cur_tick := by
  obtain ⟨c, hc, hid, hd⟩ := (yield_exists_true_iff m id).1 h
  have hlt := (List.getElem?_eq_some_iff.1 hc).1
  refine ⟨_, yield_destroy_of_exists m id h, ?_, hlt, ?_, ?_, ?_, rfl, rfl, rfl⟩
  · apply yield_exists_false_of_closed
    simp [hlt]
  · simp [hlt]
  · intro j hj
    simp [List.getElem?_set_ne (Ne.symm hj)]
  · simp

theorem yield_create_done (m : coroutine_yield.coroutine_manager) (handler : coroutine_yield.coroutine_t)
    (h : handler.is_done = true) :
    coroutine_yield.create_coroutine m handler = .ok (0, m) := by
  unfold coroutine_yield.create_coroutine
  rw [if_pos h]

theorem yield_create_live (m : coroutine_yield.coroutine_manager) (handler : coroutine_yield.coroutine_t)
    (hlive : handler.is_done = false)
    (hfree : ∀ i ∈ m.free_indexes, i < m.coroutines.length)
    (hcap : next_index m.free_indexes m.coroutines.length ≤ UINT_MAX) :
    coroutine_yield.create_coroutine m handler = .ok
      (next_index m.free_indexes m.coroutines.length * 2 ^ 32 + coroutine_yield.next_serial m.serial,
       { coroutines :=
           (if m.free_indexes = [] then m.coroutines ++ [handler] else m.coroutines).set
             (next_index m.free_indexes m.coroutines.length)
             { handle := handler.handle
               id := next_index m.free_indexes m.coroutines.length * 2 ^ 32
                 + coroutine_yield.next_serial m.serial }
         free_indexes := m.free_indexes.tail
         serial := coroutine_yield.next_serial m.serial
         cur_tick := m.cur_tick }) := by
  unfold coroutine_yield.create_coroutine
  rw [if_neg (by simp [hlive])]
  cases hf : m.free_indexes with
  | nil =>
    rw [hf] at hcap
    simp only [next_index] at hcap ⊢
    rw [if_neg (by omega), make_id_eq _ _ hcap (next_serial_lt_yield _)]
    simp
  | cons i rest =>
    rw [hf] at hcap
    have hi : i < m.coroutines.length := hfree i (by simp [hf])
    simp only [next_index] at hcap ⊢
    rw [if_neg (by omega), make_id_eq _ _ hcap (next_serial_lt_yield _)]
    simp [hi]

theorem await_next_index_lt (m : coroutine_await.coroutine_manager) (handler : coroutine_await.coroutine_t)
    (hfree : ∀ i ∈ m.free_indexes, i < m.coroutines.length) :
    next_index m.free_indexes m.coroutines.length
      < (if m.free_indexes = [] then m.coroutines ++ [handler] else m.coroutines).length := by
  cases hf : m.free_indexes with
  | nil => simp [next_index]
  | cons i rest => simpa [next_index] using hfree i (by simp [hf])

theorem await_create_post (m : coroutine_await.coroutine_manager) (handler : coroutine_await.coroutine_t)
    (hlive : handler.is_done = false)
    (hfree : ∀ i ∈ m.free_indexes, i < m.coroutines.length)
    (hcap : next_index m.free_indexes m.coroutines.length ≤ UINT_MAX) :
    ∃ (id : Nat) (m1 : coroutine_await.coroutine_manager),
      coroutine_await.create_coroutine m handler = .ok (id, m1) ∧
      id ≠ 0 ∧
      id >>> 32 = next_index m.free_indexes m.coroutines.length ∧
      id % 2 ^ 32 = m1.serial ∧
      m1.serial = coroutine_await.next_serial m.serial ∧
      coroutine_await.exists_coroutine m1 id = .ok true ∧
      m1.coroutines[next_index m.free_indexes m.coroutines.length]?
        = some { handle := handler.handle, id := id } ∧
      (∀ j, j ≠ next_index m.free_indexes m.coroutines.length →
        m1.coroutines[j]? = m.coroutines[j]?) ∧
      (m.free_indexes ≠ [] → m1.coroutines.length = m.coroutines.length) ∧
      (m.free_indexes = [] → m1.coroutines.length = m.coroutines.length + 1) ∧
      m1.free_indexes = m.free_indexes.tail ∧
      m1.cur_tick = m.cur_tick := by
  have hpos := next_serial_pos_await m.serial
  have hlt := next_serial_lt_await m.serial
  have hin := await_next_index_lt m handler hfree
  have hcap2 : next_index m.free_indexes m.coroutines.length < 2 ^ 32 := by
    unfold UINT_MAX at hcap; omega
  have hslot : ((if m.free_indexes = [] then m.coroutines ++ [handler] else m.coroutines).set
      (next_index m.free_indexes m.coroutines.length)
      ({ handle := handler.handle
         id := next_index m.free_indexes m.coroutines.length * 2 ^ 32
           + coroutine_await.next_serial m.serial } : coroutine_await.coroutine_t))[
        next_index m.free_indexes m.coroutines.length]?
      = some { handle := handler.handle
               id := next_index m.free_indexes m.coroutines.length * 2 ^ 32
                 + coroutine_await.next_serial m.serial } := by
    rw [List.getElem?_set_self hin]
  refine ⟨_, _, await_create_live m handler hlive hfree hcap, ?_, ?_, ?_, rfl, ?_, hslot, ?_, ?_,
    ?_, rfl, rfl⟩
  · omega
  · rw [Nat.shiftRight_eq_div_pow]; omega
  · show _ % 2 ^ 32 = coroutine_await.next_serial m.serial
    omega
  · rw [await_exists_true_iff]
    refine ⟨{ handle := handler.handle, id := _ }, ?_, rfl, hlive⟩
    rw [index_of_make_id _ _ hcap hlt]
    exact hslot
  · intro j hj
    rw [List.getElem?_set_ne (Ne.symm hj)]
    cases hf : m.free_indexes with
    | nil =>
      rw [hf] at hj
      simp only [next_index] at hj
      simp only [if_true]
      by_cases hjl : j < m.coroutines.length
      · rw [List.getElem?_append_left hjl]
      · rw [List.getElem?_eq_none (by simp; omega), List.getElem?_eq_none (by omega)]
    | cons i rest => simp
  · intro hne
    simp [hne]
  · intro he
    simp [he]

theorem await_create_beyond_capacity (m : coroutine_await.coroutine_manager) (handler : coroutine_await.coroutine_t)
    (hlive : handler.is_done = false) (hfree : m.free_indexes = [])
    (hcap : UINT_MAX < m.coroutines.length) :
    coroutine_await.create_coroutine m handler
      = .ok (0, { m with coroutines := m.coroutines ++ [handler] }) := by
  unfold coroutine_await.create_coroutine
  rw [if_neg (by simp [hlive]), hfree]
  simp only []
  rw [if_pos hcap]

theorem yield_next_index_lt (m : coroutine_yield.coroutine_manager) (handler : coroutine_yield.coroutine_t)
    (hfree : ∀ i ∈ m.free_indexes, i < m.coroutines.length) :
    next_index m.free_indexes m.coroutines.length
      < (if m.free_indexes = [] then m.coroutines ++ [handler] else m.coroutines).length := by
  cases hf : m.free_indexes with
  | nil => simp [next_index]
  | cons i rest => simpa [next_index] using hfree i (by simp [hf])

theorem yield_create_post (m : coroutine_yield.coroutine_manager) (handler : coroutine_yield.coroutine_t)
    (hlive : handler.is_done = false)
    (hfree : ∀ i ∈ m.free_indexes, i < m.coroutines.length)
    (hcap : next_index m.free_indexes m.coroutines.length ≤ UINT_MAX) :
    ∃ (id : Nat) (m1 : coroutine_yield.coroutine_manager),
      coroutine_yield.create_coroutine m handler = .ok (id, m1) ∧
      id ≠ 0 ∧
      id >>> 32 = next_index m.free_indexes m.coroutines.length ∧
      id % 2 ^ 32 = m1.serial ∧
      m1.serial = coroutine_yield.next_serial m.serial ∧
      coroutine_yield.exists_coroutine m1 id = .ok true ∧
      m1.coroutines[next_index m.free_indexes m.coroutines.length]?
        = some { handle := handler.handle, id := id } ∧
      (∀ j, j ≠ next_index m.free_indexes m.coroutines.length →
        m1.coroutines[j]? = m.coroutines[j]?) ∧
      (m.free_indexes ≠ [] → m1.coroutines.length = m.coroutines.length) ∧
      (m.free_indexes = [] → m1.coroutines.length = m.coroutines.length + 1) ∧
      m1.free_indexes = m.free_indexes.tail ∧
      m1.cur_tick = m.cur_tick := by
  have hpos := next_serial_pos_yield m.serial
  have hlt := next_serial_lt_yield m.serial
  have hin := yield_next_index_lt m handler hfree
  have hcap2 : next_index m.free_indexes m.coroutines.length < 2 ^ 32 := by
    unfold UINT_MAX at hcap; omega
  have hslot : ((if m.free_indexes = [] then m.coroutines ++ [handler] else m.coroutines).set
      (next_index m.free_indexes m.coroutines.length)
      ({ handle := handler.handle
         id := next_index m.free_indexes m.coroutines.length * 2 ^ 32
           + coroutine_yield.next_serial m.serial } : coroutine_yield.coroutine_t))[
        next_index m.free_indexes m.coroutines.length]?
      = some { handle := handler.handle
               id := next_index m.free_indexes m.coroutines.length * 2 ^ 32
                 + coroutine_yield.next_serial m.serial } := by
    rw [List.getElem?_set_self hin]
  refine ⟨_, _, yield_create_live m handler hlive hfree hcap, ?_, ?_, ?_, rfl, ?_, hslot, ?_, ?_,
    ?_, rfl, rfl⟩
  · omega
  · rw [Nat.shiftRight_eq_div_pow]; omega
  · show _ % 2 ^ 32 = coroutine_yield.next_serial m.serial
    omega
  · rw [yield_exists_true_iff]
    refine ⟨{ handle := handler.handle, id := _ }, ?_, rfl, hlive⟩
    rw [index_of_make_id _ _ hcap hlt]
    exact hslot
  · intro j hj
    rw [List.getElem?_set_ne (Ne.symm hj)]
    cases hf : m.free_indexes with
    | nil =>
      rw [hf] at hj
      simp only [next_index] at hj
      simp only [if_true]
      by_cases hjl : j < m.coroutines.length
      · rw [List.getElem?_append_left hjl]
      · rw [List.getElem?_eq_none (by simp; omega), List.getElem?_eq_none (by omega)]
    | cons i rest => simp
  · intro hne
    simp [hne]
  · intro he
    simp [he]

theorem yield_create_beyond_capacity (m : coroutine_yield.coroutine_manager) (handler : coroutine_yield.coroutine_t)
    (hlive : handler.is_done = false) (hfree : m.free_indexes = [])
    (hcap : UINT_MAX < m.coroutines.length) :
    coroutine_yield.create_coroutine m handler
      = .ok (0, { m with coroutines := m.coroutines ++ [handler] }) := by
  unfold coroutine_yield.create_coroutine
  rw [if_neg (by simp [hlive]), hfree]
  simp only []
  rw [if_pos hcap]

/-! ## The call of a coroutine function -/

theorem await_start_suspended (body : Nat → coroutine_await.Body) (tick : Nat)
    (a : coroutine_await.awaitable) (k : coroutine_await.awaitable → Nat → coroutine_await.Body)
    (hb : body tick = .await a k) :
    coroutine_await.start body tick
      = .suspended { handle := some (coroutine_await.run (body tick) tick), id := 0 } := by
  unfold coroutine_await.start
  rw [hb]

theorem yield_start_suspended (body : Nat → coroutine_yield.Body) (tick : Nat)
    (c : Option coroutine_yield.yield_constructor)
    (k : Option coroutine_yield.yield_constructor → Nat → coroutine_yield.Body)
    (hb : body tick = .yield c k) :
    coroutine_yield.start body tick
      = .suspended { handle := some (coroutine_yield.run (body tick) tick), id := 0 } := by
  unfold coroutine_yield.start
  rw [hb]

/-- Whenever `create_coroutine(f(...))` returns, the call of `f` has given a
`coroutine_t` with id 0 and a handle that is not null, and the result is that
of `create_coroutine` for it. -/
theorem await_create_started_ok (m : coroutine_await.coroutine_manager)
    (body : Nat → coroutine_await.Body) (tick : Nat)
    (r : Nat × coroutine_await.coroutine_manager)
    (h : coroutine_await.create_started m (coroutine_await.start body tick) = .ok r) :
    ∃ c : coroutine_await.coroutine_t, c.id = 0 ∧ c.handle ≠ none ∧
      coroutine_await.start body tick = .suspended c ∧
      coroutine_await.create_coroutine m c = .ok r := by
  unfold coroutine_await.start at h ⊢
  cases hb : body tick with
  | finish => rw [hb] at h; cases h
  | await a k =>
    rw [hb] at h
    exact ⟨_, rfl, Option.some_ne_none _, rfl, h⟩

theorem yield_create_started_ok (m : coroutine_yield.coroutine_manager)
    (body : Nat → coroutine_yield.Body) (tick : Nat)
    (r : Nat × coroutine_yield.coroutine_manager)
    (h : coroutine_yield.create_started m (coroutine_yield.start body tick) = .ok r) :
    ∃ c : coroutine_yield.coroutine_t, c.id = 0 ∧ c.handle ≠ none ∧
      coroutine_yield.start body tick = .suspended c ∧
      coroutine_yield.create_coroutine m c = .ok r := by
  unfold coroutine_yield.start at h ⊢
  cases hb : body tick with
  | finish => rw [hb] at h; cases h
  | yield c k =>
    rw [hb] at h
    exact ⟨_, rfl, Option.some_ne_none _, rfl, h⟩

/-! ## Claims on lookup, creation and destruction -/

/-- C1 (code defect), both headers: when the index of the id equals the table
length, the guard `_index > coroutines.size()` lets it pass, and
`get_coroutine` and `exists_coroutine` read one element past the end of the
table instead of returning empty / false: `coroutines[0]` of the empty table
of a freshly constructed manager for id 0, and `coroutines[1]` of a table of
one slot for the id `1 << 32`. -/
theorem C1_lookup_reads_past_end :
    coroutine_await.get_coroutine (coroutine_await.new_manager 0) 0
        = .error (.out_of_range 0 0) ∧
    coroutine_await.exists_coroutine (coroutine_await.new_manager 0) 0
        = .error (.out_of_range 0 0) ∧
    coroutine_await.exists_coroutine
        ⟨[⟨some (coroutine_await.run (coroutine_await.coroutine2_wait_for_frame 0) 0), 1⟩],
          [], 1, 0⟩ 4294967296
        = .error (.out_of_range 1 1) ∧
    coroutine_yield.get_coroutine (coroutine_yield.new_manager 0) 0
        = .error (.out_of_range 0 0) ∧
    coroutine_yield.exists_coroutine (coroutine_yield.new_manager 0) 0
        = .error (.out_of_range 0 0) ∧
    coroutine_yield.exists_coroutine
        ⟨[⟨some (coroutine_yield.run (coroutine_yield.coroutine2_yield_for_frame 0) 0), 1⟩],
          [], 1, 0⟩ 4294967296
        = .error (.out_of_range 1 1) :=
  ⟨rfl, rfl, rfl, rfl, rfl, rfl⟩

/-- C3 (code defect), both headers: for every manager state and every body that
runs to its end without suspending, the call of the coroutine function leaves
the caller with a dangling handle: no wait object was ever attached, so
`final_suspend` does not suspend and the frame is destroyed when the body
ends.  `create_coroutine` begins with `handler.is_done()`, which finds the
handle not null and calls `handle.done()` on the destroyed frame: the call
reads freed memory where the claim has it return 0. -/
theorem C3_create_of_finished_body_reads_destroyed_frame :
    (∀ (m : coroutine_await.coroutine_manager) (body : Nat → coroutine_await.Body),
      body m.cur_tick = .finish →
        coroutine_await.start body m.cur_tick = .dangling ∧
        coroutine_await.create_started m (coroutine_await.start body m.cur_tick)
          = .error .destroyed_frame) ∧
    (∀ (m : coroutine_yield.coroutine_manager) (body : Nat → coroutine_yield.Body),
      body m.cur_tick = .finish →
        coroutine_yield.start body m.cur_tick = .dangling ∧
        coroutine_yield.create_started m (coroutine_yield.start body m.cur_tick)
          = .error .destroyed_frame) := by
  constructor
  · intro m body hb
    have hs : coroutine_await.start body m.cur_tick = .dangling := by
      unfold coroutine_await.start
      rw [hb]
    exact ⟨hs, by rw [hs]; rfl⟩
  · intro m body hb
    have hs : coroutine_yield.start body m.cur_tick = .dangling := by
      unfold coroutine_yield.start
      rw [hb]
    exact ⟨hs, by rw [hs]; rfl⟩

/-- C3 at a concrete input: a body that returns at once, passed to
`create_coroutine` on a freshly constructed manager. -/
theorem C3_create_of_finished_body_reads_destroyed_frame_witness :
    (fun _ : Nat => coroutine_await.Body.finish) (coroutine_await.new_manager 0).cur_tick
      = .finish ∧
    coroutine_await.create_started (coroutine_await.new_manager 0)
        (coroutine_await.start (fun _ => .finish) 0) = .error .destroyed_frame :=
  ⟨rfl, (C3_create_of_finished_body_reads_destroyed_frame.1 (coroutine_await.new_manager 0)
    (fun _ => .finish) rfl).2⟩

/-- C5 (code defect), both headers: `destroy_coroutine` with an out-of-range id
whose index equals the table length passes the guard
`_index > coroutines.size()` and reads one element past the end of the table
instead of returning false: `coroutines[0]` of the empty table of a freshly
constructed manager for id 0, and `coroutines[1]` of a table of one slot for
the id `1 << 32`. -/
theorem C5_destroy_reads_past_end :
    coroutine_await.destroy_coroutine (coroutine_await.new_manager 0) 0
        = .error (.out_of_range 0 0) ∧
    coroutine_await.destroy_coroutine
        ⟨[⟨some (coroutine_await.run (coroutine_await.coroutine2_wait_for_frame 0) 0), 1⟩],
          [], 1, 0⟩ 4294967296
        = .error (.out_of_range 1 1) ∧
    coroutine_yield.destroy_coroutine (coroutine_yield.new_manager 0) 0
        = .error (.out_of_range 0 0) ∧
    coroutine_yield.destroy_coroutine
        ⟨[⟨some (coroutine_yield.run (coroutine_yield.coroutine2_yield_for_frame 0) 0), 1⟩],
          [], 1, 0⟩ 4294967296
        = .error (.out_of_range 1 1) :=
  ⟨rfl, rfl, rfl, rfl⟩

/-- C6, both headers: for every manager state and every id with
`exists_coroutine(id)` true, `destroy_coroutine(id)` returns true; the slot of
the id is closed (null handle, id 0: the frame is destroyed, not resumed),
`exists_coroutine(id)` is false afterwards, the index of the slot is appended
once to the free-list, and every other slot, the generation counter and the
tick are unchanged. -/
theorem C6_destroy_of_live_id :
    (∀ (m : coroutine_await.coroutine_manager) (id : Nat),
      coroutine_await.exists_coroutine m id = .ok true →
      ∃ m1 : coroutine_await.coroutine_manager,
        coroutine_await.destroy_coroutine m id = .ok (true, m1) ∧
        coroutine_await.exists_coroutine m1 id = .ok false ∧
        index_of id < m.coroutines.length ∧
        m1.coroutines[index_of id]? = some { handle := none, id := 0 } ∧
        (∀ j, j ≠ index_of id → m1.coroutines[j]? = m.coroutines[j]?) ∧
        m1.coroutines.length = m.coroutines.length ∧
        m1.free_indexes = m.free_indexes ++ [index_of id] ∧
        m1.serial = m.serial ∧ m1.cur_tick = m.cur_tick) ∧
    (∀ (m : coroutine_yield.coroutine_manager) (id : Nat),
      coroutine_yield.exists_coroutine m id = .ok true →
      ∃ m1 : coroutine_yield.coroutine_manager,
        coroutine_yield.destroy_coroutine m id = .ok (true, m1) ∧
        coroutine_yield.exists_coroutine m1 id = .ok false ∧
        index_of id < m.coroutines.length ∧
        m1.coroutines[index_of id]? = some { handle := none, id := 0 } ∧
        (∀ j, j ≠ index_of id → m1.coroutines[j]? = m.coroutines[j]?) ∧
        m1.coroutines.length = m.coroutines.length ∧
        m1.free_indexes = m.free_indexes ++ [index_of id] ∧
        m1.serial = m.serial ∧ m1.cur_tick = m.cur_tick) :=
  ⟨await_destroy_live, yield_destroy_live⟩

/-- C6 at a concrete input: the manager after one `create_coroutine` of the
test body `coroutine2_wait_for_frame` on a fresh manager, and its id 1. -/
theorem C6_destroy_of_live_id_witness :
    coroutine_await.exists_coroutine
        ⟨[⟨some (coroutine_await.run (coroutine_await.coroutine2_wait_for_frame 0) 0), 1⟩],
          [], 1, 0⟩ 1 = .ok true ∧
    ∃ m1 : coroutine_await.coroutine_manager,
      coroutine_await.destroy_coroutine
        ⟨[⟨some (coroutine_await.run (coroutine_await.coroutine2_wait_for_frame 0) 0), 1⟩],
          [], 1, 0⟩ 1 = .ok (true, m1) ∧
      coroutine_await.exists_coroutine m1 1 = .ok false ∧
      m1.free_indexes = [0] :=
  ⟨rfl, by
    obtain ⟨m1, h1, h2, _, _, _, _, h7, _, _⟩ := C6_destroy_of_live_id.1
      ⟨[⟨some (coroutine_await.run (coroutine_await.coroutine2_wait_for_frame 0) 0), 1⟩],
        [], 1, 0⟩ 1 rfl
    exact ⟨m1, h1, h2, h7⟩⟩

/-- C4 as stated fails where the capacity guard applies: on a table of `2 ^ 32`
slots with an empty free-list, `create_coroutine` of a body that suspends
returns 0, not a non-zero id. -/
theorem C4_counterexample_at_capacity :
    coroutine_await.create_started coroutine_await.table_at_capacity
        (coroutine_await.start coroutine_await.coroutine2_wait_for_frame 0)
      = .ok (0, { coroutine_await.table_at_capacity with
          coroutines := coroutine_await.table_at_capacity.coroutines ++
            [⟨some (coroutine_await.run (coroutine_await.coroutine2_wait_for_frame 0) 0),
              0⟩] }) := by
  show coroutine_await.create_coroutine coroutine_await.table_at_capacity
      ⟨some (coroutine_await.run (coroutine_await.coroutine2_wait_for_frame 0) 0), 0⟩ = _
  apply await_create_beyond_capacity
  · simp [coroutine_await.coroutine2_wait_for_frame,
      coroutine_await.run, coroutine_await.coroutine_t.is_done]
  · rfl
  · have hlen : coroutine_await.table_at_capacity.coroutines.length = 2 ^ 32 := by
      unfold coroutine_await.table_at_capacity
      rw [List.length_map, List.length_range]
    rw [hlen]
    unfold UINT_MAX
    norm_num

/-- C4 as amended, both headers: for every manager state whose free-list
entries lie inside the table and in which the slot to be used (the oldest
free-list entry, else the table length) is at most `2 ^ 32 - 1`, and every body
that suspends on a wait object, `create_coroutine` stores the coroutine at that
slot; the table length is unchanged when the free-list was not empty and grows
by one otherwise; the returned id is non-zero, `id >> 32` is the slot,
`id mod 2 ^ 32` is the new generation, `exists_coroutine(id)` is true
afterwards, and every other slot is unchanged. -/
theorem C4_create_of_suspended_body :
    (∀ (m : coroutine_await.coroutine_manager) (body : Nat → coroutine_await.Body)
        (a : coroutine_await.awaitable) (k : coroutine_await.awaitable → Nat → coroutine_await.Body),
      body m.cur_tick = .await a k →
      (∀ i ∈ m.free_indexes, i < m.coroutines.length) →
      next_index m.free_indexes m.coroutines.length ≤ UINT_MAX →
      ∃ (id : Nat) (m1 : coroutine_await.coroutine_manager),
        coroutine_await.create_started m (coroutine_await.start body m.cur_tick)
          = .ok (id, m1) ∧
        id ≠ 0 ∧
        id >>> 32 = next_index m.free_indexes m.coroutines.length ∧
        id % 2 ^ 32 = m1.serial ∧
        m1.serial = coroutine_await.next_serial m.serial ∧
        coroutine_await.exists_coroutine m1 id = .ok true ∧
        m1.coroutines[next_index m.free_indexes m.coroutines.length]?
          = some { handle := some (coroutine_await.run (body m.cur_tick) m.cur_tick), id := id } ∧
        (∀ j, j ≠ next_index m.free_indexes m.coroutines.length →
          m1.coroutines[j]? = m.coroutines[j]?) ∧
        (m.free_indexes ≠ [] → m1.coroutines.length = m.coroutines.length) ∧
        (m.free_indexes = [] → m1.coroutines.length = m.coroutines.length + 1) ∧
        m1.free_indexes = m.free_indexes.tail ∧
        m1.cur_tick = m.cur_tick) ∧
    (∀ (m : coroutine_yield.coroutine_manager) (body : Nat → coroutine_yield.Body)
        (c : coroutine_yield.yield_constructor)
        (k : Option coroutine_yield.yield_constructor → Nat → coroutine_yield.Body),
      body m.cur_tick = .yield (some c) k →
      (∀ i ∈ m.free_indexes, i < m.coroutines.length) →
      next_index m.free_indexes m.coroutines.length ≤ UINT_MAX →
      ∃ (id : Nat) (m1 : coroutine_yield.coroutine_manager),
        coroutine_yield.create_started m (coroutine_yield.start body m.cur_tick)
          = .ok (id, m1) ∧
        id ≠ 0 ∧
        id >>> 32 = next_index m.free_indexes m.coroutines.length ∧
        id % 2 ^ 32 = m1.serial ∧
        m1.serial = coroutine_yield.next_serial m.serial ∧
        coroutine_yield.exists_coroutine m1 id = .ok true ∧
        m1.coroutines[next_index m.free_indexes m.coroutines.length]?
          = some { handle := some (coroutine_yield.run (body m.cur_tick) m.cur_tick), id := id } ∧
        (∀ j, j ≠ next_index m.free_indexes m.coroutines.length →
          m1.coroutines[j]? = m.coroutines[j]?) ∧
        (m.free_indexes ≠ [] → m1.coroutines.length = m.coroutines.length) ∧
        (m.free_indexes = [] → m1.coroutines.length = m.coroutines.length + 1) ∧
        m1.free_indexes = m.free_indexes.tail ∧
        m1.cur_tick = m.cur_tick) := by
  constructor
  · intro m body a k hb hfree hcap
    have hlive : (⟨some (coroutine_await.run (body m.cur_tick) m.cur_tick), 0⟩ :
        coroutine_await.coroutine_t).is_done = false := by
      simp [hb, coroutine_await.run, coroutine_await.coroutine_t.is_done]
    rw [await_start_suspended body m.cur_tick a k hb]
    exact await_create_post m _ hlive hfree hcap
  · intro m body c k hb hfree hcap
    have hlive : (⟨some (coroutine_yield.run (body m.cur_tick) m.cur_tick), 0⟩ :
        coroutine_yield.coroutine_t).is_done = false := by
      simp [hb, coroutine_yield.run, coroutine_yield.coroutine_t.is_done]
    rw [yield_start_suspended body m.cur_tick (some c) k hb]
    exact yield_create_post m _ hlive hfree hcap

/-- C4 as amended at a concrete input: the test body `coroutine2_wait_for_frame`
created on a fresh manager. -/
theorem C4_create_of_suspended_body_witness :
    ∃ id m1,
      coroutine_await.create_started (coroutine_await.new_manager 0)
        (coroutine_await.start coroutine_await.coroutine2_wait_for_frame 0) = .ok (id, m1) ∧
      id ≠ 0 ∧ id >>> 32 = 0 ∧ m1.coroutines.length = 1 ∧
      coroutine_await.exists_coroutine m1 id = .ok true := by
  obtain ⟨id, m1, h1, h2, h3, _, _, h6, _, _, _, h10, _⟩ :=
    C4_create_of_suspended_body.1 (coroutine_await.new_manager 0)
      coroutine_await.coroutine2_wait_for_frame _ _ rfl
      (by intro i hi; cases hi) (by decide)
  exact ⟨id, m1, h1, h2, h3, h10 rfl, h6⟩

/-! ## Create→destroy cycles on one slot (`coroutine_await`) -/

theorem next_serial_eq_mod (s : Nat) (h : s < 2 ^ 32) :
    coroutine_await.next_serial s = s % (2 ^ 32 - 1) + 1 := by
  unfold coroutine_await.next_serial
  split_ifs <;> omega

/-- The generation counter after `j + 1` successful creations. -/
theorem next_serial_iterate (s j : Nat) :
    coroutine_await.next_serial^[j + 1] s
      = (coroutine_await.next_serial s - 1 + j) % (2 ^ 32 - 1) + 1 := by
  induction j with
  | zero =>
    have h1 := next_serial_pos_await s
    have h2 := next_serial_lt_await s
    simp only [Function.iterate_succ, Function.iterate_zero, Function.comp_apply, id_eq]
    omega
  | succ j ih =>
    rw [Function.iterate_succ_apply', ih, next_serial_eq_mod _ (by omega)]
    omega

theorem next_serial_iterate_pos (s j : Nat) (hj : 1 ≤ j) :
    1 ≤ coroutine_await.next_serial^[j] s ∧ coroutine_await.next_serial^[j] s < 2 ^ 32 := by
  obtain ⟨i, rfl⟩ : ∃ i, j = i + 1 := ⟨j - 1, by omega⟩
  rw [next_serial_iterate]
  omega

theorem next_serial_iterate_ne (s j k : Nat) (hj : 1 ≤ j) (hjk : j < k)
    (hk : k < j + (2 ^ 32 - 1)) :
    coroutine_await.next_serial^[j] s ≠ coroutine_await.next_serial^[k] s := by
  obtain ⟨i, rfl⟩ : ∃ i, j = i + 1 := ⟨j - 1, by omega⟩
  obtain ⟨l, rfl⟩ : ∃ l, k = l + 1 := ⟨k - 1, by omega⟩
  rw [next_serial_iterate, next_serial_iterate]
  omega

/-- A cycle on a manager whose free-list is empty uses the slot that
`emplace_back` adds and leaves it closed and listed as free. -/
theorem await_cycle_grow (m : coroutine_await.coroutine_manager)
    (h : coroutine_await.coroutine_t) (hlive : h.is_done = false)
    (hfree : m.free_indexes = []) (hcap : m.coroutines.length ≤ UINT_MAX) :
    coroutine_await.cycle m h = .ok
      (m.coroutines.length * 2 ^ 32 + coroutine_await.next_serial m.serial,
       { coroutines := m.coroutines ++ [{ handle := none, id := 0 }]
         free_indexes := [m.coroutines.length]
         serial := coroutine_await.next_serial m.serial
         cur_tick := m.cur_tick }) := by
  have hlt := next_serial_lt_await m.serial
  have hidx : index_of (m.coroutines.length * 4294967296 + coroutine_await.next_serial m.serial)
      = m.coroutines.length := index_of_make_id _ _ hcap hlt
  unfold coroutine_await.cycle
  rw [await_create_live m h hlive (by simp [hfree]) (by simpa [hfree, next_index] using hcap)]
  simp only [hfree, next_index, if_true]
  rw [await_destroy_of_exists]
  · simp [hidx]
  · rw [await_exists_true_iff]
    refine ⟨{ handle := h.handle, id := _ }, ?_, rfl, hlive⟩
    simp [hidx]

/-- A cycle on a manager whose free-list holds exactly the slot `n` reuses that
slot and leaves it closed and listed as free. -/
theorem await_cycle_reuse (l : List coroutine_await.coroutine_t) (n s t : Nat)
    (h : coroutine_await.coroutine_t) (hlive : h.is_done = false)
    (hn : n < l.length) (hcap : n ≤ UINT_MAX) :
    coroutine_await.cycle ⟨l, [n], s, t⟩ h = .ok
      (n * 2 ^ 32 + coroutine_await.next_serial s,
       ⟨l.set n { handle := none, id := 0 }, [n], coroutine_await.next_serial s, t⟩) := by
  have hlt := next_serial_lt_await s
  have hidx : index_of (n * 4294967296 + coroutine_await.next_serial s) = n :=
    index_of_make_id _ _ hcap hlt
  unfold coroutine_await.cycle
  rw [await_create_live _ h hlive (by simpa using hn) (by simpa [next_index] using hcap)]
  simp only [next_index]
  rw [await_destroy_of_exists]
  · simp [hidx]
  · rw [await_exists_true_iff]
    refine ⟨{ handle := h.handle, id := _ }, ?_, rfl, hlive⟩
    simp [hidx, hn]

/-- Any number of cycles on a manager whose free-list holds exactly the closed
slot `n`: the table is as before, the generation counter has advanced once for
each cycle, and the ids issued are the slot index with the successive counter
values. -/
theorem await_cycles_reuse (l : List coroutine_await.coroutine_t) (n t : Nat)
    (hclosed : l[n]? = some { handle := none, id := 0 }) (hcap : n ≤ UINT_MAX)
    (hs : List coroutine_await.coroutine_t) :
    ∀ (s : Nat), (∀ x ∈ hs, x.is_done = false) →
    ∃ ids, coroutine_await.cycles ⟨l, [n], s, t⟩ hs = .ok
      (ids, ⟨l, [n], coroutine_await.next_serial^[hs.length] s, t⟩) ∧
      ids.length = hs.length ∧
      (∀ i (hi : i < ids.length),
        ids[i] = n * 2 ^ 32 + coroutine_await.next_serial^[i + 1] s) := by
  have hn := (List.getElem?_eq_some_iff.1 hclosed).1
  have hset : l.set n { handle := none, id := 0 } = l := by
    apply List.ext_getElem?
    intro j
    by_cases hj : n = j
    · subst hj
      rw [List.getElem?_set_self hn, hclosed]
    · rw [List.getElem?_set_ne hj]
  induction hs with
  | nil =>
    intro s _
    exact ⟨[], rfl, rfl, by simp⟩
  | cons h hs ih =>
    intro s hl
    obtain ⟨ids, h1, h2, h3⟩ := ih (coroutine_await.next_serial s)
      (fun x hx => hl x (by simp [hx]))
    refine ⟨(n * 2 ^ 32 + coroutine_await.next_serial s) :: ids, ?_, by simp [h2], ?_⟩
    · unfold coroutine_await.cycles
      rw [await_cycle_reuse l n s t h (hl h (by simp)) hn hcap, hset]
      simp only [h1]
      rfl
    · intro i hi
      cases i with
      | zero => simp
      | succ i =>
        simp only [List.getElem_cons_succ]
        rw [h3 i (by simpa using hi)]
        rfl

/-- Cycles from a manager whose free-list is empty, or holds exactly one slot of
the table: every cycle uses the same slot, the one `next_index` names. -/
theorem await_cycles_on_one_slot (m : coroutine_await.coroutine_manager)
    (hfree : m.free_indexes = [] ∨ ∃ i, m.free_indexes = [i] ∧ i < m.coroutines.length)
    (hcap : next_index m.free_indexes m.coroutines.length ≤ UINT_MAX)
    (hs : List coroutine_await.coroutine_t) (hlive : ∀ x ∈ hs, x.is_done = false) :
    ∃ ids m1, coroutine_await.cycles m hs = .ok (ids, m1) ∧
      ids.length = hs.length ∧
      (∀ i (hi : i < ids.length),
        ids[i] = next_index m.free_indexes m.coroutines.length * 2 ^ 32
          + coroutine_await.next_serial^[i + 1] m.serial) ∧
      m1.serial = coroutine_await.next_serial^[hs.length] m.serial ∧
      (hs = [] → m1 = m) ∧
      (hs ≠ [] →
        m1.coroutines[next_index m.free_indexes m.coroutines.length]?
          = some { handle := none, id := 0 } ∧
        m1.free_indexes = [next_index m.free_indexes m.coroutines.length]) := by
  cases hs with
  | nil => exact ⟨[], m, rfl, rfl, by simp, rfl, fun _ => rfl, fun h => absurd rfl h⟩
  | cons h hs =>
    have hh := hlive h (by simp)
    have hrest : ∀ x ∈ hs, x.is_done = false := fun x hx => hlive x (by simp [hx])
    rcases hfree with hfree | ⟨n, hfree, hn⟩
    · rw [hfree] at hcap ⊢
      simp only [next_index] at hcap ⊢
      have hcl : (m.coroutines ++ [({ handle := none, id := 0 } : coroutine_await.coroutine_t)])[
          m.coroutines.length]? = some { handle := none, id := 0 } := by simp
      obtain ⟨ids, h1, h2, h3⟩ := await_cycles_reuse _ m.coroutines.length m.cur_tick hcl hcap hs
        (coroutine_await.next_serial m.serial) hrest
      refine ⟨(m.coroutines.length * 2 ^ 32 + coroutine_await.next_serial m.serial) :: ids,
        ⟨m.coroutines ++ [{ handle := none, id := 0 }], [m.coroutines.length],
          coroutine_await.next_serial^[hs.length] (coroutine_await.next_serial m.serial),
          m.cur_tick⟩, ?_, by simp [h2], ?_, rfl, by simp, fun _ => ⟨hcl, rfl⟩⟩
      · unfold coroutine_await.cycles
        rw [await_cycle_grow m h hh hfree hcap]
        simp only [h1]
      · intro i hi
        cases i with
        | zero => simp
        | succ i =>
          simp only [List.getElem_cons_succ]
          rw [h3 i (by simpa using hi)]
          rfl
    · rw [hfree] at hcap ⊢
      simp only [next_index] at hcap ⊢
      have hcl : (m.coroutines.set n ({ handle := none, id := 0 } : coroutine_await.coroutine_t))[
          n]? = some { handle := none, id := 0 } := by simp [hn]
      obtain ⟨ids, h1, h2, h3⟩ := await_cycles_reuse _ n m.cur_tick hcl hcap hs
        (coroutine_await.next_serial m.serial) hrest
      refine ⟨(n * 2 ^ 32 + coroutine_await.next_serial m.serial) :: ids,
        ⟨m.coroutines.set n { handle := none, id := 0 }, [n],
          coroutine_await.next_serial^[hs.length] (coroutine_await.next_serial m.serial),
          m.cur_tick⟩, ?_, by simp [h2], ?_, rfl, by simp, fun _ => ⟨hcl, rfl⟩⟩
      · unfold coroutine_await.cycles
        have hm : m = ⟨m.coroutines, [n], m.serial, m.cur_tick⟩ := by
          cases m; simp only at hfree; subst hfree; rfl
        rw [hm, await_cycle_reuse m.coroutines n m.serial m.cur_tick h hh hn hcap]
        simp only [h1]
      · intro i hi
        cases i with
        | zero => simp
        | succ i =>
          simp only [List.getElem_cons_succ]
          rw [h3 i (by simpa using hi)]
          rfl

/-- C2 as stated fails once the 32-bit generation counter has gone round: after
`2 ^ 32 - 1` create→destroy cycles on slot 0 of a fresh manager, the next
`create_coroutine` hands out id 1 again, the id of the first cycle, and
`exists_coroutine(1)` is true while that later occupant is live. -/
theorem C2_counterexample_generation_wraps :
    ∃ ids m1 m2,
      coroutine_await.cycles (coroutine_await.new_manager 0)
        (List.replicate (2 ^ 32 - 1)
          ⟨some (coroutine_await.run (coroutine_await.coroutine2_wait_for_frame 0) 0), 0⟩)
        = .ok (ids, m1) ∧
      ids.head? = some 1 ∧
      coroutine_await.create_started m1
        (coroutine_await.start coroutine_await.coroutine2_wait_for_frame 0) = .ok (1, m2) ∧
      coroutine_await.exists_coroutine m2 1 = .ok true := by
  have hl : (⟨some (coroutine_await.run (coroutine_await.coroutine2_wait_for_frame 0) 0), 0⟩ :
      coroutine_await.coroutine_t).is_done = false := rfl
  have hne : List.replicate (2 ^ 32 - 1)
      (⟨some (coroutine_await.run (coroutine_await.coroutine2_wait_for_frame 0) 0), 0⟩ :
        coroutine_await.coroutine_t) ≠ [] := by
    intro h
    have := congrArg List.length h
    rw [List.length_replicate] at this
    exact absurd this (by norm_num)
  obtain ⟨ids, m1, h1, h2, h3, h4, _, h6⟩ := await_cycles_on_one_slot
    (coroutine_await.new_manager 0) (Or.inl rfl) (by unfold UINT_MAX; exact Nat.zero_le _)
    (List.replicate (2 ^ 32 - 1)
      ⟨some (coroutine_await.run (coroutine_await.coroutine2_wait_for_frame 0) 0), 0⟩)
    (fun x hx => by rw [List.eq_of_mem_replicate hx]; exact hl)
  have h6c : m1.coroutines[0]? = some { handle := none, id := 0 } ∧ m1.free_indexes = [0] :=
    h6 hne
  obtain ⟨h6a, h6b⟩ := h6c
  have hlen := (List.getElem?_eq_some_iff.1 h6a).1
  rw [List.length_replicate] at h2 h4
  have hs1 : m1.serial = 2 ^ 32 - 1 := by
    rw [h4, show (2 ^ 32 - 1 : Nat) = 4294967294 + 1 from rfl, next_serial_iterate]
    rfl
  have hcreate := await_create_live m1
    ⟨some (coroutine_await.run (coroutine_await.coroutine2_wait_for_frame 0) 0), 0⟩ hl
    (by rw [h6b]; intro i hi; simp at hi; omega)
    (by rw [h6b]; unfold UINT_MAX; simp [next_index])
  rw [h6b, hs1] at hcreate
  simp only [next_index] at hcreate
  have hid : 0 * 2 ^ 32 + coroutine_await.next_serial (2 ^ 32 - 1) = 1 := rfl
  rw [hid] at hcreate
  refine ⟨ids, m1, _, h1, ?_, hcreate, ?_⟩
  · have hpos : 0 < ids.length := by rw [h2]; norm_num
    rw [List.head?_eq_getElem?, List.getElem?_eq_getElem hpos, h3 0 hpos]
    rfl
  · rw [await_exists_true_iff]
    refine ⟨⟨some (coroutine_await.run (coroutine_await.coroutine2_wait_for_frame 0) 0), 1⟩,
      ?_, rfl, hl⟩
    rw [show index_of 1 = 0 from rfl]
    simp [hlen]

/-- C2 as amended (`coroutine_await`): take any manager whose free-list is
empty or holds exactly one slot of the table, with the slot to be used at most
`2 ^ 32 - 1`, and any sequence of create→destroy cycles of suspended
coroutines; all cycles use that one slot.  Every id issued makes
`exists_coroutine` false once the cycles are over (its slot was reclaimed),
and, when the sequence together with one more creation has at most
`2 ^ 32 - 1` creations, every id issued earlier makes `exists_coroutine` false
while the later occupant of the slot is live (whose own id exists). -/
theorem C2_stale_ids_fail_within_one_wrap (m : coroutine_await.coroutine_manager)
    (hs : List coroutine_await.coroutine_t) (h : coroutine_await.coroutine_t)
    (hfree : m.free_indexes = [] ∨ ∃ i, m.free_indexes = [i] ∧ i < m.coroutines.length)
    (hcap : next_index m.free_indexes m.coroutines.length ≤ UINT_MAX)
    (hlive : ∀ x ∈ hs, x.is_done = false) (hh : h.is_done = false) :
    ∃ ids m1, coroutine_await.cycles m hs = .ok (ids, m1) ∧
      ids.length = hs.length ∧
      (∀ old ∈ ids, index_of old = next_index m.free_indexes m.coroutines.length ∧
        coroutine_await.exists_coroutine m1 old = .ok false) ∧
      (hs.length + 1 ≤ 2 ^ 32 - 1 →
        ∃ id m2, coroutine_await.create_coroutine m1 h = .ok (id, m2) ∧
          index_of id = next_index m.free_indexes m.coroutines.length ∧
          coroutine_await.exists_coroutine m2 id = .ok true ∧
          ∀ old ∈ ids, coroutine_await.exists_coroutine m2 old = .ok false) := by
  obtain ⟨ids, m1, h1, h2, h3, h4, h5, h6⟩ := await_cycles_on_one_slot m hfree hcap hs hlive
  generalize hn : next_index m.free_indexes m.coroutines.length = n at *
  have hold : ∀ old ∈ ids, ∃ i, i < hs.length ∧
      old = n * 2 ^ 32 + coroutine_await.next_serial^[i + 1] m.serial := by
    intro old ho
    obtain ⟨i, hi, rfl⟩ := List.getElem_of_mem ho
    exact ⟨i, by omega, h3 i hi⟩
  have hidx : ∀ j, 1 ≤ j → index_of (n * 2 ^ 32
      + coroutine_await.next_serial^[j] m.serial) = n := fun j hj =>
    index_of_make_id _ _ hcap (next_serial_iterate_pos m.serial j hj).2
  have hshape : next_index m1.free_indexes m1.coroutines.length = n ∧
      ∀ i ∈ m1.free_indexes, i < m1.coroutines.length := by
    by_cases he : hs = []
    · rw [h5 he]
      refine ⟨hn, ?_⟩
      rcases hfree with hf | ⟨i, hf, hi⟩
      · rw [hf]; simp
      · rw [hf]; simpa using hi
    · obtain ⟨g1, g2⟩ := h6 he
      have hlt := (List.getElem?_eq_some_iff.1 g1).1
      rw [g2]
      exact ⟨rfl, by simpa using hlt⟩
  obtain ⟨hcap1, hfree1⟩ := hshape
  refine ⟨ids, m1, h1, h2, ?_, ?_⟩
  · intro old ho
    obtain ⟨i, hi, rfl⟩ := hold old ho
    have hne : hs ≠ [] := by
      intro he; rw [he] at hi; simp at hi
    refine ⟨hidx _ (by omega), ?_⟩
    apply await_exists_false_of_closed
    rw [hidx _ (by omega)]
    exact (h6 hne).1
  · intro hN
    obtain ⟨id, m2, c1, _, c3, _, c5, c6, c7, _⟩ :=
      await_create_post m1 h hh hfree1 (by rw [hcap1]; exact hcap)
    rw [hcap1] at c3 c7
    have hcreate := await_create_live m1 h hh hfree1 (by rw [hcap1]; exact hcap)
    rw [c1] at hcreate
    have hid : id = n * 2 ^ 32 + coroutine_await.next_serial^[hs.length + 1] m.serial := by
      have := congrArg Prod.fst (Except.ok.inj hcreate)
      simp only at this
      rw [this, hcap1, h4, Function.iterate_succ_apply']
    have hidx2 : index_of id = n := by
      rw [hid]; exact hidx _ (by omega)
    refine ⟨id, m2, c1, hidx2, c6, ?_⟩
    intro old ho
    obtain ⟨i, hi, rfl⟩ := hold old ho
    have hslot : m2.coroutines[index_of (n * 2 ^ 32
        + coroutine_await.next_serial^[i + 1] m.serial)]?
        = some { handle := h.handle, id := id } := by
      rw [hidx _ (by omega)]; exact c7
    rw [await_exists_of_slot m2 _ _ hslot]
    have hne := next_serial_iterate_ne m.serial (i + 1) (hs.length + 1) (by omega) (by omega)
      (by omega)
    have : id ≠ n * 2 ^ 32 + coroutine_await.next_serial^[i + 1] m.serial := by
      rw [hid]; omega
    rw [show (({ handle := h.handle, id := id } : coroutine_await.coroutine_t).id) = id from rfl,
      decide_eq_false this]
    rfl

/-- C2 as amended at a concrete input: two cycles and a third creation on a
fresh manager. -/
theorem C2_stale_ids_fail_within_one_wrap_witness :
    ∃ ids m1 id m2, coroutine_await.cycles (coroutine_await.new_manager 0)
        [⟨some (coroutine_await.run (coroutine_await.coroutine2_wait_for_frame 0) 0), 0⟩,
         ⟨some (coroutine_await.run ((coroutine_await.coroutine1_wait_for_seconds 1) 0) 0), 0⟩]
        = .ok (ids, m1) ∧
      ids.length = 2 ∧
      coroutine_await.create_started m1
        (coroutine_await.start (coroutine_await.coroutine3_wait_for_event 1 5) 0)
        = .ok (id, m2) ∧
      coroutine_await.exists_coroutine m2 id = .ok true ∧
      ∀ old ∈ ids, coroutine_await.exists_coroutine m1 old = .ok false ∧
        coroutine_await.exists_coroutine m2 old = .ok false := by
  obtain ⟨ids, m1, h1, h2, h3, h4⟩ := C2_stale_ids_fail_within_one_wrap
    (coroutine_await.new_manager 0)
    [⟨some (coroutine_await.run (coroutine_await.coroutine2_wait_for_frame 0) 0), 0⟩,
     ⟨some (coroutine_await.run ((coroutine_await.coroutine1_wait_for_seconds 1) 0) 0), 0⟩]
    ⟨some (coroutine_await.run ((coroutine_await.coroutine3_wait_for_event 1 5) 0) 0), 0⟩
    (Or.inl rfl) (by unfold UINT_MAX; exact Nat.zero_le _)
    (by
      intro x hx
      simp only [List.mem_cons, List.mem_singleton, List.not_mem_nil, or_false] at hx
      rcases hx with rfl | rfl <;> rfl)
    rfl
  obtain ⟨id, m2, h5, _, h7, h8⟩ := h4 (by norm_num)
  exact ⟨ids, m1, id, m2, h1, h2, h5, h7, fun old ho => ⟨(h3 old ho).2, h8 old ho⟩⟩

/-! ## `trigger_event<T>` of `coroutine_await` -/

theorem await_trigger_step_fields (m : coroutine_await.coroutine_manager) (T : Nat) (E : Int)
    (v : Option Nat) (i : Nat) :
    (coroutine_await.trigger_step m T E v i).coroutines.length = m.coroutines.length ∧
    (coroutine_await.trigger_step m T E v i).free_indexes = m.free_indexes ∧
    (coroutine_await.trigger_step m T E v i).serial = m.serial ∧
    (coroutine_await.trigger_step m T E v i).cur_tick = m.cur_tick := by
  unfold coroutine_await.trigger_step
  split
  · simp
  · split_ifs
    · simp
    · split
      · simp
      · split
        · split_ifs <;> simp
        · simp

theorem await_trigger_step_other (m : coroutine_await.coroutine_manager) (T : Nat) (E : Int)
    (v : Option Nat) (i j : Nat) (hj : j ≠ i) :
    (coroutine_await.trigger_step m T E v i).coroutines[j]? = m.coroutines[j]? := by
  unfold coroutine_await.trigger_step
  split
  · rfl
  · split_ifs
    · rfl
    · split
      · rfl
      · split
        · split_ifs
          · rfl
          · rfl
          · rfl
          · simp only []
            rw [List.getElem?_set_ne (Ne.symm hj)]
        · rfl

theorem await_trigger_step_self (m : coroutine_await.coroutine_manager) (T : Nat) (E : Int)
    (v : Option Nat) (i : Nat) :
    (coroutine_await.trigger_step m T E v i).coroutines[i]?
      = (m.coroutines[i]?).map (coroutine_await.event_fan_out_slot m.cur_tick T E v) := by
  unfold coroutine_await.trigger_step
  cases hc : m.coroutines[i]? with
  | none => simp [hc]
  | some c =>
    have hlt := (List.getElem?_eq_some_iff.1 hc).1
    rcases c with ⟨_ | ⟨d, ⟨p⟩, k⟩, id⟩
    · simp [coroutine_await.coroutine_t.is_done, coroutine_await.event_fan_out_slot, hc]
    · cases d
      · cases p with
        | none =>
          simp [coroutine_await.coroutine_t.is_done, coroutine_await.event_fan_out_slot, hc]
        | some a =>
          cases a with
          | wait_for_event T1 st tmo E1 rv =>
            by_cases hT : T1 = T
            · by_cases hE : E1 = E
              · simp [coroutine_await.coroutine_t.is_done, coroutine_await.event_fan_out_slot,
                  hT, hE, hlt, coroutine_await.resume]
              · simp [coroutine_await.coroutine_t.is_done, coroutine_await.event_fan_out_slot,
                  hT, hE, hc]
            · simp [coroutine_await.coroutine_t.is_done, coroutine_await.event_fan_out_slot,
                hT, hc]
          | _ =>
            simp [coroutine_await.coroutine_t.is_done, coroutine_await.event_fan_out_slot, hc]
      · simp [coroutine_await.coroutine_t.is_done, coroutine_await.event_fan_out_slot, hc]

theorem await_trigger_loop_spec (T : Nat) (E : Int) (v : Option Nat) :
    ∀ (n i : Nat) (m : coroutine_await.coroutine_manager),
      (coroutine_await.trigger_loop T E v n i m).coroutines.length = m.coroutines.length ∧
      (coroutine_await.trigger_loop T E v n i m).free_indexes = m.free_indexes ∧
      (coroutine_await.trigger_loop T E v n i m).serial = m.serial ∧
      (coroutine_await.trigger_loop T E v n i m).cur_tick = m.cur_tick ∧
      ∀ j, (coroutine_await.trigger_loop T E v n i m).coroutines[j]?
        = if i ≤ j ∧ j < i + n then
            (m.coroutines[j]?).map (coroutine_await.event_fan_out_slot m.cur_tick T E v)
          else m.coroutines[j]? := by
  intro n
  induction n with
  | zero =>
    intro i m
    refine ⟨rfl, rfl, rfl, rfl, fun j => ?_⟩
    rw [if_neg (by omega)]
    rfl
  | succ n ih =>
    intro i m
    unfold coroutine_await.trigger_loop
    by_cases hi : i < m.coroutines.length
    · rw [if_pos hi]
      obtain ⟨f1, f2, f3, f4⟩ := await_trigger_step_fields m T E v i
      obtain ⟨g1, g2, g3, g4, g5⟩ := ih (i + 1) (coroutine_await.trigger_step m T E v i)
      refine ⟨g1.trans f1, g2.trans f2, g3.trans f3, g4.trans f4, fun j => ?_⟩
      rw [g5 j, f4]
      by_cases hji : j = i
      · subst hji
        rw [if_neg (by omega), if_pos (by omega), await_trigger_step_self]
      · rw [await_trigger_step_other m T E v i j hji]
        by_cases hr : i + 1 ≤ j ∧ j < i + 1 + n
        · rw [if_pos hr, if_pos (by omega)]
        · rw [if_neg hr, if_neg (by omega)]
    · rw [if_neg hi]
      refine ⟨rfl, rfl, rfl, rfl, fun j => ?_⟩
      split_ifs with hr
      · rw [List.getElem?_eq_none (by omega)]
        rfl
      · rfl

/-- The whole of `trigger_event<T>` is the fan-out specification applied to
every slot of the table. -/
theorem await_trigger_event_eq_map (m : coroutine_await.coroutine_manager) (T : Nat) (E : Int)
    (v : Option Nat) :
    coroutine_await.trigger_event m T E v
      = { m with coroutines :=
            m.coroutines.map (coroutine_await.event_fan_out_slot m.cur_tick T E v) } := by
  obtain ⟨h1, h2, h3, h4, h5⟩ := await_trigger_loop_spec T E v m.coroutines.length 0 m
  have hco : (coroutine_await.trigger_event m T E v).coroutines
      = m.coroutines.map (coroutine_await.event_fan_out_slot m.cur_tick T E v) := by
    apply List.ext_getElem?
    intro j
    unfold coroutine_await.trigger_event
    rw [h5 j, List.getElem?_map]
    split_ifs with hr
    · rfl
    · rw [List.getElem?_eq_none (by omega)]
      rfl
  unfold coroutine_await.trigger_event at hco ⊢
  generalize coroutine_await.trigger_loop T E v m.coroutines.length 0 m = r at *
  cases r
  simp only at h2 h3 h4 hco
  subst h2 h3 h4 hco
  rfl

/-- C7 (`coroutine_await`): for every table, a single `trigger_event<T>(E, v)`
gives the payload `v` to every coroutine that waits on `wait_for_event<T>` with
event id `E` and resumes it within the call (its code after the `co_await`
runs with a wait object whose `await_resume` is `v`, up to the next
suspension or the end of the body), however many there are; every other slot,
in particular every coroutine waiting on another event id, on another payload
type or on a wait object that is not an event, is left as it was, and so are
the table length, the free-list, the generation counter and the tick. -/
theorem C7_trigger_event_fan_out (m : coroutine_await.coroutine_manager) (T : Nat) (E : Int)
    (v : Option Nat) :
    (coroutine_await.trigger_event m T E v).coroutines.length = m.coroutines.length ∧
    (coroutine_await.trigger_event m T E v).free_indexes = m.free_indexes ∧
    (coroutine_await.trigger_event m T E v).serial = m.serial ∧
    (coroutine_await.trigger_event m T E v).cur_tick = m.cur_tick ∧
    (∀ (i : Nat) (c : coroutine_await.coroutine_t) (f : coroutine_await.frame)
        (start_tick : Nat) (timeout_seconds : ℚ) (return_value : Option Nat),
      m.coroutines[i]? = some c → c.handle = some f → f.done = false →
      f.promise.awaitable_ptr
        = some (.wait_for_event T start_tick timeout_seconds E return_value) →
      coroutine_await.await_resume (.wait_for_event T start_tick timeout_seconds E v) = v ∧
      (coroutine_await.trigger_event m T E v).coroutines[i]? = some
        { handle := some (coroutine_await.run
            (f.rest (.wait_for_event T start_tick timeout_seconds E v) m.cur_tick) m.cur_tick)
          id := c.id }) ∧
    (∀ (i : Nat) (c : coroutine_await.coroutine_t), m.coroutines[i]? = some c →
      (∀ (f : coroutine_await.frame) (start_tick : Nat) (timeout_seconds : ℚ)
          (return_value : Option Nat), c.handle = some f → f.done = false →
        f.promise.awaitable_ptr
          ≠ some (.wait_for_event T start_tick timeout_seconds E return_value)) →
      (coroutine_await.trigger_event m T E v).coroutines[i]? = some c) := by
  rw [await_trigger_event_eq_map]
  refine ⟨by simp, rfl, rfl, rfl, ?_, ?_⟩
  · intro i c f st tmo rv hc hf hd hp
    refine ⟨rfl, ?_⟩
    simp only [List.getElem?_map, hc, Option.map_some']
    simp [coroutine_await.event_fan_out_slot, hf, hd, hp]
  · intro i c hc hno
    simp only [List.getElem?_map, hc, Option.map_some']
    congr 1
    rcases c with ⟨_ | ⟨d, ⟨p⟩, k⟩, id⟩
    · rfl
    · cases d
      · cases p with
        | none => rfl
        | some a =>
          cases a with
          | wait_for_event T1 st tmo E1 rv =>
            by_cases hTE : T1 = T ∧ E1 = E
            · obtain ⟨rfl, rfl⟩ := hTE
              exact absurd rfl (hno _ st tmo rv rfl rfl)
            · simp [coroutine_await.event_fan_out_slot, hTE]
          | _ => rfl
      · rfl

/-- C7 at a concrete input: a table with two waiters on event 1 with payload
type `float` (slots 0 and 2), one waiter on event 2, one waiter on event 1 with
another payload type and one coroutine waiting for the next frame;
`trigger_event<float>(1, v)` ends both waits on event 1 (the test body then
runs to its end) and leaves the other three slots as they were. -/
theorem C7_trigger_event_fan_out_witness :
    (coroutine_await.trigger_event
      ⟨[⟨some (coroutine_await.run ((coroutine_await.coroutine3_wait_for_event 1 5) 0) 0), 1⟩,
        ⟨some (coroutine_await.run ((coroutine_await.coroutine3_wait_for_event 2 5) 0) 0),
          4294967298⟩,
        ⟨some (coroutine_await.run ((coroutine_await.coroutine3_wait_for_event 1 5) 0) 0),
          8589934595⟩,
        ⟨some (coroutine_await.run ((fun tick => .await
            (coroutine_await.new_wait_for_event 7 tick 1 5) (fun _ _ => .finish)) 0) 0),
          12884901892⟩,
        ⟨some (coroutine_await.run (coroutine_await.coroutine2_wait_for_frame 0) 0),
          17179869189⟩],
        [], 5, 0⟩ coroutine_await.float_tag 1 (some 10)).coroutines.map
      (fun c => c.is_done) = [true, false, true, false, false] := by
  have h := C7_trigger_event_fan_out
    ⟨[⟨some (coroutine_await.run ((coroutine_await.coroutine3_wait_for_event 1 5) 0) 0), 1⟩,
      ⟨some (coroutine_await.run ((coroutine_await.coroutine3_wait_for_event 2 5) 0) 0),
        4294967298⟩,
      ⟨some (coroutine_await.run ((coroutine_await.coroutine3_wait_for_event 1 5) 0) 0),
        8589934595⟩,
      ⟨some (coroutine_await.run ((fun tick => .await
          (coroutine_await.new_wait_for_event 7 tick 1 5) (fun _ _ => .finish)) 0) 0),
        12884901892⟩,
      ⟨some (coroutine_await.run (coroutine_await.coroutine2_wait_for_frame 0) 0),
        17179869189⟩],
      [], 5, 0⟩ coroutine_await.float_tag 1 (some 10)
  obtain ⟨hlen, _, _, _, h5, h6⟩ := h
  have e0 := (h5 0 _ _ 0 5 none rfl rfl rfl rfl).2
  have e2 := (h5 2 _ _ 0 5 none rfl rfl rfl rfl).2
  have e1 := h6 1 _ rfl (by
    intro f st tmo rv hf _ hp
    cases hf
    simp [coroutine_await.coroutine3_wait_for_event,
      coroutine_await.run, coroutine_await.new_wait_for_event,
      coroutine_await.await_suspend] at hp)
  have e3 := h6 3 _ rfl (by
    intro f st tmo rv hf _ hp
    cases hf
    simp [coroutine_await.float_tag,
      coroutine_await.run, coroutine_await.new_wait_for_event,
      coroutine_await.await_suspend] at hp)
  have e4 := h6 4 _ rfl (by
    intro f st tmo rv hf _ hp
    cases hf
    simp [coroutine_await.coroutine2_wait_for_frame,
      coroutine_await.run, coroutine_await.new_wait_for_frame,
      coroutine_await.await_suspend] at hp)
  apply List.ext_getElem?
  intro j
  rw [List.getElem?_map]
  rcases j with _ | _ | _ | _ | _ | j
  · rw [e0]; rfl
  · rw [e1]; rfl
  · rw [e2]; rfl
  · rw [e3]; rfl
  · rw [e4]; rfl
  · rw [List.getElem?_eq_none (by rw [hlen]; simp)]
    rfl

/-! ## `trigger_event` of `coroutine_yield` -/

/-- C8 (code defect, `coroutine_yield`): two coroutines made from the test body
`coroutine3_yield_for_event(1, 5)` on a fresh manager both wait on event 1;
`trigger_event(1, result)` resumes the one in slot 0, which runs to its end,
and leaves the loop by `break`: the waiter in slot 1 is untouched and still
waiting. -/
theorem C8_trigger_event_stops_at_first_match :
    ∃ m1 m2,
      coroutine_yield.create_started (coroutine_yield.new_manager 0)
        (coroutine_yield.start (coroutine_yield.coroutine3_yield_for_event 1 5) 0)
        = .ok (1, m1) ∧
      coroutine_yield.create_started m1
        (coroutine_yield.start (coroutine_yield.coroutine3_yield_for_event 1 5) 0)
        = .ok (4294967298, m2) ∧
      (m2.coroutines.map (fun c => c.is_done)) = [false, false] ∧
      ((coroutine_yield.trigger_event m2 1 (some 10)).coroutines.map (fun c => c.is_done))
        = [true, false] ∧
      (coroutine_yield.trigger_event m2 1 (some 10)).coroutines[1]? = m2.coroutines[1]? :=
  ⟨_, _, rfl, rfl, rfl, rfl, rfl⟩

/-! ## Binary32 rounding and the timer -/

theorem round_half_even_floor (n : ℚ) :
    round_half_even n = ⌊n⌋ ∨ round_half_even n = ⌊n⌋ + 1 := by
  unfold round_half_even
  split_ifs <;> simp

theorem round_half_even_near (n : ℚ) :
    n - 1 / 2 ≤ round_half_even n ∧ (round_half_even n : ℚ) ≤ n + 1 / 2 := by
  have h1 := Int.floor_le n
  have h2 := Int.lt_floor_add_one n
  unfold round_half_even
  split_ifs with a b c
  · constructor <;> linarith
  · push_cast
    constructor <;> linarith
  · constructor <;> linarith
  · push_cast
    constructor <;> linarith

theorem round_half_even_eq (n : ℚ) (k : ℤ) (h1 : n - 1 / 2 ≤ k) (h2 : (k : ℚ) ≤ n + 1 / 2)
    (h3 : (k : ℚ) = n - 1 / 2 ∨ (k : ℚ) = n + 1 / 2 → k % 2 = 0) :
    round_half_even n = k := by
  have hf1 := Int.floor_le n
  have hf2 := Int.lt_floor_add_one n
  rcases le_or_lt (k : ℚ) n with hk | hk
  · have hfl : ⌊n⌋ = k := by
      rw [Int.floor_eq_iff]
      constructor
      · exact hk
      · linarith
    unfold round_half_even
    rw [hfl]
    split_ifs with a b c
    · rfl
    · linarith
    · rfl
    · exfalso
      apply c
      apply h3
      left
      linarith
  · have hfl : ⌊n⌋ = k - 1 := by
      rw [Int.floor_eq_iff]
      push_cast
      constructor
      · linarith
      · linarith
    unfold round_half_even
    rw [hfl]
    push_cast
    split_ifs with a b c
    · linarith
    · ring
    · exfalso
      have hk0 : k % 2 = 0 := by
        apply h3
        right
        linarith
      omega
    · ring

theorem round_half_even_intCast (z : ℤ) : round_half_even z = z :=
  round_half_even_eq z z (by linarith) (by linarith) (by
    intro h
    rcases h with h | h <;> linarith)

theorem round_half_even_mono (a b : ℚ) (h : a ≤ b) : round_half_even a ≤ round_half_even b := by
  have hfl := Int.floor_mono h
  rcases lt_or_eq_of_le hfl with hlt | heq
  · rcases round_half_even_floor a with ha | ha <;>
      rcases round_half_even_floor b with hb | hb <;> omega
  · unfold round_half_even
    rw [← heq]
    split_ifs <;> first | omega | linarith

theorem f32_ulp_pos (e : ℤ) : (0 : ℚ) < 2 ^ (e - 23) := zpow_pos (by norm_num) _

theorem f32_ulp_mul (e : ℤ) : (2 : ℚ) ^ (e - 23) * 2 ^ (23 : ℕ) = 2 ^ e := by
  rw [← zpow_natCast, ← zpow_add₀ (by norm_num : (2 : ℚ) ≠ 0)]
  congr 1
  push_cast
  ring

theorem f32_log_le (q : ℚ) (hq : 0 < q) : (2 : ℚ) ^ Int.log 2 q ≤ q := by
  have := Int.zpow_log_le_self (b := 2) (by norm_num) hq
  simpa using this

theorem f32_lt_log_succ (q : ℚ) : q < (2 : ℚ) ^ (Int.log 2 q + 1) := by
  have := Int.lt_zpow_succ_log_self (b := 2) (by norm_num) q
  simpa using this

theorem f32_log_eq (q : ℚ) (e : ℤ) (h1 : (2 : ℚ) ^ e ≤ q) (h2 : q < (2 : ℚ) ^ (e + 1)) :
    Int.log 2 q = e := by
  have hq : 0 < q := lt_of_lt_of_le (zpow_pos (by norm_num) _) h1
  have a : e ≤ Int.log 2 q := by
    rw [← Int.zpow_le_iff_le_log (by norm_num) hq]
    simpa using h1
  have b : Int.log 2 q < e + 1 := by
    rw [← Int.lt_zpow_iff_log_lt (by norm_num) hq]
    simpa using h2
  omega

theorem f32_round_pos_eq (q : ℚ) (hq : 0 < q) :
    f32_round q
      = round_half_even (q / 2 ^ (Int.log 2 q - 23)) * 2 ^ (Int.log 2 q - 23) := by
  unfold f32_round
  rw [if_neg (not_le.2 hq)]

theorem f32_round_eq (q : ℚ) (e k : ℤ) (h1 : (2 : ℚ) ^ e ≤ q) (h2 : q < (2 : ℚ) ^ (e + 1))
    (h3 : q / 2 ^ (e - 23) - 1 / 2 ≤ k) (h4 : (k : ℚ) ≤ q / 2 ^ (e - 23) + 1 / 2)
    (h5 : (k : ℚ) = q / 2 ^ (e - 23) - 1 / 2 ∨ (k : ℚ) = q / 2 ^ (e - 23) + 1 / 2 → k % 2 = 0) :
    f32_round q = k * 2 ^ (e - 23) := by
  have hq : 0 < q := lt_of_lt_of_le (zpow_pos (by norm_num) _) h1
  rw [f32_round_pos_eq q hq, f32_log_eq q e h1 h2, round_half_even_eq _ k h3 h4 h5]

theorem f32_round_nonpos (q : ℚ) (hq : q ≤ 0) : f32_round q = 0 := by
  unfold f32_round
  rw [if_pos hq]

/-- The rounded value lies in the binade of the argument. -/
theorem f32_round_binade (q : ℚ) (hq : 0 < q) :
    (2 : ℚ) ^ Int.log 2 q ≤ f32_round q ∧ f32_round q ≤ (2 : ℚ) ^ (Int.log 2 q + 1) := by
  have hu := f32_ulp_pos (Int.log 2 q)
  have hm := f32_ulp_mul (Int.log 2 q)
  have hm1 : (2 : ℚ) ^ (Int.log 2 q - 23) * 2 ^ (24 : ℕ) = 2 ^ (Int.log 2 q + 1) := by
    rw [← zpow_natCast, ← zpow_add₀ (by norm_num : (2 : ℚ) ≠ 0)]
    congr 1
    push_cast
    ring
  have h1 := f32_log_le q hq
  have h2 := f32_lt_log_succ q
  rw [f32_round_pos_eq q hq]
  have lo : ((2 ^ 23 : ℤ) : ℚ) ≤ q / 2 ^ (Int.log 2 q - 23) := by
    rw [le_div_iff₀ hu]
    push_cast
    linarith
  have hi : q / 2 ^ (Int.log 2 q - 23) ≤ ((2 ^ 24 : ℤ) : ℚ) := by
    rw [div_le_iff₀ hu]
    push_cast
    linarith
  have a := round_half_even_mono _ _ lo
  have b := round_half_even_mono _ _ hi
  rw [round_half_even_intCast] at a b
  have a1 : ((2 ^ 23 : ℤ) : ℚ) ≤ round_half_even (q / 2 ^ (Int.log 2 q - 23)) := by
    exact_mod_cast a
  have b1 : (round_half_even (q / 2 ^ (Int.log 2 q - 23)) : ℚ) ≤ ((2 ^ 24 : ℤ) : ℚ) := by
    exact_mod_cast b
  push_cast at a1 b1
  constructor
  · calc (2 : ℚ) ^ Int.log 2 q = 2 ^ (23 : ℕ) * 2 ^ (Int.log 2 q - 23) := by rw [← hm]; ring
      _ ≤ _ := mul_le_mul_of_nonneg_right a1 hu.le
  · calc _ ≤ (2 : ℚ) ^ (24 : ℕ) * 2 ^ (Int.log 2 q - 23) := mul_le_mul_of_nonneg_right b1 hu.le
      _ = _ := by rw [← hm1]; ring

theorem f32_round_nonneg (q : ℚ) : 0 ≤ f32_round q := by
  rcases le_or_lt q 0 with h | h
  · rw [f32_round_nonpos q h]
  · exact le_trans (zpow_pos (by norm_num) _).le (f32_round_binade q h).1

theorem f32_round_mono (a b : ℚ) (h : a ≤ b) : f32_round a ≤ f32_round b := by
  rcases le_or_lt a 0 with ha | ha
  · rw [f32_round_nonpos a ha]
    exact f32_round_nonneg b
  · have hb : 0 < b := lt_of_lt_of_le ha h
    have hlog : Int.log 2 a ≤ Int.log 2 b := Int.log_mono_right ha h
    rcases lt_or_eq_of_le hlog with hlt | heq
    · have h1 := (f32_round_binade a ha).2
      have h2 := (f32_round_binade b hb).1
      have h3 : (2 : ℚ) ^ (Int.log 2 a + 1) ≤ 2 ^ Int.log 2 b :=
        zpow_le_zpow_right₀ (by norm_num) (by omega)
      linarith
    · rw [f32_round_pos_eq a ha, f32_round_pos_eq b hb, heq]
      have hu := f32_ulp_pos (Int.log 2 b)
      apply mul_le_mul_of_nonneg_right _ hu.le
      have := round_half_even_mono (a / 2 ^ (Int.log 2 b - 23)) (b / 2 ^ (Int.log 2 b - 23))
        (div_le_div_of_nonneg_right h hu.le)
      exact_mod_cast this

/-- Rounding changes a value by at most half a unit in the last place, which
is at most the fraction `2 ^ (-24)` of the value. -/
theorem f32_round_error (q : ℚ) (hq : 0 ≤ q) :
    q * (1 - 1 / 2 ^ 24) ≤ f32_round q ∧ f32_round q ≤ q * (1 + 1 / 2 ^ 24) := by
  rcases lt_or_eq_of_le hq with hpos | h0
  · have hu := f32_ulp_pos (Int.log 2 q)
    have hm := f32_ulp_mul (Int.log 2 q)
    have h1 := f32_log_le q hpos
    obtain ⟨n1, n2⟩ := round_half_even_near (q / 2 ^ (Int.log 2 q - 23))
    rw [f32_round_pos_eq q hpos]
    have e1 : q / 2 ^ (Int.log 2 q - 23) * 2 ^ (Int.log 2 q - 23) = q :=
      div_mul_cancel₀ q (ne_of_gt hu)
    have a1 := mul_le_mul_of_nonneg_right n1 hu.le
    have a2 := mul_le_mul_of_nonneg_right n2 hu.le
    rw [sub_mul, e1] at a1
    rw [add_mul, e1] at a2
    have hulp : (2 : ℚ) ^ (Int.log 2 q - 23) * 8388608 ≤ q := by
      have : (2 : ℚ) ^ (23 : ℕ) = 8388608 := by norm_num
      rw [← this, hm]
      exact h1
    constructor
    · norm_num at a1 ⊢
      linarith
    · norm_num at a2 ⊢
      linarith
  · rw [← h0, f32_round_nonpos 0 (le_refl 0)]
    norm_num

theorem f32_round_natCast (n : ℕ) (h : n < 2 ^ 24) : f32_round (n : ℚ) = n := by
  rcases Nat.eq_zero_or_pos n with h0 | hpos
  · subst h0
    rw [Nat.cast_zero, f32_round_nonpos 0 (le_refl 0)]
  · have hq : (0 : ℚ) < n := by exact_mod_cast hpos
    have hlog : Nat.log 2 n < 24 := Nat.log_lt_of_lt_pow (by omega) h
    rw [f32_round_pos_eq _ hq, Int.log_natCast]
    have hu : (2 : ℚ) ^ ((Nat.log 2 n : ℤ) - 23) = ((2 : ℚ) ^ (23 - Nat.log 2 n))⁻¹ := by
      rw [← zpow_natCast, ← zpow_neg]
      congr 1
      omega
    rw [hu]
    have hz : (n : ℚ) / ((2 : ℚ) ^ (23 - Nat.log 2 n))⁻¹
        = (((n * 2 ^ (23 - Nat.log 2 n) : ℕ) : ℤ) : ℚ) := by
      push_cast
      rw [div_inv_eq_mul]
    rw [hz, round_half_even_intCast]
    push_cast
    have hp : (0 : ℚ) < 2 ^ (23 - Nat.log 2 n) := pow_pos (by norm_num) _
    field_simp

theorem u64_sub_of_le (t T : Nat) (hT : T ≤ t) (ht : t < 2 ^ 64) : u64_sub t T = t - T := by
  unfold u64_sub
  omega

theorem timed_out_of_ge (t T : Nat) (D : ℚ)
    (h : D * 1000 ≤ (u64_sub t T : ℚ) * (1 - 1 / 2 ^ 24) ^ 2) : timed_out t T D = true := by
  unfold timed_out
  rw [decide_eq_true_iff]
  have hs : (0 : ℚ) ≤ (u64_sub t T : ℚ) := Nat.cast_nonneg _
  have a := (f32_round_error _ hs).1
  have hx : (0 : ℚ) ≤ f32_round (u64_sub t T : ℚ) / 1000 :=
    div_nonneg (f32_round_nonneg _) (by norm_num)
  have b := (f32_round_error _ hx).1
  have c : (u64_sub t T : ℚ) * (1 - 1 / 2 ^ 24) / 1000 * (1 - 1 / 2 ^ 24)
      ≤ f32_round (u64_sub t T : ℚ) / 1000 * (1 - 1 / 2 ^ 24) := by
    apply mul_le_mul_of_nonneg_right _ (by norm_num)
    exact div_le_div_of_nonneg_right a (by norm_num)
  have d : (u64_sub t T : ℚ) * (1 - 1 / 2 ^ 24) / 1000 * (1 - 1 / 2 ^ 24)
      = (u64_sub t T : ℚ) * (1 - 1 / 2 ^ 24) ^ 2 / 1000 := by ring
  rw [d] at c
  have e : D ≤ (u64_sub t T : ℚ) * (1 - 1 / 2 ^ 24) ^ 2 / 1000 := by
    rw [le_div_iff₀ (by norm_num)]
    exact h
  linarith

theorem timed_out_of_lt (t T : Nat) (D : ℚ)
    (h : (u64_sub t T : ℚ) * (1 + 1 / 2 ^ 24) ^ 2 < D * 1000) : timed_out t T D = false := by
  unfold timed_out
  rw [decide_eq_false_iff_not, not_le]
  have hs : (0 : ℚ) ≤ (u64_sub t T : ℚ) := Nat.cast_nonneg _
  have a := (f32_round_error _ hs).2
  have hx : (0 : ℚ) ≤ f32_round (u64_sub t T : ℚ) / 1000 :=
    div_nonneg (f32_round_nonneg _) (by norm_num)
  have b := (f32_round_error _ hx).2
  have c : f32_round (u64_sub t T : ℚ) / 1000 * (1 + 1 / 2 ^ 24)
      ≤ (u64_sub t T : ℚ) * (1 + 1 / 2 ^ 24) / 1000 * (1 + 1 / 2 ^ 24) := by
    apply mul_le_mul_of_nonneg_right _ (by norm_num)
    exact div_le_div_of_nonneg_right a (by norm_num)
  have d : (u64_sub t T : ℚ) * (1 + 1 / 2 ^ 24) / 1000 * (1 + 1 / 2 ^ 24)
      = (u64_sub t T : ℚ) * (1 + 1 / 2 ^ 24) ^ 2 / 1000 := by ring
  rw [d] at c
  have e : (u64_sub t T : ℚ) * (1 + 1 / 2 ^ 24) ^ 2 / 1000 < D := by
    rw [div_lt_iff₀ (by norm_num)]
    exact h
  linarith

theorem timed_out_exact_true (t T : Nat) (D : ℚ) (hs : u64_sub t T < 2 ^ 24)
    (hD : f32_round D = D) (h : D * 1000 ≤ (u64_sub t T : ℚ)) : timed_out t T D = true := by
  unfold timed_out
  rw [decide_eq_true_iff, f32_round_natCast _ hs]
  have : D ≤ (u64_sub t T : ℚ) / 1000 := by
    rw [le_div_iff₀ (by norm_num)]
    exact h
  have m := f32_round_mono _ _ this
  rw [hD] at m
  exact m

theorem timed_out_exact_false (t T : Nat) (D : ℚ) (hs : u64_sub t T < 2 ^ 24)
    (hD : D * 1000 ≤ 2 ^ 24) (h : (u64_sub t T : ℚ) + 1 ≤ D * 1000) :
    timed_out t T D = false := by
  unfold timed_out
  rw [decide_eq_false_iff_not, not_le, f32_round_natCast _ hs]
  have h0 : (0 : ℚ) ≤ (u64_sub t T : ℚ) := Nat.cast_nonneg _
  have hx : (0 : ℚ) ≤ (u64_sub t T : ℚ) / 1000 := div_nonneg h0 (by norm_num)
  have b := (f32_round_error _ hx).2
  have c : (u64_sub t T : ℚ) / 1000 ≤ D - 1 / 1000 := by
    rw [div_le_iff₀ (by norm_num)]
    linarith
  have d : (u64_sub t T : ℚ) / 1000 * (1 + 1 / 2 ^ 24) ≤ (D - 1 / 1000) * (1 + 1 / 2 ^ 24) :=
    mul_le_mul_of_nonneg_right c (by norm_num)
  norm_num at b d hD ⊢
  linarith

theorem timed_out_five_seconds : timed_out 5000 0 5 = true := by
  apply timed_out_exact_true
  · decide
  · have := f32_round_natCast 5 (by norm_num)
    exact_mod_cast this
  · have : u64_sub 5000 0 = 5000 := by decide
    rw [this]
    norm_num

theorem f32_round_tenth : f32_round (1 / 10) = 13421773 / 134217728 := by
  have := f32_round_eq (1 / 10) (-4) 13421773 (by norm_num) (by norm_num) (by norm_num)
    (by norm_num) (by norm_num)
  rw [this]
  norm_num

theorem timed_out_at_a_tenth : timed_out 100 0 (13421773 / 134217728) = true := by
  have hsub : u64_sub 100 0 = 100 := by decide
  have h100 : f32_round ((100 : ℕ) : ℚ) = ((100 : ℕ) : ℚ) := f32_round_natCast 100 (by norm_num)
  unfold timed_out
  rw [hsub, h100, decide_eq_true_iff]
  have : (((100 : ℕ) : ℚ) / 1000) = 1 / 10 := by norm_num
  rw [this, f32_round_tenth]

theorem f32_round_134221000 : f32_round 134221000 = 134220992 := by
  have := f32_round_eq 134221000 27 8388812 (by norm_num) (by norm_num) (by norm_num)
    (by norm_num) (by intro _; decide)
  rw [this]
  norm_num

theorem timed_out_134221 : timed_out 134221000 0 134221 = false := by
  have hsub : u64_sub 134221000 0 = 134221000 := by decide
  unfold timed_out
  rw [hsub, decide_eq_false_iff_not, not_le]
  have : (((134221000 : ℕ) : ℚ)) = 134221000 := by norm_num
  rw [this, f32_round_134221000]
  have h2 := f32_round_eq (134220992 / 1000) 17 8590143 (by norm_num) (by norm_num)
    (by norm_num) (by norm_num) (by norm_num)
  rw [h2]
  norm_num

theorem f32_round_16777999 : f32_round 16777999 = 16778000 := by
  have := f32_round_eq 16777999 24 8389000 (by norm_num) (by norm_num) (by norm_num)
    (by norm_num) (by intro _; decide)
  rw [this]
  norm_num

theorem timed_out_16778 : timed_out 16777999 0 16778 = true := by
  have hsub : u64_sub 16777999 0 = 16777999 := by decide
  unfold timed_out
  rw [hsub, decide_eq_true_iff]
  have : (((16777999 : ℕ) : ℚ)) = 16777999 := by norm_num
  rw [this, f32_round_16777999]
  have h1 : (16778000 : ℚ) / 1000 = ((16778 : ℕ) : ℚ) := by norm_num
  rw [h1, f32_round_natCast 16778 (by norm_num)]
  norm_num

theorem await_can_resume_seconds (m : coroutine_await.coroutine_manager) (T : Nat) (D : ℚ) :
    coroutine_await.can_resume m (.wait_for_seconds T D)
      = .ok (timed_out m.cur_tick T D) := rfl

theorem yield_can_resume_seconds (m : coroutine_yield.coroutine_manager) (T : Nat) (D : ℚ) :
    coroutine_yield.can_resume m (.wait_for_seconds T D)
      = .ok (timed_out m.cur_tick T D) := rfl

/-- The four parts of the timer boundary in binary32 arithmetic, for a tick that
is not before the start tick. -/
theorem timed_out_boundary (t T : Nat) (D : ℚ) (hT : T ≤ t) (ht : t < 2 ^ 64) :
    (D * 1000 ≤ ((t : ℚ) - T) * (1 - 1 / 2 ^ 24) ^ 2 → timed_out t T D = true) ∧
    (((t : ℚ) - T) * (1 + 1 / 2 ^ 24) ^ 2 < D * 1000 → timed_out t T D = false) ∧
    (t - T < 2 ^ 24 → f32_round D = D → (T : ℚ) + D * 1000 ≤ t → timed_out t T D = true) ∧
    (t - T < 2 ^ 24 → D * 1000 ≤ 2 ^ 24 → (t : ℚ) + 1 ≤ T + D * 1000 →
      timed_out t T D = false) := by
  have hsub := u64_sub_of_le t T hT ht
  have hcast : ((u64_sub t T : ℕ) : ℚ) = (t : ℚ) - T := by
    rw [hsub, Nat.cast_sub hT]
  refine ⟨?_, ?_, ?_, ?_⟩
  · intro h
    exact timed_out_of_ge t T D (by rw [hcast]; exact h)
  · intro h
    exact timed_out_of_lt t T D (by rw [hcast]; exact h)
  · intro hs hD h
    exact timed_out_exact_true t T D (by rw [hsub]; exact hs) hD (by rw [hcast]; linarith)
  · intro hs hD h
    exact timed_out_exact_false t T D (by rw [hsub]; exact hs) hD (by rw [hcast]; linarith)

/-- C9 as stated fails in both headers, in three ways.
* A tick before the start tick: with start tick 1000 and a duration of one
  second, `can_resume` is true at tick 0 (the unsigned difference `0 - 1000`
  wraps to `2 ^ 64 - 1000`), although `0 < 1000 + 1 * 1000`.
* Rounding of the quotient: with start tick 0 and the duration `0.1f` (the
  binary32 value `13421773 / 2 ^ 27`, a little more than a tenth),
  `can_resume` is true at tick 100, although `100 < 0 + D * 1000`: the quotient
  `100 / 1000` rounds to `0.1f`.
* Rounding of the tick difference, downwards: with start tick 0 and a duration
  of 134221 seconds, `can_resume` is false at tick 134221000 `= 0 + D * 1000`:
  the difference rounds to the binary32 value 134220992, and the quotient by
  1000 to a value below 134221.
* Rounding of the tick difference, upwards: with start tick 0 and a duration of
  16778 seconds, `can_resume` is true at tick 16777999, one millisecond early:
  the difference rounds to 16778000. -/
theorem C9_counterexample_wrap_and_rounding :
    (coroutine_await.can_resume (coroutine_await.new_manager 0) (.wait_for_seconds 1000 1)
        = .ok true ∧
      coroutine_yield.can_resume (coroutine_yield.new_manager 0) (.wait_for_seconds 1000 1)
        = .ok true ∧
      ((0 : Nat) : ℚ) < ((1000 : Nat) : ℚ) + 1 * 1000) ∧
    (f32_round (13421773 / 134217728) = 13421773 / 134217728 ∧
      coroutine_await.can_resume (coroutine_await.new_manager 100)
        (.wait_for_seconds 0 (13421773 / 134217728)) = .ok true ∧
      coroutine_yield.can_resume (coroutine_yield.new_manager 100)
        (.wait_for_seconds 0 (13421773 / 134217728)) = .ok true ∧
      ((100 : Nat) : ℚ) < ((0 : Nat) : ℚ) + 13421773 / 134217728 * 1000) ∧
    (f32_round 134221 = 134221 ∧
      coroutine_await.can_resume (coroutine_await.new_manager 134221000)
        (.wait_for_seconds 0 134221) = .ok false ∧
      coroutine_yield.can_resume (coroutine_yield.new_manager 134221000)
        (.wait_for_seconds 0 134221) = .ok false ∧
      ((0 : Nat) : ℚ) + 134221 * 1000 ≤ ((134221000 : Nat) : ℚ)) ∧
    (f32_round 16778 = 16778 ∧
      coroutine_await.can_resume (coroutine_await.new_manager 16777999)
        (.wait_for_seconds 0 16778) = .ok true ∧
      coroutine_yield.can_resume (coroutine_yield.new_manager 16777999)
        (.wait_for_seconds 0 16778) = .ok true ∧
      ((16777999 : Nat) : ℚ) < ((0 : Nat) : ℚ) + 16778 * 1000) := by
  have hsub : u64_sub 0 1000 = 18446744073709550616 := by decide
  have hwrap : timed_out 0 1000 1 = true := by
    apply timed_out_of_ge
    rw [hsub]
    norm_num
  have hD1 : f32_round (13421773 / 134217728) = 13421773 / 134217728 := by
    have := f32_round_eq (13421773 / 134217728) (-4) 13421773 (by norm_num) (by norm_num)
      (by norm_num) (by norm_num) (by norm_num)
    rw [this]
    norm_num
  have hD2 : f32_round 134221 = 134221 := by
    have := f32_round_natCast 134221 (by norm_num)
    exact_mod_cast this
  have hD3 : f32_round 16778 = 16778 := by
    have := f32_round_natCast 16778 (by norm_num)
    exact_mod_cast this
  refine ⟨⟨?_, ?_, by norm_num⟩, ⟨hD1, ?_, ?_, by norm_num⟩, ⟨hD2, ?_, ?_, by norm_num⟩,
    ⟨hD3, ?_, ?_, by norm_num⟩⟩
  · rw [await_can_resume_seconds]
    exact congrArg Except.ok hwrap
  · rw [yield_can_resume_seconds]
    exact congrArg Except.ok hwrap
  · rw [await_can_resume_seconds]
    exact congrArg Except.ok timed_out_at_a_tenth
  · rw [yield_can_resume_seconds]
    exact congrArg Except.ok timed_out_at_a_tenth
  · rw [await_can_resume_seconds]
    exact congrArg Except.ok timed_out_134221
  · rw [yield_can_resume_seconds]
    exact congrArg Except.ok timed_out_134221
  · rw [await_can_resume_seconds]
    exact congrArg Except.ok timed_out_16778
  · rw [yield_can_resume_seconds]
    exact congrArg Except.ok timed_out_16778

/-- C9 as amended, both headers: for every start tick `T`, duration `D` (in
seconds) and current 64-bit tick `t` that is not before `T`, with the `float`
arithmetic of the code (binary32, round to nearest, ties to even),
`wait_for_seconds.can_resume`
* is true when `(t - T) * (1 - 2 ^ (-24)) ^ 2 >= D * 1000`, and false when
  `(t - T) * (1 + 2 ^ (-24)) ^ 2 < D * 1000`;
* when `t - T < 2 ^ 24` (the difference is then converted without rounding):
  is true when `t >= T + D * 1000` and `D` is a binary32 value, and is false
  when `t + 1 <= T + D * 1000` and `D * 1000 <= 2 ^ 24`.
So for a duration of a whole number of milliseconds, up to `2 ^ 24` of them,
`can_resume` is false for every `t < T + D * 1000` and true from
`t = T + D * 1000` on, as long as `t - T < 2 ^ 24`. -/
theorem C9_timer_boundary_in_binary32 :
    (∀ (m : coroutine_await.coroutine_manager) (T : Nat) (D : ℚ),
      T ≤ m.cur_tick → m.cur_tick < 2 ^ 64 →
      ((D * 1000 ≤ ((m.cur_tick : ℚ) - T) * (1 - 1 / 2 ^ 24) ^ 2 →
          coroutine_await.can_resume m (.wait_for_seconds T D) = .ok true) ∧
       (((m.cur_tick : ℚ) - T) * (1 + 1 / 2 ^ 24) ^ 2 < D * 1000 →
          coroutine_await.can_resume m (.wait_for_seconds T D) = .ok false) ∧
       (m.cur_tick - T < 2 ^ 24 → f32_round D = D → (T : ℚ) + D * 1000 ≤ m.cur_tick →
          coroutine_await.can_resume m (.wait_for_seconds T D) = .ok true) ∧
       (m.cur_tick - T < 2 ^ 24 → D * 1000 ≤ 2 ^ 24 → (m.cur_tick : ℚ) + 1 ≤ T + D * 1000 →
          coroutine_await.can_resume m (.wait_for_seconds T D) = .ok false))) ∧
    (∀ (m : coroutine_yield.coroutine_manager) (T : Nat) (D : ℚ),
      T ≤ m.cur_tick → m.cur_tick < 2 ^ 64 →
      ((D * 1000 ≤ ((m.cur_tick : ℚ) - T) * (1 - 1 / 2 ^ 24) ^ 2 →
          coroutine_yield.can_resume m (.wait_for_seconds T D) = .ok true) ∧
       (((m.cur_tick : ℚ) - T) * (1 + 1 / 2 ^ 24) ^ 2 < D * 1000 →
          coroutine_yield.can_resume m (.wait_for_seconds T D) = .ok false) ∧
       (m.cur_tick - T < 2 ^ 24 → f32_round D = D → (T : ℚ) + D * 1000 ≤ m.cur_tick →
          coroutine_yield.can_resume m (.wait_for_seconds T D) = .ok true) ∧
       (m.cur_tick - T < 2 ^ 24 → D * 1000 ≤ 2 ^ 24 → (m.cur_tick : ℚ) + 1 ≤ T + D * 1000 →
          coroutine_yield.can_resume m (.wait_for_seconds T D) = .ok false))) := by
  constructor
  · intro m T D hT ht
    obtain ⟨h1, h2, h3, h4⟩ := timed_out_boundary m.cur_tick T D hT ht
    rw [await_can_resume_seconds]
    exact ⟨fun h => congrArg Except.ok (h1 h), fun h => congrArg Except.ok (h2 h),
      fun a b c => congrArg Except.ok (h3 a b c), fun a b c => congrArg Except.ok (h4 a b c)⟩
  · intro m T D hT ht
    obtain ⟨h1, h2, h3, h4⟩ := timed_out_boundary m.cur_tick T D hT ht
    rw [yield_can_resume_seconds]
    exact ⟨fun h => congrArg Except.ok (h1 h), fun h => congrArg Except.ok (h2 h),
      fun a b c => congrArg Except.ok (h3 a b c), fun a b c => congrArg Except.ok (h4 a b c)⟩

/-- C9 as amended at concrete inputs: start tick 0 and two seconds (a binary32
value), at ticks 500, 1999 and 2000 (the scenario of the design), and at tick
2001 by the bound that needs no assumption on the size of the difference. -/
theorem C9_timer_boundary_in_binary32_witness :
    f32_round 2 = 2 ∧
    coroutine_await.can_resume ⟨[], [], 0, 500⟩ (.wait_for_seconds 0 2) = .ok false ∧
    coroutine_await.can_resume ⟨[], [], 0, 2000⟩ (.wait_for_seconds 0 2) = .ok true ∧
    coroutine_yield.can_resume ⟨[], [], 0, 1999⟩ (.wait_for_seconds 0 2) = .ok false ∧
    coroutine_yield.can_resume ⟨[], [], 0, 2000⟩ (.wait_for_seconds 0 2) = .ok true ∧
    coroutine_await.can_resume ⟨[], [], 0, 2001⟩ (.wait_for_seconds 0 2) = .ok true :=
  have h2 : f32_round 2 = 2 := by
    have := f32_round_natCast 2 (by norm_num)
    exact_mod_cast this
  ⟨h2,
    (C9_timer_boundary_in_binary32.1 ⟨[], [], 0, 500⟩ 0 2 (by decide) (by norm_num)).2.2.2
      (by norm_num) (by norm_num) (by norm_num),
    (C9_timer_boundary_in_binary32.1 ⟨[], [], 0, 2000⟩ 0 2 (by decide) (by norm_num)).2.2.1
      (by norm_num) h2 (by norm_num),
    (C9_timer_boundary_in_binary32.2 ⟨[], [], 0, 1999⟩ 0 2 (by decide) (by norm_num)).2.2.2
      (by norm_num) (by norm_num) (by norm_num),
    (C9_timer_boundary_in_binary32.2 ⟨[], [], 0, 2000⟩ 0 2 (by decide) (by norm_num)).2.2.1
      (by norm_num) h2 (by norm_num),
    (C9_timer_boundary_in_binary32.1 ⟨[], [], 0, 2001⟩ 0 2 (by decide) (by norm_num)).1
      (by norm_num)⟩

/-! ## The loop body of `update` in `coroutine_await` -/

theorem await_update_step_frame (m m1 : coroutine_await.coroutine_manager) (i : Nat)
    (h : coroutine_await.update_step m i = .ok m1) :
    m1.cur_tick = m.cur_tick ∧ m1.serial = m.serial ∧
    m1.coroutines.length = m.coroutines.length ∧
    ∀ j, j ≠ i → m1.coroutines[j]? = m.coroutines[j]? := by
  unfold coroutine_await.update_step at h
  split at h
  · cases h; exact ⟨rfl, rfl, rfl, fun _ _ => rfl⟩
  · split_ifs at h
    · cases h
      exact ⟨rfl, rfl, by simp, fun j hj => by simp [List.getElem?_set_ne (Ne.symm hj)]⟩
    · cases h; exact ⟨rfl, rfl, rfl, fun _ _ => rfl⟩
    · split at h
      · cases h; exact ⟨rfl, rfl, rfl, fun _ _ => rfl⟩
      · split at h
        · cases h; exact ⟨rfl, rfl, rfl, fun _ _ => rfl⟩
        · split at h
          · cases h
          · cases h
            exact ⟨rfl, rfl, by simp, fun j hj => by simp [List.getElem?_set_ne (Ne.symm hj)]⟩
          · cases h; exact ⟨rfl, rfl, rfl, fun _ _ => rfl⟩

/-- A slot without a coroutine (null handle) is passed over. -/
theorem await_update_step_free (m : coroutine_await.coroutine_manager) (i : Nat) (c : coroutine_await.coroutine_t)
    (hc : m.coroutines[i]? = some c) (hf : c.handle = none) :
    coroutine_await.update_step m i = .ok m := by
  unfold coroutine_await.update_step
  simp [hc, coroutine_await.coroutine_t.is_done, hf]

/-- A slot whose coroutine is done is closed and its index is queued as free. -/
theorem await_update_step_reclaims (m : coroutine_await.coroutine_manager) (i : Nat)
    (c : coroutine_await.coroutine_t) (f : coroutine_await.frame)
    (hc : m.coroutines[i]? = some c) (hf : c.handle = some f) (hd : c.is_done = true) :
    coroutine_await.update_step m i = .ok
      { m with
        coroutines := m.coroutines.set i { handle := none, id := 0 }
        free_indexes := m.free_indexes ++ [i] } := by
  unfold coroutine_await.update_step
  simp [hc, hd, hf, coroutine_await.coroutine_t.close]

/-- A slot whose coroutine waits is polled: it is resumed when `can_resume` is
true and left as it is when `can_resume` is false. -/
theorem await_update_step_polls (m : coroutine_await.coroutine_manager) (i : Nat)
    (c : coroutine_await.coroutine_t) (f : coroutine_await.frame) (a : coroutine_await.awaitable)
    (hc : m.coroutines[i]? = some c) (hf : c.handle = some f) (hd : f.done = false)
    (hp : f.promise.awaitable_ptr = some a) :
    coroutine_await.update_step m i =
      (match coroutine_await.can_resume m a with
        | .error e => .error e
        | .ok true => .ok
          { m with
            coroutines := m.coroutines.set i
              { c with handle := some (coroutine_await.resume f m.cur_tick) } }
        | .ok false => .ok m) := by
  unfold coroutine_await.update_step
  simp only [hc, coroutine_await.coroutine_t.is_done, hf, hd, hp]
  simp

theorem await_is_done_false_iff (c : coroutine_await.coroutine_t) :
    c.is_done = false ↔
      ∃ f a, c.handle = some f ∧ f.done = false ∧ f.promise.awaitable_ptr = some a := by
  rcases c with ⟨_ | ⟨d, ⟨p⟩, k⟩, id⟩
  · simp [coroutine_await.coroutine_t.is_done]
  · cases d <;> cases p <;> simp [coroutine_await.coroutine_t.is_done]

/-- A slot without a coroutine (null handle) is passed over. -/
theorem yield_update_step_free (m : coroutine_yield.coroutine_manager) (i : Nat) (c : coroutine_yield.coroutine_t)
    (hc : m.coroutines[i]? = some c) (hf : c.handle = none) :
    coroutine_yield.update_step m i = .ok m := by
  unfold coroutine_yield.update_step
  simp [hc, coroutine_yield.coroutine_t.is_done, hf]

/-- A slot whose coroutine is done is closed and its index is queued as free. -/
theorem yield_update_step_reclaims (m : coroutine_yield.coroutine_manager) (i : Nat)
    (c : coroutine_yield.coroutine_t) (f : coroutine_yield.frame)
    (hc : m.coroutines[i]? = some c) (hf : c.handle = some f) (hd : c.is_done = true) :
    coroutine_yield.update_step m i = .ok
      { m with
        coroutines := m.coroutines.set i { handle := none, id := 0 }
        free_indexes := m.free_indexes ++ [i] } := by
  unfold coroutine_yield.update_step
  simp [hc, hd, hf, coroutine_yield.coroutine_t.close]

/-- A slot whose coroutine waits is polled: it is resumed when `can_resume` is
true and left as it is when `can_resume` is false. -/
theorem yield_update_step_polls (m : coroutine_yield.coroutine_manager) (i : Nat)
    (c : coroutine_yield.coroutine_t) (f : coroutine_yield.frame) (a : coroutine_yield.yield_constructor)
    (hc : m.coroutines[i]? = some c) (hf : c.handle = some f) (hd : f.done = false)
    (hp : f.promise.constructor_ptr = some a) :
    coroutine_yield.update_step m i =
      (match coroutine_yield.can_resume m a with
        | .error e => .error e
        | .ok true => .ok
          { m with
            coroutines := m.coroutines.set i
              { c with handle := some (coroutine_yield.resume f m.cur_tick) } }
        | .ok false => .ok m) := by
  unfold coroutine_yield.update_step
  simp only [hc, coroutine_yield.coroutine_t.is_done, hf, hd, hp]
  simp

theorem yield_is_done_false_iff (c : coroutine_yield.coroutine_t) :
    c.is_done = false ↔
      ∃ f a, c.handle = some f ∧ f.done = false ∧ f.promise.constructor_ptr = some a := by
  rcases c with ⟨_ | ⟨d, ⟨p⟩, k⟩, id⟩
  · simp [coroutine_yield.coroutine_t.is_done]
  · cases d <;> cases p <;> simp [coroutine_yield.coroutine_t.is_done]

theorem await_can_resume_wait_for_frame (m : coroutine_await.coroutine_manager) (s : Nat) :
    coroutine_await.can_resume m (.wait_for_frame s) = .ok (decide (m.cur_tick > s)) := rfl

theorem yield_can_resume_wait_for_frame (m : coroutine_yield.coroutine_manager) :
    coroutine_yield.can_resume m .wait_for_frame = .ok true := rfl

/-- The loop body of `update` leaves alone a coroutine that waits on a
`wait_for_frame` whose start tick is not before the current tick. -/
theorem await_update_step_wait_for_frame (m : coroutine_await.coroutine_manager) (i s : Nat)
    (c : coroutine_await.coroutine_t) (f : coroutine_await.frame)
    (hc : m.coroutines[i]? = some c) (hf : c.handle = some f) (hd : f.done = false)
    (hp : f.promise.awaitable_ptr = some (.wait_for_frame s)) (hs : m.cur_tick ≤ s) :
    coroutine_await.update_step m i = .ok m := by
  unfold coroutine_await.update_step
  simp only [hc, coroutine_await.coroutine_t.is_done, hf, hd, hp,
    await_can_resume_wait_for_frame, decide_eq_false (Nat.not_lt.2 hs)]
  simp

theorem await_update_loop_wait_for_frame (i s : Nat) (c : coroutine_await.coroutine_t)
    (f : coroutine_await.frame) (hf : c.handle = some f) (hd : f.done = false)
    (hp : f.promise.awaitable_ptr = some (.wait_for_frame s)) :
    ∀ (n j : Nat) (m m1 : coroutine_await.coroutine_manager),
      m.coroutines[i]? = some c → m.cur_tick ≤ s →
      coroutine_await.update_loop n j m = .ok m1 → m1.coroutines[i]? = some c := by
  intro n
  induction n with
  | zero =>
    intro j m m1 hc _ h
    cases h
    exact hc
  | succ n ih =>
    intro j m m1 hc hs h
    unfold coroutine_await.update_loop at h
    split_ifs at h with hj
    · cases hstep : coroutine_await.update_step m j with
      | error e => rw [hstep] at h; cases h
      | ok m2 =>
        rw [hstep] at h
        obtain ⟨g1, _, _, g4⟩ := await_update_step_frame m m2 j hstep
        apply ih (j + 1) m2 m1 _ (by rw [g1]; exact hs) h
        by_cases hji : i = j
        · subst hji
          rw [await_update_step_wait_for_frame m i s c f hc hf hd hp hs] at hstep
          cases hstep
          exact hc
        · rw [g4 i hji]; exact hc
    · cases h
      exact hc

/-- C10 (code defect), both headers.
* `coroutine_yield`: `wait_for_frame::can_resume` is `return true`.  A coroutine
  made from the test body `coroutine2_yield_for_frame` at tick 5 begins its
  wait at tick 5; `can_resume` is true although the current tick is not
  greater than 5, and `update(5)` resumes it (it runs to its end).
* `coroutine_await`: `wait_for_frame` records the tick in its constructor and,
  unlike `wait_for_seconds` and `wait_for_event`, not in `await_suspend`.  The
  body `coroutine_waits_on_early_frame`, created at tick 0, is resumed by
  `update(5)` and then awaits the object it declared at tick 0: this wait
  begins at tick 5 with start tick 0, so `can_resume` is true at tick 5, and
  an `update(5)` resumes the coroutine (it runs to its end). -/
theorem C10_wait_for_frame_resumes_at_the_tick_of_the_wait :
    (∃ m1 m2,
      coroutine_yield.create_started (coroutine_yield.new_manager 5)
        (coroutine_yield.start coroutine_yield.coroutine2_yield_for_frame 5) = .ok (1, m1) ∧
      m1.coroutines.map (fun c => c.is_done) = [false] ∧
      m1.cur_tick = 5 ∧
      coroutine_yield.can_resume m1 .wait_for_frame = .ok true ∧
      coroutine_yield.update m1 5 = .ok m2 ∧
      m2.coroutines.map (fun c => c.is_done) = [true]) ∧
    (∃ m1 m2 m3,
      coroutine_await.create_started (coroutine_await.new_manager 0)
        (coroutine_await.start coroutine_await.coroutine_waits_on_early_frame 0)
        = .ok (1, m1) ∧
      coroutine_await.attached m1 0 = some (.wait_for_frame 0) ∧
      coroutine_await.update m1 5 = .ok m2 ∧
      m2.cur_tick = 5 ∧
      coroutine_await.attached m2 0 = some (.wait_for_frame 0) ∧
      m2.coroutines.map (fun c => c.is_done) = [false] ∧
      coroutine_await.can_resume m2 (.wait_for_frame 0) = .ok true ∧
      coroutine_await.update m2 5 = .ok m3 ∧
      m3.coroutines.map (fun c => c.is_done) = [true]) :=
  ⟨⟨_, _, rfl, rfl, rfl, rfl, rfl, rfl⟩, ⟨_, _, _, rfl, rfl, rfl, rfl, rfl, rfl, rfl, rfl, rfl⟩⟩

/-! ## Joins on other coroutines in `coroutine_await` -/

theorem await_group_can_resume_true_iff (m : coroutine_await.coroutine_manager) (ids : List Nat) :
    coroutine_await.group_can_resume m ids = .ok true ↔
      ∀ id ∈ ids, coroutine_await.exists_coroutine m id = .ok false := by
  induction ids with
  | nil => simp [coroutine_await.group_can_resume]
  | cons id ids ih =>
    unfold coroutine_await.group_can_resume
    cases h : coroutine_await.exists_coroutine m id with
    | error e => simp [h]
    | ok b =>
      cases b
      · simp [h, ih]
      · simp [h]

theorem await_group_can_resume_false_of_exists (m : coroutine_await.coroutine_manager)
    (pre : List Nat) (id : Nat) (post : List Nat)
    (hpre : ∀ x ∈ pre, coroutine_await.exists_coroutine m x = .ok false)
    (hid : coroutine_await.exists_coroutine m id = .ok true) :
    coroutine_await.group_can_resume m (pre ++ id :: post) = .ok false := by
  induction pre with
  | nil =>
    simp only [List.nil_append]
    unfold coroutine_await.group_can_resume
    rw [hid]
  | cons x pre ih =>
    simp only [List.cons_append]
    unfold coroutine_await.group_can_resume
    rw [hpre x (by simp)]
    exact ih (fun y hy => hpre y (by simp [hy]))

theorem await_can_resume_group (m : coroutine_await.coroutine_manager) (ids : List Nat) :
    coroutine_await.can_resume m (.wait_for_coroutine_group ids) = coroutine_await.group_can_resume m ids := rfl

theorem yield_group_can_resume_true_iff (m : coroutine_yield.coroutine_manager) (ids : List Nat) :
    coroutine_yield.group_can_resume m ids = .ok true ↔
      ∀ id ∈ ids, coroutine_yield.exists_coroutine m id = .ok false := by
  induction ids with
  | nil => simp [coroutine_yield.group_can_resume]
  | cons id ids ih =>
    unfold coroutine_yield.group_can_resume
    cases h : coroutine_yield.exists_coroutine m id with
    | error e => simp [h]
    | ok b =>
      cases b
      · simp [h, ih]
      · simp [h]

theorem yield_group_can_resume_false_of_exists (m : coroutine_yield.coroutine_manager)
    (pre : List Nat) (id : Nat) (post : List Nat)
    (hpre : ∀ x ∈ pre, coroutine_yield.exists_coroutine m x = .ok false)
    (hid : coroutine_yield.exists_coroutine m id = .ok true) :
    coroutine_yield.group_can_resume m (pre ++ id :: post) = .ok false := by
  induction pre with
  | nil =>
    simp only [List.nil_append]
    unfold coroutine_yield.group_can_resume
    rw [hid]
  | cons x pre ih =>
    simp only [List.cons_append]
    unfold coroutine_yield.group_can_resume
    rw [hpre x (by simp)]
    exact ih (fun y hy => hpre y (by simp [hy]))

theorem yield_can_resume_group (m : coroutine_yield.coroutine_manager) (ids : List Nat) :
    coroutine_yield.can_resume m (.wait_for_coroutine_group ids) = coroutine_yield.group_can_resume m ids := rfl

/-- C11, both headers: for every manager state and every list of ids,
`wait_for_coroutine_group.can_resume` is true if and only if
`exists_coroutine` is false for every listed id (so it is true for the empty
list), and it is false as soon as one listed id exists, the ids before it in
the list not existing. -/
theorem C11_group_join_is_and :
    (∀ (m : coroutine_await.coroutine_manager) (ids : List Nat),
      coroutine_await.can_resume m (.wait_for_coroutine_group ids) = .ok true ↔
        ∀ id ∈ ids, coroutine_await.exists_coroutine m id = .ok false) ∧
    (∀ (m : coroutine_await.coroutine_manager),
      coroutine_await.can_resume m (.wait_for_coroutine_group []) = .ok true) ∧
    (∀ (m : coroutine_await.coroutine_manager) (pre : List Nat) (id : Nat) (post : List Nat),
      (∀ x ∈ pre, coroutine_await.exists_coroutine m x = .ok false) →
      coroutine_await.exists_coroutine m id = .ok true →
      coroutine_await.can_resume m (.wait_for_coroutine_group (pre ++ id :: post))
        = .ok false) ∧
    (∀ (m : coroutine_yield.coroutine_manager) (ids : List Nat),
      coroutine_yield.can_resume m (.wait_for_coroutine_group ids) = .ok true ↔
        ∀ id ∈ ids, coroutine_yield.exists_coroutine m id = .ok false) ∧
    (∀ (m : coroutine_yield.coroutine_manager),
      coroutine_yield.can_resume m (.wait_for_coroutine_group []) = .ok true) ∧
    (∀ (m : coroutine_yield.coroutine_manager) (pre : List Nat) (id : Nat) (post : List Nat),
      (∀ x ∈ pre, coroutine_yield.exists_coroutine m x = .ok false) →
      coroutine_yield.exists_coroutine m id = .ok true →
      coroutine_yield.can_resume m (.wait_for_coroutine_group (pre ++ id :: post))
        = .ok false) :=
  ⟨fun m ids => by rw [await_can_resume_group]; exact await_group_can_resume_true_iff m ids,
   fun _ => rfl,
   fun m pre id post h1 h2 => by
     rw [await_can_resume_group]; exact await_group_can_resume_false_of_exists m pre id post h1 h2,
   fun m ids => by rw [yield_can_resume_group]; exact yield_group_can_resume_true_iff m ids,
   fun _ => rfl,
   fun m pre id post h1 h2 => by
     rw [yield_can_resume_group]; exact yield_group_can_resume_false_of_exists m pre id post h1 h2⟩

/-- C11 at a concrete input: the manager after three creations of test bodies
(ids 1, `1 << 32 | 2`, `2 << 32 | 3`) with the coroutine in slot 1 destroyed.
A group of the destroyed id alone can resume; a group that lists it before a
live id cannot. -/
theorem C11_group_join_is_and_witness :
    coroutine_await.can_resume
      ⟨[⟨some (coroutine_await.run ((coroutine_await.coroutine1_wait_for_seconds 1) 0) 0), 1⟩,
        ⟨none, 0⟩,
        ⟨some (coroutine_await.run ((coroutine_await.coroutine3_wait_for_event 1 5) 0) 0),
          8589934595⟩], [1], 3, 0⟩
      (.wait_for_coroutine_group [4294967298]) = .ok true ∧
    coroutine_await.can_resume
      ⟨[⟨some (coroutine_await.run ((coroutine_await.coroutine1_wait_for_seconds 1) 0) 0), 1⟩,
        ⟨none, 0⟩,
        ⟨some (coroutine_await.run ((coroutine_await.coroutine3_wait_for_event 1 5) 0) 0),
          8589934595⟩], [1], 3, 0⟩
      (.wait_for_coroutine_group ([4294967298] ++ 8589934595 :: [1])) = .ok false :=
  ⟨(C11_group_join_is_and.1 _ [4294967298]).2 (by
      intro id hid
      simp only [List.mem_singleton] at hid
      subst hid
      rfl),
   C11_group_join_is_and.2.2.1 _ [4294967298] 8589934595 [1] (by
      intro id hid
      simp only [List.mem_singleton] at hid
      subst hid
      rfl) rfl⟩

theorem await_create_serial (m m1 : coroutine_await.coroutine_manager) (handler : coroutine_await.coroutine_t)
    (id : Nat) (h : coroutine_await.create_coroutine m handler = .ok (id, m1)) :
    (id ≠ 0 →
      m1.serial = (if (m.serial + 1) % 2 ^ 32 = 0 then 1 else (m.serial + 1) % 2 ^ 32) ∧
      id % 2 ^ 32 = m1.serial ∧ m1.serial ≠ 0) ∧
    (id = 0 → m1.serial = m.serial) := by
  have hpos := next_serial_pos_await m.serial
  have hlt := next_serial_lt_await m.serial
  unfold coroutine_await.create_coroutine at h
  split_ifs at h with h1
  · cases h
    exact ⟨fun h => absurd rfl h, fun _ => rfl⟩
  · cases hf : m.free_indexes with
    | nil =>
      simp only [hf] at h
      split_ifs at h with h2 h3
      · cases h
        exact ⟨fun h => absurd rfl h, fun _ => rfl⟩
      · cases h
        rw [make_id_eq _ _ (Nat.le_of_not_lt h2) hlt]
        refine ⟨fun _ => ⟨rfl, ?_, ?_⟩, fun h0 => ?_⟩
        · show _ % 2 ^ 32 = coroutine_await.next_serial m.serial
          omega
        · show coroutine_await.next_serial m.serial ≠ 0
          omega
        · omega
    | cons i rest =>
      simp only [hf] at h
      split_ifs at h with h2 h3
      · cases h
        exact ⟨fun h => absurd rfl h, fun _ => rfl⟩
      · cases h
        rw [make_id_eq _ _ (Nat.le_of_not_lt h2) hlt]
        refine ⟨fun _ => ⟨rfl, ?_, ?_⟩, fun h0 => ?_⟩
        · show _ % 2 ^ 32 = coroutine_await.next_serial m.serial
          omega
        · show coroutine_await.next_serial m.serial ≠ 0
          omega
        · omega

theorem yield_create_serial (m m1 : coroutine_yield.coroutine_manager) (handler : coroutine_yield.coroutine_t)
    (id : Nat) (h : coroutine_yield.create_coroutine m handler = .ok (id, m1)) :
    (id ≠ 0 →
      m1.serial = (if (m.serial + 1) % 2 ^ 32 = 0 then 1 else (m.serial + 1) % 2 ^ 32) ∧
      id % 2 ^ 32 = m1.serial ∧ m1.serial ≠ 0) ∧
    (id = 0 → m1.serial = m.serial) := by
  have hpos := next_serial_pos_yield m.serial
  have hlt := next_serial_lt_yield m.serial
  unfold coroutine_yield.create_coroutine at h
  split_ifs at h with h1
  · cases h
    exact ⟨fun h => absurd rfl h, fun _ => rfl⟩
  · cases hf : m.free_indexes with
    | nil =>
      simp only [hf] at h
      split_ifs at h with h2 h3
      · cases h
        exact ⟨fun h => absurd rfl h, fun _ => rfl⟩
      · cases h
        rw [make_id_eq _ _ (Nat.le_of_not_lt h2) hlt]
        refine ⟨fun _ => ⟨rfl, ?_, ?_⟩, fun h0 => ?_⟩
        · show _ % 2 ^ 32 = coroutine_yield.next_serial m.serial
          omega
        · show coroutine_yield.next_serial m.serial ≠ 0
          omega
        · omega
    | cons i rest =>
      simp only [hf] at h
      split_ifs at h with h2 h3
      · cases h
        exact ⟨fun h => absurd rfl h, fun _ => rfl⟩
      · cases h
        rw [make_id_eq _ _ (Nat.le_of_not_lt h2) hlt]
        refine ⟨fun _ => ⟨rfl, ?_, ?_⟩, fun h0 => ?_⟩
        · show _ % 2 ^ 32 = coroutine_yield.next_serial m.serial
          omega
        · show coroutine_yield.next_serial m.serial ≠ 0
          omega
        · omega

/-- C20, both headers: whenever `create_coroutine` returns, a non-zero
(successful) result leaves the generation counter at `(s + 1) mod 2 ^ 32`, or
at 1 when that value is 0, where `s` is the counter before; that value is the
low 32 bits of the returned id and is not 0; a result of 0 leaves the counter
unchanged. -/
theorem C20_generation_counter :
    (∀ (m m1 : coroutine_await.coroutine_manager) (handler : coroutine_await.coroutine_t)
        (id : Nat), coroutine_await.create_coroutine m handler = .ok (id, m1) →
      (id ≠ 0 →
        m1.serial = (if (m.serial + 1) % 2 ^ 32 = 0 then 1 else (m.serial + 1) % 2 ^ 32) ∧
        id % 2 ^ 32 = m1.serial ∧ m1.serial ≠ 0) ∧
      (id = 0 → m1.serial = m.serial)) ∧
    (∀ (m m1 : coroutine_yield.coroutine_manager) (handler : coroutine_yield.coroutine_t)
        (id : Nat), coroutine_yield.create_coroutine m handler = .ok (id, m1) →
      (id ≠ 0 →
        m1.serial = (if (m.serial + 1) % 2 ^ 32 = 0 then 1 else (m.serial + 1) % 2 ^ 32) ∧
        id % 2 ^ 32 = m1.serial ∧ m1.serial ≠ 0) ∧
      (id = 0 → m1.serial = m.serial)) :=
  ⟨await_create_serial, yield_create_serial⟩

/-- C20 at concrete inputs: a creation with the counter at its largest value
`2 ^ 32 - 1` wraps to generation 1, and a creation that returns 0 (here for a
`coroutine_t` whose handle is null) leaves the counter alone. -/
theorem C20_generation_counter_witness :
    (∃ m1, coroutine_await.create_coroutine ⟨[], [], 4294967295, 0⟩
        ⟨some (coroutine_await.run (coroutine_await.coroutine2_wait_for_frame 0) 0), 0⟩
        = .ok (1, m1) ∧
      m1.serial = 1) ∧
    (∃ m1, coroutine_await.create_coroutine ⟨[], [], 4294967295, 0⟩ ⟨none, 0⟩ = .ok (0, m1) ∧
      m1.serial = 4294967295) :=
  ⟨⟨_, rfl, ((C20_generation_counter.1 ⟨[], [], 4294967295, 0⟩ _
      ⟨some (coroutine_await.run (coroutine_await.coroutine2_wait_for_frame 0) 0), 0⟩ 1 rfl).1
      (by decide)).1⟩,
   ⟨_, rfl, (C20_generation_counter.1 ⟨[], [], 4294967295, 0⟩ _ ⟨none, 0⟩ 0 rfl).2 rfl⟩⟩

/-- Beyond the capacity limit `create_coroutine` returns 0 after `emplace_back`
has stored the coroutine in a new slot, and the loop body of `update` treats
that slot like any other. -/
theorem await_capacity_failure_keeps (m : coroutine_await.coroutine_manager)
    (handler : coroutine_await.coroutine_t) (f : coroutine_await.frame) (a : coroutine_await.awaitable) (t : Nat)
    (hfree : m.free_indexes = []) (hcap : UINT_MAX < m.coroutines.length)
    (hf : handler.handle = some f) (hd : f.done = false) (hp : f.promise.awaitable_ptr = some a)
    (hr : ∀ l : List coroutine_await.coroutine_t,
      coroutine_await.can_resume ⟨l, m.free_indexes, m.serial, t⟩ a = .ok true) :
    ∃ m1 m2,
      coroutine_await.create_coroutine m handler = .ok (0, m1) ∧
      m1.coroutines.length = m.coroutines.length + 1 ∧
      m1.coroutines[m.coroutines.length]? = some handler ∧
      handler.is_done = false ∧
      m1.free_indexes = m.free_indexes ∧ m1.serial = m.serial ∧
      coroutine_await.update_step { m1 with cur_tick := t } m.coroutines.length = .ok m2 ∧
      m2.coroutines[m.coroutines.length]?
        = some { handle := some (coroutine_await.resume f t), id := handler.id } := by
  have hlive : handler.is_done = false :=
    (await_is_done_false_iff handler).2 ⟨f, a, hf, hd, hp⟩
  have hslot : (m.coroutines ++ [handler])[m.coroutines.length]? = some handler := by
    rw [List.getElem?_append_right (Nat.le_refl _)]
    simp
  have hstep := await_update_step_polls
    ⟨m.coroutines ++ [handler], m.free_indexes, m.serial, t⟩ m.coroutines.length handler f a
    hslot hf hd hp
  rw [hr] at hstep
  refine ⟨_, _, await_create_beyond_capacity m handler hlive hfree hcap, ?_, hslot, hlive,
    rfl, rfl, hstep, ?_⟩
  · simp
  · simp

/-- Beyond the capacity limit `create_coroutine` returns 0 after `emplace_back`
has stored the coroutine in a new slot, and the loop body of `update` treats
that slot like any other. -/
theorem yield_capacity_failure_keeps (m : coroutine_yield.coroutine_manager)
    (handler : coroutine_yield.coroutine_t) (f : coroutine_yield.frame) (a : coroutine_yield.yield_constructor) (t : Nat)
    (hfree : m.free_indexes = []) (hcap : UINT_MAX < m.coroutines.length)
    (hf : handler.handle = some f) (hd : f.done = false) (hp : f.promise.constructor_ptr = some a)
    (hr : ∀ l : List coroutine_yield.coroutine_t,
      coroutine_yield.can_resume ⟨l, m.free_indexes, m.serial, t⟩ a = .ok true) :
    ∃ m1 m2,
      coroutine_yield.create_coroutine m handler = .ok (0, m1) ∧
      m1.coroutines.length = m.coroutines.length + 1 ∧
      m1.coroutines[m.coroutines.length]? = some handler ∧
      handler.is_done = false ∧
      m1.free_indexes = m.free_indexes ∧ m1.serial = m.serial ∧
      coroutine_yield.update_step { m1 with cur_tick := t } m.coroutines.length = .ok m2 ∧
      m2.coroutines[m.coroutines.length]?
        = some { handle := some (coroutine_yield.resume f t), id := handler.id } := by
  have hlive : handler.is_done = false :=
    (yield_is_done_false_iff handler).2 ⟨f, a, hf, hd, hp⟩
  have hslot : (m.coroutines ++ [handler])[m.coroutines.length]? = some handler := by
    rw [List.getElem?_append_right (Nat.le_refl _)]
    simp
  have hstep := yield_update_step_polls
    ⟨m.coroutines ++ [handler], m.free_indexes, m.serial, t⟩ m.coroutines.length handler f a
    hslot hf hd hp
  rw [hr] at hstep
  refine ⟨_, _, yield_create_beyond_capacity m handler hlive hfree hcap, ?_, hslot, hlive,
    rfl, rfl, hstep, ?_⟩
  · simp
  · simp

/-! ## Id 0 and the capacity limit -/

/-- C14 (code defect), both headers: on a freshly constructed manager, and
still after a `create_coroutine` that returned 0 (here for a `coroutine_t`
whose handle is null), the table is empty, the index of id 0 equals the table
length, and
`exists_coroutine(0)`, `get_coroutine(0)` and `destroy_coroutine(0)` read
`coroutines[0]` of the empty table instead of answering false / empty. -/
theorem C14_id_zero_on_empty_table :
    coroutine_await.exists_coroutine (coroutine_await.new_manager 0) 0
        = .error (.out_of_range 0 0) ∧
    coroutine_await.get_coroutine (coroutine_await.new_manager 0) 0
        = .error (.out_of_range 0 0) ∧
    coroutine_await.destroy_coroutine (coroutine_await.new_manager 0) 0
        = .error (.out_of_range 0 0) ∧
    (∃ m1, coroutine_await.create_coroutine (coroutine_await.new_manager 0) ⟨none, 0⟩
        = .ok (0, m1) ∧
      coroutine_await.exists_coroutine m1 0 = .error (.out_of_range 0 0)) ∧
    coroutine_yield.exists_coroutine (coroutine_yield.new_manager 0) 0
        = .error (.out_of_range 0 0) ∧
    coroutine_yield.get_coroutine (coroutine_yield.new_manager 0) 0
        = .error (.out_of_range 0 0) ∧
    coroutine_yield.destroy_coroutine (coroutine_yield.new_manager 0) 0
        = .error (.out_of_range 0 0) ∧
    (∃ m1, coroutine_yield.create_coroutine (coroutine_yield.new_manager 0) ⟨none, 0⟩
        = .ok (0, m1) ∧
      coroutine_yield.exists_coroutine m1 0 = .error (.out_of_range 0 0)) :=
  ⟨rfl, rfl, rfl, ⟨_, rfl, rfl⟩, rfl, rfl, rfl, ⟨_, rfl, rfl⟩⟩

theorem await_table_at_capacity_length :
    coroutine_await.table_at_capacity.coroutines.length = 2 ^ 32 := by
  unfold coroutine_await.table_at_capacity
  rw [List.length_map, List.length_range]

theorem yield_table_at_capacity_length :
    coroutine_yield.table_at_capacity.coroutines.length = 2 ^ 32 := by
  unfold coroutine_yield.table_at_capacity
  rw [List.length_map, List.length_range]

/-- C16 (code defect), both headers: on a table of `2 ^ 32` slots with an empty
free-list, `create_coroutine` of a body that suspends returns 0, but
`emplace_back` has already run: the table has grown to `2 ^ 32 + 1` slots, the
new slot `2 ^ 32` holds the coroutine (not done, id 0), and the loop body of a
later `update` for that slot resumes it (the test body then runs to its end).
The free-list and the generation counter are unchanged. -/
theorem C16_capacity_failure_keeps_the_coroutine :
    (∃ m1 m2,
      coroutine_await.create_started coroutine_await.table_at_capacity
        (coroutine_await.start coroutine_await.coroutine2_wait_for_frame 0) = .ok (0, m1) ∧
      m1.coroutines.length = 2 ^ 32 + 1 ∧
      m1.coroutines[2 ^ 32]?
        = some ⟨some (coroutine_await.run (coroutine_await.coroutine2_wait_for_frame 0) 0), 0⟩ ∧
      (⟨some (coroutine_await.run (coroutine_await.coroutine2_wait_for_frame 0) 0), 0⟩ :
        coroutine_await.coroutine_t).is_done = false ∧
      m1.free_indexes = [] ∧ m1.serial = coroutine_await.table_at_capacity.serial ∧
      coroutine_await.update_step { m1 with cur_tick := 1 } (2 ^ 32) = .ok m2 ∧
      (m2.coroutines[2 ^ 32]?).map (fun c => c.is_done) = some true) ∧
    (∃ m1 m2,
      coroutine_yield.create_started coroutine_yield.table_at_capacity
        (coroutine_yield.start coroutine_yield.coroutine2_yield_for_frame 0) = .ok (0, m1) ∧
      m1.coroutines.length = 2 ^ 32 + 1 ∧
      m1.coroutines[2 ^ 32]?
        = some ⟨some (coroutine_yield.run (coroutine_yield.coroutine2_yield_for_frame 0) 0), 0⟩ ∧
      (⟨some (coroutine_yield.run (coroutine_yield.coroutine2_yield_for_frame 0) 0), 0⟩ :
        coroutine_yield.coroutine_t).is_done = false ∧
      m1.free_indexes = [] ∧ m1.serial = coroutine_yield.table_at_capacity.serial ∧
      coroutine_yield.update_step { m1 with cur_tick := 1 } (2 ^ 32) = .ok m2 ∧
      (m2.coroutines[2 ^ 32]?).map (fun c => c.is_done) = some true) := by
  constructor
  · obtain ⟨m1, m2, h1, h2, h3, h4, h5, h6, h7, h8⟩ := await_capacity_failure_keeps
      coroutine_await.table_at_capacity
      ⟨some (coroutine_await.run (coroutine_await.coroutine2_wait_for_frame 0) 0), 0⟩
      (coroutine_await.run (coroutine_await.coroutine2_wait_for_frame 0) 0)
      (.wait_for_frame 0) 1 rfl
      (by rw [await_table_at_capacity_length]; unfold UINT_MAX; norm_num) rfl rfl rfl
      (fun _ => rfl)
    rw [await_table_at_capacity_length] at h2 h3 h7 h8
    exact ⟨m1, m2, h1, h2, h3, h4, h5, h6, h7, by rw [h8]; rfl⟩
  · obtain ⟨m1, m2, h1, h2, h3, h4, h5, h6, h7, h8⟩ := yield_capacity_failure_keeps
      coroutine_yield.table_at_capacity
      ⟨some (coroutine_yield.run (coroutine_yield.coroutine2_yield_for_frame 0) 0), 0⟩
      (coroutine_yield.run (coroutine_yield.coroutine2_yield_for_frame 0) 0)
      .wait_for_frame 1 rfl
      (by rw [yield_table_at_capacity_length]; unfold UINT_MAX; norm_num) rfl rfl rfl
      (fun _ => rfl)
    rw [yield_table_at_capacity_length] at h2 h3 h7 h8
    exact ⟨m1, m2, h1, h2, h3, h4, h5, h6, h7, by rw [h8]; rfl⟩

theorem await_update_one_slot (m : coroutine_await.coroutine_manager) (t : Nat)
    (h : m.coroutines.length = 1) :
    coroutine_await.update m t = coroutine_await.update_step { m with cur_tick := t } 0 := by
  unfold coroutine_await.update
  rw [h]
  unfold coroutine_await.update_loop
  rw [if_pos (by simp [h])]
  cases coroutine_await.update_step { m with cur_tick := t } 0 with
  | error e => rfl
  | ok m1 => rfl

theorem yield_update_one_slot (m : coroutine_yield.coroutine_manager) (t : Nat)
    (h : m.coroutines.length = 1) :
    coroutine_yield.update m t = coroutine_yield.update_step { m with cur_tick := t } 0 := by
  unfold coroutine_yield.update
  rw [h]
  unfold coroutine_yield.update_loop
  rw [if_pos (by simp [h])]
  cases coroutine_yield.update_step { m with cur_tick := t } 0 with
  | error e => rfl
  | ok m1 => rfl

/-! ## The value a wait on an event gives -/

theorem await_can_resume_wait_for_event (m : coroutine_await.coroutine_manager) (T s : Nat)
    (D : ℚ) (E : Int) (r : Option Nat) :
    coroutine_await.can_resume m (.wait_for_event T s D E r)
      = .ok (timed_out m.cur_tick s D) := rfl

theorem yield_can_resume_wait_for_event (m : coroutine_yield.coroutine_manager) (s : Nat)
    (b : Bool) (E : Int) (D : ℚ) (r : Option Nat) :
    coroutine_yield.can_resume m (.wait_for_event s b E D r)
      = .ok (timed_out m.cur_tick s D) := rfl

theorem await_can_resume_wait_for_event_at (m : coroutine_await.coroutine_manager)
    (t T s : Nat) (D : ℚ) (E : Int) (r : Option Nat) (ht : m.cur_tick = t) :
    coroutine_await.can_resume m (.wait_for_event T s D E r) = .ok (timed_out t s D) := by
  rw [← ht]
  rfl

theorem yield_can_resume_wait_for_event_at (m : coroutine_yield.coroutine_manager)
    (t s : Nat) (b : Bool) (E : Int) (D : ℚ) (r : Option Nat) (ht : m.cur_tick = t) :
    coroutine_yield.can_resume m (.wait_for_event s b E D r) = .ok (timed_out t s D) := by
  rw [← ht]
  rfl

/-- C13 (code defect), both headers: a body waits twice on the same
`wait_for_event` object (event 1, five seconds), created at tick 0.
`trigger_event(1, payload)` ends the first wait with the payload and the body
begins the second wait at once; the object still holds the payload
(`await_suspend` / `start` reset the start tick, and `start` the flag
`triggered`, but not the stored pointer).  No delivery happens during the
second wait; `update(5000)` ends it by timeout, and the body finds the payload
of the first wait, not the null pointer: it goes on to wait for the next
frame, which it only does for a non-null value. -/
theorem C13_timeout_after_reuse_gives_stale_payload :
    (coroutine_await.create_started (coroutine_await.new_manager 0)
        (coroutine_await.start (coroutine_await.coroutine_waits_twice 1 5) 0)
      = .ok (1, coroutine_await.waits_twice_created) ∧
     coroutine_await.attached coroutine_await.waits_twice_created 0
      = some (.wait_for_event coroutine_await.float_tag 0 5 1 none) ∧
     coroutine_await.attached
        (coroutine_await.trigger_event coroutine_await.waits_twice_created
          coroutine_await.float_tag 1 (some 10)) 0
      = some (.wait_for_event coroutine_await.float_tag 0 5 1 (some 10)) ∧
     (coroutine_await.update
        (coroutine_await.trigger_event coroutine_await.waits_twice_created
          coroutine_await.float_tag 1 (some 10)) 5000).map
        (fun m => coroutine_await.attached m 0)
      = .ok (some (.wait_for_frame 5000))) ∧
    (coroutine_yield.create_started (coroutine_yield.new_manager 0)
        (coroutine_yield.start (coroutine_yield.coroutine_yields_twice 1 5) 0)
      = .ok (1, coroutine_yield.yields_twice_created) ∧
     coroutine_yield.attached coroutine_yield.yields_twice_created 0
      = some (.wait_for_event 0 false 1 5 none) ∧
     coroutine_yield.attached
        (coroutine_yield.trigger_event coroutine_yield.yields_twice_created 1 (some 10)) 0
      = some (.wait_for_event 0 false 1 5 (some 10)) ∧
     (coroutine_yield.update
        (coroutine_yield.trigger_event coroutine_yield.yields_twice_created 1 (some 10))
        5000).map (fun m => coroutine_yield.attached m 0)
      = .ok (some .wait_for_frame)) := by
  refine ⟨⟨rfl, rfl, rfl, ?_⟩, ⟨rfl, rfl, rfl, ?_⟩⟩
  · rewrite [await_update_one_slot
        (coroutine_await.trigger_event coroutine_await.waits_twice_created
          coroutine_await.float_tag 1 (some 10)) 5000 rfl,
      await_update_step_polls
        { coroutine_await.trigger_event coroutine_await.waits_twice_created
            coroutine_await.float_tag 1 (some 10) with cur_tick := 5000 } 0 _ _
        (.wait_for_event coroutine_await.float_tag 0 5 1 (some 10)) rfl rfl rfl rfl,
      await_can_resume_wait_for_event_at _ 5000 _ _ _ _ _ rfl, timed_out_five_seconds]
    rfl
  · rewrite [yield_update_one_slot
        (coroutine_yield.trigger_event coroutine_yield.yields_twice_created 1 (some 10))
        5000 rfl,
      yield_update_step_polls
        { coroutine_yield.trigger_event coroutine_yield.yields_twice_created 1 (some 10)
            with cur_tick := 5000 } 0 _ _
        (.wait_for_event 0 false 1 5 (some 10)) rfl rfl rfl rfl,
      yield_can_resume_wait_for_event_at _ 5000 _ _ _ _ _ rfl, timed_out_five_seconds]
    rfl

/-! ## A running coroutine seen from the manager -/

/-- C15 (code defect).  In `coroutine_yield`, take the manager while the body of
`coroutine_yields_twice(1, 5)` runs after a delivery of payload 10: its wait
object is still attached, with `triggered` set.  A second `trigger_event(1,
payload 20)` gets 0 (already triggered) from `trigger`, which leaves the stored
payload 10 alone, but `res >= 0` holds and the coroutine is resumed a second
time: it moves on to its second wait.  In `coroutine_await` there is no flag:
in the same situation `trigger_event<float>(1, payload 20)` overwrites the
payload 10 with 20 and resumes the coroutine a second time. -/
theorem C15_second_delivery_resumes_again :
    (coroutine_yield.attached coroutine_yield.yields_twice_running 0
        = some (.wait_for_event 0 true 1 5 (some 10)) ∧
     coroutine_yield.yield_constructor.trigger (.wait_for_event 0 true 1 5 (some 10)) 1 (some 20)
        = (0, .wait_for_event 0 true 1 5 (some 10)) ∧
     (coroutine_yield.trigger_event coroutine_yield.yields_twice_running 1 (some 20)).coroutines
        = [{ handle := some (coroutine_yield.resume
              { coroutine_yield.run (coroutine_yield.coroutine_yields_twice 1 5 0) 0 with
                promise := ⟨some (.wait_for_event 0 true 1 5 (some 10))⟩ } 0)
             id := 1 }] ∧
     coroutine_yield.attached
        (coroutine_yield.trigger_event coroutine_yield.yields_twice_running 1 (some 20)) 0
        = some (.wait_for_event 0 false 1 5 (some 10))) ∧
    (coroutine_await.attached coroutine_await.waits_twice_running 0
        = some (.wait_for_event coroutine_await.float_tag 0 5 1 (some 10)) ∧
     (coroutine_await.trigger_event coroutine_await.waits_twice_running
          coroutine_await.float_tag 1 (some 20)).coroutines
        = [{ handle := some (coroutine_await.resume
              { coroutine_await.run (coroutine_await.coroutine_waits_twice 1 5 0) 0 with
                promise := ⟨some (.wait_for_event coroutine_await.float_tag 0 5 1 (some 20))⟩ } 0)
             id := 1 }] ∧
     coroutine_await.attached
        (coroutine_await.trigger_event coroutine_await.waits_twice_running
          coroutine_await.float_tag 1 (some 20)) 0
        = some (.wait_for_event coroutine_await.float_tag 0 5 1 (some 20))) :=
  ⟨⟨rfl, rfl, rfl, rfl⟩, ⟨rfl, rfl, rfl⟩⟩

theorem await_running_eq (f : coroutine_await.frame) (hd : f.done = false) : f.running = f := by
  rcases f with ⟨d, p, k⟩
  simp only at hd
  subst hd
  rfl

/-- A coroutine whose body is running still looks like a waiter: its wait
object is attached, `is_done()` is false, and the loop body of `update` polls
it and resumes it when `can_resume` is true. -/
theorem await_running_is_polled (f : coroutine_await.frame) (a : coroutine_await.awaitable)
    (hd : f.done = false) (hp : f.promise.awaitable_ptr = some a) :
    f.running.promise.awaitable_ptr = some a ∧
    (∀ id, ({ handle := some f.running, id := id } : coroutine_await.coroutine_t).is_done = false) ∧
    ∀ (m : coroutine_await.coroutine_manager) (i id : Nat),
      m.coroutines[i]? = some { handle := some f.running, id := id } →
      coroutine_await.update_step m i =
        (match coroutine_await.can_resume m a with
          | .error e => .error e
          | .ok true => .ok
            { m with
              coroutines := m.coroutines.set i
                { handle := some (coroutine_await.resume f m.cur_tick), id := id } }
          | .ok false => .ok m) := by
  rw [await_running_eq f hd]
  refine ⟨hp, fun id => (await_is_done_false_iff _).2 ⟨f, a, rfl, hd, hp⟩, fun m i id hc => ?_⟩
  exact await_update_step_polls m i _ f a hc rfl hd hp

theorem yield_running_eq (f : coroutine_yield.frame) (hd : f.done = false) : f.running = f := by
  rcases f with ⟨d, p, k⟩
  simp only at hd
  subst hd
  rfl

/-- A coroutine whose body is running still looks like a waiter: its wait
object is attached, `is_done()` is false, and the loop body of `update` polls
it and resumes it when `can_resume` is true. -/
theorem yield_running_is_polled (f : coroutine_yield.frame) (a : coroutine_yield.yield_constructor)
    (hd : f.done = false) (hp : f.promise.constructor_ptr = some a) :
    f.running.promise.constructor_ptr = some a ∧
    (∀ id, ({ handle := some f.running, id := id } : coroutine_yield.coroutine_t).is_done = false) ∧
    ∀ (m : coroutine_yield.coroutine_manager) (i id : Nat),
      m.coroutines[i]? = some { handle := some f.running, id := id } →
      coroutine_yield.update_step m i =
        (match coroutine_yield.can_resume m a with
          | .error e => .error e
          | .ok true => .ok
            { m with
              coroutines := m.coroutines.set i
                { handle := some (coroutine_yield.resume f m.cur_tick), id := id } }
          | .ok false => .ok m) := by
  rw [yield_running_eq f hd]
  refine ⟨hp, fun id => (yield_is_done_false_iff _).2 ⟨f, a, rfl, hd, hp⟩, fun m i id hc => ?_⟩
  exact yield_update_step_polls m i _ f a hc rfl hd hp

/-- C19 (code defect), both headers: nothing clears the wait pointer of the
promise when a coroutine is resumed (`on_suspend` / `yield_value` set it,
`final_suspend` alone resets it).  Take the coroutine made from the test body
`coroutine2_wait_for_frame` (`coroutine2_yield_for_frame`) at tick 0; at tick 1
the loop body of `update` resumes it.  While its body runs, the slot still has
the `wait_for_frame` object attached, not null, and the loop body of an
`update` called at that moment finds the running coroutine as a waiter and
calls `resume()` on it a second time. -/
theorem C19_running_slot_is_polled_again :
    (coroutine_await.update_step
        ⟨[⟨some (coroutine_await.run (coroutine_await.coroutine2_wait_for_frame 0) 0), 1⟩],
          [], 1, 1⟩ 0
      = .ok ⟨[⟨some (coroutine_await.resume
          (coroutine_await.run (coroutine_await.coroutine2_wait_for_frame 0) 0) 1), 1⟩],
          [], 1, 1⟩ ∧
     coroutine_await.attached
        ⟨[⟨some (coroutine_await.run (coroutine_await.coroutine2_wait_for_frame 0) 0).running,
          1⟩], [], 1, 1⟩ 0
      = some (.wait_for_frame 0) ∧
     coroutine_await.update_step
        ⟨[⟨some (coroutine_await.run (coroutine_await.coroutine2_wait_for_frame 0) 0).running,
          1⟩], [], 1, 1⟩ 0
      = .ok ⟨[⟨some (coroutine_await.resume
          (coroutine_await.run (coroutine_await.coroutine2_wait_for_frame 0) 0) 1), 1⟩],
          [], 1, 1⟩) ∧
    (coroutine_yield.update_step
        ⟨[⟨some (coroutine_yield.run (coroutine_yield.coroutine2_yield_for_frame 0) 0), 1⟩],
          [], 1, 1⟩ 0
      = .ok ⟨[⟨some (coroutine_yield.resume
          (coroutine_yield.run (coroutine_yield.coroutine2_yield_for_frame 0) 0) 1), 1⟩],
          [], 1, 1⟩ ∧
     coroutine_yield.attached
        ⟨[⟨some (coroutine_yield.run (coroutine_yield.coroutine2_yield_for_frame 0) 0).running,
          1⟩], [], 1, 1⟩ 0
      = some .wait_for_frame ∧
     coroutine_yield.update_step
        ⟨[⟨some (coroutine_yield.run (coroutine_yield.coroutine2_yield_for_frame 0) 0).running,
          1⟩], [], 1, 1⟩ 0
      = .ok ⟨[⟨some (coroutine_yield.resume
          (coroutine_yield.run (coroutine_yield.coroutine2_yield_for_frame 0) 0) 1), 1⟩],
          [], 1, 1⟩) :=
  ⟨⟨rfl, rfl, rfl⟩, ⟨rfl, rfl, rfl⟩⟩

/-! ## When `update` returns in `coroutine_await` -/

/-- The invariant survives every change that keeps the free-list, the ids and
which slots are closed. -/
theorem await_inv_slotwise (m m1 : coroutine_await.coroutine_manager)
    (hinv : coroutine_await.table_invariant m) (hfree : m1.free_indexes = m.free_indexes)
    (h : ∀ i : Nat, (m.coroutines[i]? = none ∧ m1.coroutines[i]? = none) ∨
      ∃ c c1 : coroutine_await.coroutine_t, m.coroutines[i]? = some c ∧ m1.coroutines[i]? = some c1 ∧ c1.id = c.id ∧
        (c.handle = none ↔ c1.handle = none)) :
    coroutine_await.table_invariant m1 := by
  obtain ⟨i1, i2, i3, i4⟩ := hinv
  refine ⟨?_, by rw [hfree]; exact i2, ?_, ?_⟩
  · intro i hi
    rw [hfree] at hi
    rcases h i with ⟨h1, _⟩ | ⟨c, c1, h1, h2, h3, h4⟩
    · rw [i1 i hi] at h1; cases h1
    · rw [i1 i hi] at h1
      cases h1
      rw [h2]
      rcases c1 with ⟨hd, id⟩
      have hdn : hd = none := h4.1 rfl
      have hid : id = 0 := h3
      subst hid hdn
      rfl
  · intro i c1 hc1 hocc hi
    rcases h i with ⟨_, h2⟩ | ⟨c, c1', h1, h2, h3, h4⟩
    · rw [hc1] at h2; cases h2
    · rw [hc1] at h2
      cases h2
      rw [h3]
      exact i3 i c h1 (fun hn => hocc (h4.1 hn)) hi
  · intro i c1 hc1 hid
    rcases h i with ⟨_, h2⟩ | ⟨c, c1', h1, h2, h3, h4⟩
    · rw [hc1] at h2; cases h2
    · rw [hc1] at h2
      cases h2
      rw [h3] at hid
      exact ⟨fun hn => (i4 i c h1 hid).1 (h4.2 hn), (i4 i c h1 hid).2⟩

theorem await_inv_replace (m : coroutine_await.coroutine_manager) (i : Nat) (c : coroutine_await.coroutine_t)
    (f : coroutine_await.frame) (hinv : coroutine_await.table_invariant m)
    (hc : m.coroutines[i]? = some c) (hocc : c.handle ≠ none) :
    coroutine_await.table_invariant
      { m with coroutines := m.coroutines.set i { c with handle := some f } } := by
  have hlt := (List.getElem?_eq_some_iff.1 hc).1
  refine await_inv_slotwise m
    { m with coroutines := m.coroutines.set i { c with handle := some f } } hinv rfl ?_
  intro j
  by_cases hji : i = j
  · subst hji
    right
    refine ⟨c, { c with handle := some f }, hc, by simp [hlt], rfl, ?_⟩
    constructor
    · intro hn; exact absurd hn hocc
    · intro hn; cases hn
  · cases hj : m.coroutines[j]? with
    | none =>
      left
      exact ⟨rfl, by simp only []; rw [List.getElem?_set_ne hji, hj]⟩
    | some cj =>
      right
      exact ⟨cj, cj, rfl, by simp only []; rw [List.getElem?_set_ne hji, hj], rfl, Iff.rfl⟩

theorem await_inv_close (m : coroutine_await.coroutine_manager) (i : Nat) (c : coroutine_await.coroutine_t)
    (hinv : coroutine_await.table_invariant m)
    (hc : m.coroutines[i]? = some c) (hocc : c.handle ≠ none) :
    coroutine_await.table_invariant
      { m with
        coroutines := m.coroutines.set i { handle := none, id := 0 }
        free_indexes := m.free_indexes ++ [i] } := by
  have hlt := (List.getElem?_eq_some_iff.1 hc).1
  obtain ⟨i1, i2, i3, i4⟩ := hinv
  have hnot : i ∉ m.free_indexes := by
    intro hi
    rw [i1 i hi] at hc
    cases hc
    exact hocc rfl
  refine ⟨?_, ?_, ?_, ?_⟩
  · intro j hj
    simp only [List.mem_append, List.mem_singleton] at hj
    simp only []
    by_cases hji : i = j
    · subst hji
      rw [List.getElem?_set_self hlt]
    · rw [List.getElem?_set_ne hji]
      rcases hj with hj | hj
      · exact i1 j hj
      · exact absurd hj.symm hji
  · simp only []
    rw [List.nodup_append]
    refine ⟨i2, List.nodup_singleton i, ?_⟩
    intro x hx hx1
    rw [List.mem_singleton] at hx1
    subst hx1
    exact hnot hx
  · intro j cj hcj hoccj hj
    simp only [] at hcj
    by_cases hji : i = j
    · subst hji
      rw [List.getElem?_set_self hlt] at hcj
      cases hcj
      exact absurd rfl hoccj
    · rw [List.getElem?_set_ne hji] at hcj
      exact i3 j cj hcj hoccj hj
  · intro j cj hcj hid
    simp only [] at hcj
    by_cases hji : i = j
    · subst hji
      rw [List.getElem?_set_self hlt] at hcj
      cases hcj
      exact absurd rfl hid
    · rw [List.getElem?_set_ne hji] at hcj
      exact i4 j cj hcj hid

theorem await_inv_update_step (m m1 : coroutine_await.coroutine_manager) (i : Nat)
    (hinv : coroutine_await.table_invariant m) (h : coroutine_await.update_step m i = .ok m1) :
    coroutine_await.table_invariant m1 := by
  cases hc : m.coroutines[i]? with
  | none =>
    unfold coroutine_await.update_step at h
    simp only [hc] at h
    cases h
    exact hinv
  | some c =>
    cases hf : c.handle with
    | none =>
      rw [await_update_step_free m i c hc hf] at h
      cases h
      exact hinv
    | some f =>
      have hocc : c.handle ≠ none := by rw [hf]; exact Option.some_ne_none f
      cases hd : c.is_done with
      | true =>
        rw [await_update_step_reclaims m i c f hc hf hd] at h
        cases h
        exact await_inv_close m i c hinv hc hocc
      | false =>
        obtain ⟨f1, a, hf1, hfd, hp⟩ := (await_is_done_false_iff c).1 hd
        rw [await_update_step_polls m i c f1 a hc hf1 hfd hp] at h
        cases hr : coroutine_await.can_resume m a with
        | error e => rw [hr] at h; cases h
        | ok b =>
          rw [hr] at h
          cases b
          · cases h; exact hinv
          · cases h
            exact await_inv_replace m i c _ hinv hc hocc

theorem await_inv_update_loop :
    ∀ (n i : Nat) (m m1 : coroutine_await.coroutine_manager),
      coroutine_await.table_invariant m → coroutine_await.update_loop n i m = .ok m1 →
      coroutine_await.table_invariant m1 := by
  intro n
  induction n with
  | zero => intro i m m1 hinv h; cases h; exact hinv
  | succ n ih =>
    intro i m m1 hinv h
    unfold coroutine_await.update_loop at h
    split_ifs at h with hi
    · cases hstep : coroutine_await.update_step m i with
      | error e => rw [hstep] at h; cases h
      | ok m2 =>
        rw [hstep] at h
        exact ih (i + 1) m2 m1 (await_inv_update_step m m2 i hinv hstep) h
    · cases h; exact hinv

theorem await_inv_update (m m1 : coroutine_await.coroutine_manager) (t : Nat)
    (hinv : coroutine_await.table_invariant m) (h : coroutine_await.update m t = .ok m1) :
    coroutine_await.table_invariant m1 :=
  await_inv_update_loop _ _ { m with cur_tick := t } m1 hinv h

theorem await_inv_destroy (m m1 : coroutine_await.coroutine_manager) (id : Nat) (r : Bool)
    (hinv : coroutine_await.table_invariant m) (h : coroutine_await.destroy_coroutine m id = .ok (r, m1)) :
    coroutine_await.table_invariant m1 := by
  unfold coroutine_await.destroy_coroutine at h
  simp only [] at h
  split_ifs at h with h1
  · cases h; exact hinv
  · cases hc : m.coroutines[index_of id]? with
    | none => rw [hc] at h; cases h
    | some c =>
      rw [hc] at h
      simp only [] at h
      split_ifs at h with h2 h3
      · cases h; exact hinv
      · cases h; exact hinv
      · cases h
        have hd : c.is_done = false := by simpa using h3
        obtain ⟨f, a, hf, _, _⟩ := (await_is_done_false_iff c).1 hd
        rw [await_close_of_not_done c hd]
        exact await_inv_close m _ c hinv hc (by rw [hf]; exact Option.some_ne_none f)

/-! ## The invariant of table and free-list in `coroutine_yield` -/

/-- The invariant survives every change that keeps the free-list, the ids and
which slots are closed. -/
theorem yield_inv_slotwise (m m1 : coroutine_yield.coroutine_manager)
    (hinv : coroutine_yield.table_invariant m) (hfree : m1.free_indexes = m.free_indexes)
    (h : ∀ i : Nat, (m.coroutines[i]? = none ∧ m1.coroutines[i]? = none) ∨
      ∃ c c1 : coroutine_yield.coroutine_t, m.coroutines[i]? = some c ∧ m1.coroutines[i]? = some c1 ∧ c1.id = c.id ∧
        (c.handle = none ↔ c1.handle = none)) :
    coroutine_yield.table_invariant m1 := by
  obtain ⟨i1, i2, i3, i4⟩ := hinv
  refine ⟨?_, by rw [hfree]; exact i2, ?_, ?_⟩
  · intro i hi
    rw [hfree] at hi
    rcases h i with ⟨h1, _⟩ | ⟨c, c1, h1, h2, h3, h4⟩
    · rw [i1 i hi] at h1; cases h1
    · rw [i1 i hi] at h1
      cases h1
      rw [h2]
      rcases c1 with ⟨hd, id⟩
      have hdn : hd = none := h4.1 rfl
      have hid : id = 0 := h3
      subst hid hdn
      rfl
  · intro i c1 hc1 hocc hi
    rcases h i with ⟨_, h2⟩ | ⟨c, c1', h1, h2, h3, h4⟩
    · rw [hc1] at h2; cases h2
    · rw [hc1] at h2
      cases h2
      rw [h3]
      exact i3 i c h1 (fun hn => hocc (h4.1 hn)) hi
  · intro i c1 hc1 hid
    rcases h i with ⟨_, h2⟩ | ⟨c, c1', h1, h2, h3, h4⟩
    · rw [hc1] at h2; cases h2
    · rw [hc1] at h2
      cases h2
      rw [h3] at hid
      exact ⟨fun hn => (i4 i c h1 hid).1 (h4.2 hn), (i4 i c h1 hid).2⟩

theorem yield_inv_replace (m : coroutine_yield.coroutine_manager) (i : Nat) (c : coroutine_yield.coroutine_t)
    (f : coroutine_yield.frame) (hinv : coroutine_yield.table_invariant m)
    (hc : m.coroutines[i]? = some c) (hocc : c.handle ≠ none) :
    coroutine_yield.table_invariant
      { m with coroutines := m.coroutines.set i { c with handle := some f } } := by
  have hlt := (List.getElem?_eq_some_iff.1 hc).1
  refine yield_inv_slotwise m
    { m with coroutines := m.coroutines.set i { c with handle := some f } } hinv rfl ?_
  intro j
  by_cases hji : i = j
  · subst hji
    right
    refine ⟨c, { c with handle := some f }, hc, by simp [hlt], rfl, ?_⟩
    constructor
    · intro hn; exact absurd hn hocc
    · intro hn; cases hn
  · cases hj : m.coroutines[j]? with
    | none =>
      left
      exact ⟨rfl, by simp only []; rw [List.getElem?_set_ne hji, hj]⟩
    | some cj =>
      right
      exact ⟨cj, cj, rfl, by simp only []; rw [List.getElem?_set_ne hji, hj], rfl, Iff.rfl⟩

theorem yield_inv_close (m : coroutine_yield.coroutine_manager) (i : Nat) (c : coroutine_yield.coroutine_t)
    (hinv : coroutine_yield.table_invariant m)
    (hc : m.coroutines[i]? = some c) (hocc : c.handle ≠ none) :
    coroutine_yield.table_invariant
      { m with
        coroutines := m.coroutines.set i { handle := none, id := 0 }
        free_indexes := m.free_indexes ++ [i] } := by
  have hlt := (List.getElem?_eq_some_iff.1 hc).1
  obtain ⟨i1, i2, i3, i4⟩ := hinv
  have hnot : i ∉ m.free_indexes := by
    intro hi
    rw [i1 i hi] at hc
    cases hc
    exact hocc rfl
  refine ⟨?_, ?_, ?_, ?_⟩
  · intro j hj
    simp only [List.mem_append, List.mem_singleton] at hj
    simp only []
    by_cases hji : i = j
    · subst hji
      rw [List.getElem?_set_self hlt]
    · rw [List.getElem?_set_ne hji]
      rcases hj with hj | hj
      · exact i1 j hj
      · exact absurd hj.symm hji
  · simp only []
    rw [List.nodup_append]
    refine ⟨i2, List.nodup_singleton i, ?_⟩
    intro x hx hx1
    rw [List.mem_singleton] at hx1
    subst hx1
    exact hnot hx
  · intro j cj hcj hoccj hj
    simp only [] at hcj
    by_cases hji : i = j
    · subst hji
      rw [List.getElem?_set_self hlt] at hcj
      cases hcj
      exact absurd rfl hoccj
    · rw [List.getElem?_set_ne hji] at hcj
      exact i3 j cj hcj hoccj hj
  · intro j cj hcj hid
    simp only [] at hcj
    by_cases hji : i = j
    · subst hji
      rw [List.getElem?_set_self hlt] at hcj
      cases hcj
      exact absurd rfl hid
    · rw [List.getElem?_set_ne hji] at hcj
      exact i4 j cj hcj hid

theorem yield_inv_update_step (m m1 : coroutine_yield.coroutine_manager) (i : Nat)
    (hinv : coroutine_yield.table_invariant m) (h : coroutine_yield.update_step m i = .ok m1) :
    coroutine_yield.table_invariant m1 := by
  cases hc : m.coroutines[i]? with
  | none =>
    unfold coroutine_yield.update_step at h
    simp only [hc] at h
    cases h
    exact hinv
  | some c =>
    cases hf : c.handle with
    | none =>
      rw [yield_update_step_free m i c hc hf] at h
      cases h
      exact hinv
    | some f =>
      have hocc : c.handle ≠ none := by rw [hf]; exact Option.some_ne_none f
      cases hd : c.is_done with
      | true =>
        rw [yield_update_step_reclaims m i c f hc hf hd] at h
        cases h
        exact yield_inv_close m i c hinv hc hocc
      | false =>
        obtain ⟨f1, a, hf1, hfd, hp⟩ := (yield_is_done_false_iff c).1 hd
        rw [yield_update_step_polls m i c f1 a hc hf1 hfd hp] at h
        cases hr : coroutine_yield.can_resume m a with
        | error e => rw [hr] at h; cases h
        | ok b =>
          rw [hr] at h
          cases b
          · cases h; exact hinv
          · cases h
            exact yield_inv_replace m i c _ hinv hc hocc

theorem yield_inv_update_loop :
    ∀ (n i : Nat) (m m1 : coroutine_yield.coroutine_manager),
      coroutine_yield.table_invariant m → coroutine_yield.update_loop n i m = .ok m1 →
      coroutine_yield.table_invariant m1 := by
  intro n
  induction n with
  | zero => intro i m m1 hinv h; cases h; exact hinv
  | succ n ih =>
    intro i m m1 hinv h
    unfold coroutine_yield.update_loop at h
    split_ifs at h with hi
    · cases hstep : coroutine_yield.update_step m i with
      | error e => rw [hstep] at h; cases h
      | ok m2 =>
        rw [hstep] at h
        exact ih (i + 1) m2 m1 (yield_inv_update_step m m2 i hinv hstep) h
    · cases h; exact hinv

theorem yield_inv_update (m m1 : coroutine_yield.coroutine_manager) (t : Nat)
    (hinv : coroutine_yield.table_invariant m) (h : coroutine_yield.update m t = .ok m1) :
    coroutine_yield.table_invariant m1 :=
  yield_inv_update_loop _ _ { m with cur_tick := t } m1 hinv h

theorem yield_inv_destroy (m m1 : coroutine_yield.coroutine_manager) (id : Nat) (r : Bool)
    (hinv : coroutine_yield.table_invariant m) (h : coroutine_yield.destroy_coroutine m id = .ok (r, m1)) :
    coroutine_yield.table_invariant m1 := by
  unfold coroutine_yield.destroy_coroutine at h
  simp only [] at h
  split_ifs at h with h1
  · cases h; exact hinv
  · cases hc : m.coroutines[index_of id]? with
    | none => rw [hc] at h; cases h
    | some c =>
      rw [hc] at h
      simp only [] at h
      split_ifs at h with h2 h3
      · cases h; exact hinv
      · cases h; exact hinv
      · cases h
        have hd : c.is_done = false := by simpa using h3
        obtain ⟨f, a, hf, _, _⟩ := (yield_is_done_false_iff c).1 hd
        rw [yield_close_of_not_done c hd]
        exact yield_inv_close m _ c hinv hc (by rw [hf]; exact Option.some_ne_none f)

theorem await_inv_create (m m1 : coroutine_await.coroutine_manager) (handler : coroutine_await.coroutine_t)
    (id : Nat) (hinv : coroutine_await.table_invariant m) (hid0 : handler.id = 0)
    (h : coroutine_await.create_coroutine m handler = .ok (id, m1)) :
    coroutine_await.table_invariant m1 := by
  have hlt := next_serial_lt_await m.serial
  have hpos := next_serial_pos_await m.serial
  obtain ⟨i1, i2, i3, i4⟩ := hinv
  have hocc0 : ¬ handler.is_done = true → handler.handle ≠ none := by
    intro hdone hn
    apply hdone
    unfold coroutine_await.coroutine_t.is_done
    rw [hn]
  unfold coroutine_await.create_coroutine at h
  split_ifs at h with hdone
  · cases h; exact ⟨i1, i2, i3, i4⟩
  · cases hf : m.free_indexes with
    | nil =>
      simp only [hf] at h
      have hold : ∀ (j : Nat) (c : coroutine_await.coroutine_t),
          (m.coroutines ++ [handler])[j]? = some c → j ≠ m.coroutines.length →
          m.coroutines[j]? = some c := by
        intro j c hc hj
        have hjl := (List.getElem?_eq_some_iff.1 hc).1
        rw [List.length_append, List.length_singleton] at hjl
        rw [List.getElem?_append_left (by omega)] at hc
        exact hc
      split_ifs at h with h2 h3
      · cases h
        refine ⟨by simp [hf], by simp [hf], ?_, ?_⟩
        · intro j c hc hocc hj
          exact i3 j c (hold j c hc (by omega)) hocc hj
        · intro j c hc hid
          by_cases hjl : j = m.coroutines.length
          · subst hjl
            rw [List.getElem?_append_right (le_refl _)] at hc
            simp only [Nat.sub_self, List.getElem?_cons_zero] at hc
            cases hc
            exact absurd hid0 hid
          · exact i4 j c (hold j c hc hjl) hid
      · cases h
        refine ⟨by simp [hf], by simp [hf], ?_, ?_⟩
        · intro j c hc hocc hj
          simp only [] at hc
          by_cases hjl : m.coroutines.length = j
          · subst hjl
            rw [List.getElem?_set_self (by simp)] at hc
            cases hc
            simp only [make_id_eq _ _ (Nat.le_of_not_lt h2) hlt]
            exact ⟨index_of_make_id _ _ (Nat.le_of_not_lt h2) hlt, by omega⟩
          · rw [List.getElem?_set_ne hjl] at hc
            exact i3 j c (hold j c hc (Ne.symm hjl)) hocc hj
        · intro j c hc hid
          simp only [] at hc
          by_cases hjl : m.coroutines.length = j
          · subst hjl
            rw [List.getElem?_set_self (by simp)] at hc
            cases hc
            exact ⟨hocc0 hdone, Nat.le_of_not_lt h2⟩
          · rw [List.getElem?_set_ne hjl] at hc
            exact i4 j c (hold j c hc (Ne.symm hjl)) hid
    | cons i0 rest =>
      simp only [hf] at h
      rw [hf] at i1 i2
      have hsub : ∀ j ∈ rest, j ∈ i0 :: rest := fun j hj => List.mem_cons_of_mem _ hj
      have hnot : i0 ∉ rest := (List.nodup_cons.1 i2).1
      split_ifs at h with h2 h3
      · cases h
        exact ⟨fun j hj => i1 j (hsub j hj), (List.nodup_cons.1 i2).2, i3, i4⟩
      · cases h
        refine ⟨?_, (List.nodup_cons.1 i2).2, ?_, ?_⟩
        · intro j hj
          simp only []
          rw [List.getElem?_set_ne (by intro he; subst he; exact hnot hj)]
          exact i1 j (hsub j hj)
        · intro j c hc hocc hj
          simp only [] at hc
          by_cases hjl : i0 = j
          · subst hjl
            rw [List.getElem?_set_self h3] at hc
            cases hc
            simp only [make_id_eq _ _ (Nat.le_of_not_lt h2) hlt]
            exact ⟨index_of_make_id _ _ (Nat.le_of_not_lt h2) hlt, by omega⟩
          · rw [List.getElem?_set_ne hjl] at hc
            exact i3 j c hc hocc hj
        · intro j c hc hid
          simp only [] at hc
          by_cases hjl : i0 = j
          · subst hjl
            rw [List.getElem?_set_self h3] at hc
            cases hc
            exact ⟨hocc0 hdone, Nat.le_of_not_lt h2⟩
          · rw [List.getElem?_set_ne hjl] at hc
            exact i4 j c hc hid

/-- Under the invariant `create_coroutine` writes to a closed slot or to the
slot it has just added: every slot that holds a coroutine is left as it is. -/
theorem await_create_keeps_occupied (m m1 : coroutine_await.coroutine_manager)
    (handler : coroutine_await.coroutine_t) (id : Nat) (hinv : coroutine_await.table_invariant m)
    (h : coroutine_await.create_coroutine m handler = .ok (id, m1)) :
    ∀ (j : Nat) (c : coroutine_await.coroutine_t), m.coroutines[j]? = some c → c.handle ≠ none →
      m1.coroutines[j]? = some c := by
  obtain ⟨i1, _, _⟩ := hinv
  intro j c hc hocc
  have hjl := (List.getElem?_eq_some_iff.1 hc).1
  unfold coroutine_await.create_coroutine at h
  split_ifs at h with hdone
  · cases h; exact hc
  · cases hf : m.free_indexes with
    | nil =>
      simp only [hf] at h
      split_ifs at h with h2 h3
      · cases h
        simp only []
        rw [List.getElem?_append_left hjl]
        exact hc
      · cases h
        simp only []
        rw [List.getElem?_set_ne (by omega), List.getElem?_append_left hjl]
        exact hc
    | cons i0 rest =>
      simp only [hf] at h
      have hne : i0 ≠ j := by
        intro he
        subst he
        rw [i1 i0 (by simp [hf])] at hc
        cases hc
        exact hocc rfl
      split_ifs at h with h2 h3
      · cases h; exact hc
      · cases h
        simp only []
        rw [List.getElem?_set_ne hne]
        exact hc

/-- Two ids that exist never name the same slot. -/
theorem await_live_ids_share_no_slot (m : coroutine_await.coroutine_manager) (a b : Nat)
    (ha : coroutine_await.exists_coroutine m a = .ok true) (hb : coroutine_await.exists_coroutine m b = .ok true)
    (hab : index_of a = index_of b) : a = b := by
  obtain ⟨ca, h1, h2, _⟩ := (await_exists_true_iff m a).1 ha
  obtain ⟨cb, h3, h4, _⟩ := (await_exists_true_iff m b).1 hb
  rw [hab, h3] at h1
  cases h1
  rw [← h2, ← h4]

theorem await_occupied_ids_differ (m : coroutine_await.coroutine_manager)
    (hinv : coroutine_await.table_invariant m) (i j : Nat) (ci cj : coroutine_await.coroutine_t)
    (hi : m.coroutines[i]? = some ci) (hj : m.coroutines[j]? = some cj)
    (hoi : ci.handle ≠ none) (hoj : cj.handle ≠ none)
    (hil : i ≤ UINT_MAX) (hjl : j ≤ UINT_MAX) (hij : i ≠ j) : ci.id ≠ cj.id := by
  intro he
  have h1 := (hinv.2.2.1 i ci hi hoi hil).1
  have h2 := (hinv.2.2.1 j cj hj hoj hjl).1
  rw [he] at h1
  exact hij (h1.symm.trans h2)

theorem await_inv_free_inside (m : coroutine_await.coroutine_manager) (hinv : coroutine_await.table_invariant m) :
    ∀ i ∈ m.free_indexes, i < m.coroutines.length ∧
      m.coroutines[i]? = some { handle := none, id := 0 } :=
  fun i hi => ⟨(List.getElem?_eq_some_iff.1 (hinv.1 i hi)).1, hinv.1 i hi⟩

/-- Two slots never store the same id other than 0. -/
theorem await_nonzero_ids_differ (m : coroutine_await.coroutine_manager)
    (hinv : coroutine_await.table_invariant m) (i j : Nat) (ci cj : coroutine_await.coroutine_t)
    (hi : m.coroutines[i]? = some ci) (hj : m.coroutines[j]? = some cj)
    (hij : i ≠ j) (hid : ci.id ≠ 0) : ci.id ≠ cj.id := by
  intro he
  obtain ⟨_, _, i3, i4⟩ := hinv
  have a1 := i4 i ci hi hid
  have a2 := i4 j cj hj (he ▸ hid)
  have h1 := (i3 i ci hi a1.1 a1.2).1
  have h2 := (i3 j cj hj a2.1 a2.2).1
  rw [he] at h1
  exact hij (h1.symm.trans h2)

/-- An id that exists is not 0. -/
theorem await_live_id_ne_zero (m : coroutine_await.coroutine_manager)
    (hinv : coroutine_await.table_invariant m) (id : Nat)
    (h : coroutine_await.exists_coroutine m id = .ok true) : id ≠ 0 := by
  obtain ⟨c, h1, h2, h3⟩ := (await_exists_true_iff m id).1 h
  have hocc : c.handle ≠ none := by
    intro hn
    unfold coroutine_await.coroutine_t.is_done at h3
    rw [hn] at h3
    cases h3
  rw [← h2]
  exact (hinv.2.2.1 _ c h1 hocc (Nat.le_of_lt_succ (index_of_lt id))).2

/-- On a table that is not empty and satisfies the invariant, id 0 is answered
without a read past the end: the lookups give empty / false and
`destroy_coroutine(0)` returns false and changes nothing. -/
theorem await_id_zero_on_nonempty_table (m : coroutine_await.coroutine_manager)
    (hinv : coroutine_await.table_invariant m) (hne : 0 < m.coroutines.length) :
    coroutine_await.get_coroutine m 0 = .ok none ∧
    coroutine_await.exists_coroutine m 0 = .ok false ∧
    coroutine_await.destroy_coroutine m 0 = .ok (false, m) := by
  obtain ⟨c, hc⟩ : ∃ c, m.coroutines[0]? = some c :=
    ⟨m.coroutines[0], List.getElem?_eq_getElem hne⟩
  have hidx : index_of 0 = 0 := rfl
  have hdone : c.id = 0 → c.is_done = true := by
    intro hid
    cases hh : c.handle with
    | none =>
      unfold coroutine_await.coroutine_t.is_done
      rw [hh]
    | some f =>
      exact absurd hid (hinv.2.2.1 0 c hc (by rw [hh]; exact Option.some_ne_none f)
        (Nat.zero_le _)).2
  have hget : coroutine_await.get_coroutine m 0 = .ok none := by
    unfold coroutine_await.get_coroutine
    simp only [hidx, hc]
    rw [if_neg (by omega)]
    by_cases hid : c.id = 0
    · rw [if_neg (by simpa using hid), if_pos (hdone hid)]
    · rw [if_pos hid]
  refine ⟨hget, ?_, ?_⟩
  · unfold coroutine_await.exists_coroutine
    rw [hget]
    rfl
  · unfold coroutine_await.destroy_coroutine
    simp only [hidx, hc]
    rw [if_neg (by omega)]
    by_cases hid : c.id = 0
    · rw [if_neg (by simpa using hid), if_pos (hdone hid)]
    · rw [if_pos hid]

theorem yield_inv_create (m m1 : coroutine_yield.coroutine_manager) (handler : coroutine_yield.coroutine_t)
    (id : Nat) (hinv : coroutine_yield.table_invariant m) (hid0 : handler.id = 0)
    (h : coroutine_yield.create_coroutine m handler = .ok (id, m1)) :
    coroutine_yield.table_invariant m1 := by
  have hlt := next_serial_lt_yield m.serial
  have hpos := next_serial_pos_yield m.serial
  obtain ⟨i1, i2, i3, i4⟩ := hinv
  have hocc0 : ¬ handler.is_done = true → handler.handle ≠ none := by
    intro hdone hn
    apply hdone
    unfold coroutine_yield.coroutine_t.is_done
    rw [hn]
  unfold coroutine_yield.create_coroutine at h
  split_ifs at h with hdone
  · cases h; exact ⟨i1, i2, i3, i4⟩
  · cases hf : m.free_indexes with
    | nil =>
      simp only [hf] at h
      have hold : ∀ (j : Nat) (c : coroutine_yield.coroutine_t),
          (m.coroutines ++ [handler])[j]? = some c → j ≠ m.coroutines.length →
          m.coroutines[j]? = some c := by
        intro j c hc hj
        have hjl := (List.getElem?_eq_some_iff.1 hc).1
        rw [List.length_append, List.length_singleton] at hjl
        rw [List.getElem?_append_left (by omega)] at hc
        exact hc
      split_ifs at h with h2 h3
      · cases h
        refine ⟨by simp [hf], by simp [hf], ?_, ?_⟩
        · intro j c hc hocc hj
          exact i3 j c (hold j c hc (by omega)) hocc hj
        · intro j c hc hid
          by_cases hjl : j = m.coroutines.length
          · subst hjl
            rw [List.getElem?_append_right (le_refl _)] at hc
            simp only [Nat.sub_self, List.getElem?_cons_zero] at hc
            cases hc
            exact absurd hid0 hid
          · exact i4 j c (hold j c hc hjl) hid
      · cases h
        refine ⟨by simp [hf], by simp [hf], ?_, ?_⟩
        · intro j c hc hocc hj
          simp only [] at hc
          by_cases hjl : m.coroutines.length = j
          · subst hjl
            rw [List.getElem?_set_self (by simp)] at hc
            cases hc
            simp only [make_id_eq _ _ (Nat.le_of_not_lt h2) hlt]
            exact ⟨index_of_make_id _ _ (Nat.le_of_not_lt h2) hlt, by omega⟩
          · rw [List.getElem?_set_ne hjl] at hc
            exact i3 j c (hold j c hc (Ne.symm hjl)) hocc hj
        · intro j c hc hid
          simp only [] at hc
          by_cases hjl : m.coroutines.length = j
          · subst hjl
            rw [List.getElem?_set_self (by simp)] at hc
            cases hc
            exact ⟨hocc0 hdone, Nat.le_of_not_lt h2⟩
          · rw [List.getElem?_set_ne hjl] at hc
            exact i4 j c (hold j c hc (Ne.symm hjl)) hid
    | cons i0 rest =>
      simp only [hf] at h
      rw [hf] at i1 i2
      have hsub : ∀ j ∈ rest, j ∈ i0 :: rest := fun j hj => List.mem_cons_of_mem _ hj
      have hnot : i0 ∉ rest := (List.nodup_cons.1 i2).1
      split_ifs at h with h2 h3
      · cases h
        exact ⟨fun j hj => i1 j (hsub j hj), (List.nodup_cons.1 i2).2, i3, i4⟩
      · cases h
        refine ⟨?_, (List.nodup_cons.1 i2).2, ?_, ?_⟩
        · intro j hj
          simp only []
          rw [List.getElem?_set_ne (by intro he; subst he; exact hnot hj)]
          exact i1 j (hsub j hj)
        · intro j c hc hocc hj
          simp only [] at hc
          by_cases hjl : i0 = j
          · subst hjl
            rw [List.getElem?_set_self h3] at hc
            cases hc
            simp only [make_id_eq _ _ (Nat.le_of_not_lt h2) hlt]
            exact ⟨index_of_make_id _ _ (Nat.le_of_not_lt h2) hlt, by omega⟩
          · rw [List.getElem?_set_ne hjl] at hc
            exact i3 j c hc hocc hj
        · intro j c hc hid
          simp only [] at hc
          by_cases hjl : i0 = j
          · subst hjl
            rw [List.getElem?_set_self h3] at hc
            cases hc
            exact ⟨hocc0 hdone, Nat.le_of_not_lt h2⟩
          · rw [List.getElem?_set_ne hjl] at hc
            exact i4 j c hc hid

/-- Under the invariant `create_coroutine` writes to a closed slot or to the
slot it has just added: every slot that holds a coroutine is left as it is. -/
theorem yield_create_keeps_occupied (m m1 : coroutine_yield.coroutine_manager)
    (handler : coroutine_yield.coroutine_t) (id : Nat) (hinv : coroutine_yield.table_invariant m)
    (h : coroutine_yield.create_coroutine m handler = .ok (id, m1)) :
    ∀ (j : Nat) (c : coroutine_yield.coroutine_t), m.coroutines[j]? = some c → c.handle ≠ none →
      m1.coroutines[j]? = some c := by
  obtain ⟨i1, _, _⟩ := hinv
  intro j c hc hocc
  have hjl := (List.getElem?_eq_some_iff.1 hc).1
  unfold coroutine_yield.create_coroutine at h
  split_ifs at h with hdone
  · cases h; exact hc
  · cases hf : m.free_indexes with
    | nil =>
      simp only [hf] at h
      split_ifs at h with h2 h3
      · cases h
        simp only []
        rw [List.getElem?_append_left hjl]
        exact hc
      · cases h
        simp only []
        rw [List.getElem?_set_ne (by omega), List.getElem?_append_left hjl]
        exact hc
    | cons i0 rest =>
      simp only [hf] at h
      have hne : i0 ≠ j := by
        intro he
        subst he
        rw [i1 i0 (by simp [hf])] at hc
        cases hc
        exact hocc rfl
      split_ifs at h with h2 h3
      · cases h; exact hc
      · cases h
        simp only []
        rw [List.getElem?_set_ne hne]
        exact hc

/-- Two ids that exist never name the same slot. -/
theorem yield_live_ids_share_no_slot (m : coroutine_yield.coroutine_manager) (a b : Nat)
    (ha : coroutine_yield.exists_coroutine m a = .ok true) (hb : coroutine_yield.exists_coroutine m b = .ok true)
    (hab : index_of a = index_of b) : a = b := by
  obtain ⟨ca, h1, h2, _⟩ := (yield_exists_true_iff m a).1 ha
  obtain ⟨cb, h3, h4, _⟩ := (yield_exists_true_iff m b).1 hb
  rw [hab, h3] at h1
  cases h1
  rw [← h2, ← h4]

theorem yield_occupied_ids_differ (m : coroutine_yield.coroutine_manager)
    (hinv : coroutine_yield.table_invariant m) (i j : Nat) (ci cj : coroutine_yield.coroutine_t)
    (hi : m.coroutines[i]? = some ci) (hj : m.coroutines[j]? = some cj)
    (hoi : ci.handle ≠ none) (hoj : cj.handle ≠ none)
    (hil : i ≤ UINT_MAX) (hjl : j ≤ UINT_MAX) (hij : i ≠ j) : ci.id ≠ cj.id := by
  intro he
  have h1 := (hinv.2.2.1 i ci hi hoi hil).1
  have h2 := (hinv.2.2.1 j cj hj hoj hjl).1
  rw [he] at h1
  exact hij (h1.symm.trans h2)

theorem yield_inv_free_inside (m : coroutine_yield.coroutine_manager) (hinv : coroutine_yield.table_invariant m) :
    ∀ i ∈ m.free_indexes, i < m.coroutines.length ∧
      m.coroutines[i]? = some { handle := none, id := 0 } :=
  fun i hi => ⟨(List.getElem?_eq_some_iff.1 (hinv.1 i hi)).1, hinv.1 i hi⟩

/-- Two slots never store the same id other than 0. -/
theorem yield_nonzero_ids_differ (m : coroutine_yield.coroutine_manager)
    (hinv : coroutine_yield.table_invariant m) (i j : Nat) (ci cj : coroutine_yield.coroutine_t)
    (hi : m.coroutines[i]? = some ci) (hj : m.coroutines[j]? = some cj)
    (hij : i ≠ j) (hid : ci.id ≠ 0) : ci.id ≠ cj.id := by
  intro he
  obtain ⟨_, _, i3, i4⟩ := hinv
  have a1 := i4 i ci hi hid
  have a2 := i4 j cj hj (he ▸ hid)
  have h1 := (i3 i ci hi a1.1 a1.2).1
  have h2 := (i3 j cj hj a2.1 a2.2).1
  rw [he] at h1
  exact hij (h1.symm.trans h2)

/-- An id that exists is not 0. -/
theorem yield_live_id_ne_zero (m : coroutine_yield.coroutine_manager)
    (hinv : coroutine_yield.table_invariant m) (id : Nat)
    (h : coroutine_yield.exists_coroutine m id = .ok true) : id ≠ 0 := by
  obtain ⟨c, h1, h2, h3⟩ := (yield_exists_true_iff m id).1 h
  have hocc : c.handle ≠ none := by
    intro hn
    unfold coroutine_yield.coroutine_t.is_done at h3
    rw [hn] at h3
    cases h3
  rw [← h2]
  exact (hinv.2.2.1 _ c h1 hocc (Nat.le_of_lt_succ (index_of_lt id))).2

/-- On a table that is not empty and satisfies the invariant, id 0 is answered
without a read past the end: the lookups give empty / false and
`destroy_coroutine(0)` returns false and changes nothing. -/
theorem yield_id_zero_on_nonempty_table (m : coroutine_yield.coroutine_manager)
    (hinv : coroutine_yield.table_invariant m) (hne : 0 < m.coroutines.length) :
    coroutine_yield.get_coroutine m 0 = .ok none ∧
    coroutine_yield.exists_coroutine m 0 = .ok false ∧
    coroutine_yield.destroy_coroutine m 0 = .ok (false, m) := by
  obtain ⟨c, hc⟩ : ∃ c, m.coroutines[0]? = some c :=
    ⟨m.coroutines[0], List.getElem?_eq_getElem hne⟩
  have hidx : index_of 0 = 0 := rfl
  have hdone : c.id = 0 → c.is_done = true := by
    intro hid
    cases hh : c.handle with
    | none =>
      unfold coroutine_yield.coroutine_t.is_done
      rw [hh]
    | some f =>
      exact absurd hid (hinv.2.2.1 0 c hc (by rw [hh]; exact Option.some_ne_none f)
        (Nat.zero_le _)).2
  have hget : coroutine_yield.get_coroutine m 0 = .ok none := by
    unfold coroutine_yield.get_coroutine
    simp only [hidx, hc]
    rw [if_neg (by omega)]
    by_cases hid : c.id = 0
    · rw [if_neg (by simpa using hid), if_pos (hdone hid)]
    · rw [if_pos hid]
  refine ⟨hget, ?_, ?_⟩
  · unfold coroutine_yield.exists_coroutine
    rw [hget]
    rfl
  · unfold coroutine_yield.destroy_coroutine
    simp only [hidx, hc]
    rw [if_neg (by omega)]
    by_cases hid : c.id = 0
    · rw [if_neg (by simpa using hid), if_pos (hdone hid)]
    · rw [if_pos hid]

/-! ## The invariant holds in every reachable state -/

theorem await_inv_trigger_step (m : coroutine_await.coroutine_manager) (T : Nat) (E : Int)
    (v : Option Nat) (i : Nat) (hinv : coroutine_await.table_invariant m) :
    coroutine_await.table_invariant (coroutine_await.trigger_step m T E v i) := by
  unfold coroutine_await.trigger_step
  split
  · exact hinv
  · rename_i c hc
    split_ifs
    · exact hinv
    · split
      · exact hinv
      · rename_i f hf
        split
        · split_ifs
          · exact hinv
          · exact hinv
          · exact hinv
          · exact await_inv_replace m i c _ hinv hc (by rw [hf]; simp)
        · exact hinv

theorem await_inv_trigger_loop (T : Nat) (E : Int) (v : Option Nat) :
    ∀ (n i : Nat) (m : coroutine_await.coroutine_manager),
      coroutine_await.table_invariant m →
      coroutine_await.table_invariant (coroutine_await.trigger_loop T E v n i m) := by
  intro n
  induction n with
  | zero => intro i m hinv; exact hinv
  | succ n ih =>
    intro i m hinv
    unfold coroutine_await.trigger_loop
    split_ifs
    · exact ih (i + 1) _ (await_inv_trigger_step m T E v i hinv)
    · exact hinv

theorem await_inv_trigger_event (m : coroutine_await.coroutine_manager) (T : Nat) (E : Int)
    (v : Option Nat) (hinv : coroutine_await.table_invariant m) :
    coroutine_await.table_invariant (coroutine_await.trigger_event m T E v) :=
  await_inv_trigger_loop T E v _ 0 m hinv

theorem await_inv_fresh (tick : Nat) :
    coroutine_await.table_invariant (coroutine_await.new_manager tick) := by
  refine ⟨?_, ?_, ?_, ?_⟩
  · intro i hi; cases hi
  · exact List.nodup_nil
  · intro i c hc; cases hc
  · intro i c hc; cases hc

theorem await_inv_reachable (m : coroutine_await.coroutine_manager)
    (h : coroutine_await.reachable m) : coroutine_await.table_invariant m := by
  induction h with
  | fresh tick => exact await_inv_fresh tick
  | create m m1 body id _ hc ih =>
    obtain ⟨c, hid, _, _, h⟩ := await_create_started_ok m body _ _ hc
    exact await_inv_create m m1 c id ih hid h
  | destroy m m1 id r _ hd ih => exact await_inv_destroy m m1 id r ih hd
  | update m m1 tick _ hu ih => exact await_inv_update m m1 tick ih hu
  | trigger_event m T E v _ ih => exact await_inv_trigger_event m T E v ih

theorem yield_inv_trigger_step (m : coroutine_yield.coroutine_manager) (E : Int)
    (v : Option Nat) (i : Nat) (hinv : coroutine_yield.table_invariant m) :
    coroutine_yield.table_invariant (coroutine_yield.trigger_step m E v i).1 := by
  unfold coroutine_yield.trigger_step
  split
  · exact hinv
  · rename_i c hc
    split_ifs
    · exact hinv
    · split
      · exact hinv
      · rename_i f hf
        split
        · exact hinv
        · simp only []
          split_ifs
          · exact hinv
          · exact yield_inv_replace m i c _ hinv hc (by rw [hf]; simp)
          · exact yield_inv_replace m i c _ hinv hc (by rw [hf]; simp)

theorem yield_inv_trigger_loop (E : Int) (v : Option Nat) :
    ∀ (n i : Nat) (m : coroutine_yield.coroutine_manager),
      coroutine_yield.table_invariant m →
      coroutine_yield.table_invariant (coroutine_yield.trigger_loop E v n i m) := by
  intro n
  induction n with
  | zero => intro i m hinv; exact hinv
  | succ n ih =>
    intro i m hinv
    unfold coroutine_yield.trigger_loop
    have hs := yield_inv_trigger_step m E v i hinv
    split_ifs
    · split
      · rename_i m1 heq
        rw [heq] at hs
        exact hs
      · rename_i m1 heq
        rw [heq] at hs
        exact ih (i + 1) m1 hs
    · exact hinv

theorem yield_inv_trigger_event (m : coroutine_yield.coroutine_manager) (E : Int)
    (v : Option Nat) (hinv : coroutine_yield.table_invariant m) :
    coroutine_yield.table_invariant (coroutine_yield.trigger_event m E v) :=
  yield_inv_trigger_loop E v _ 0 m hinv

theorem yield_inv_fresh (tick : Nat) :
    coroutine_yield.table_invariant (coroutine_yield.new_manager tick) := by
  refine ⟨?_, ?_, ?_, ?_⟩
  · intro i hi; cases hi
  · exact List.nodup_nil
  · intro i c hc; cases hc
  · intro i c hc; cases hc

theorem yield_inv_reachable (m : coroutine_yield.coroutine_manager)
    (h : coroutine_yield.reachable m) : coroutine_yield.table_invariant m := by
  induction h with
  | fresh tick => exact yield_inv_fresh tick
  | create m m1 body id _ hc ih =>
    obtain ⟨c, hid, _, _, h⟩ := yield_create_started_ok m body _ _ hc
    exact yield_inv_create m m1 c id ih hid h
  | destroy m m1 id r _ hd ih => exact yield_inv_destroy m m1 id r ih hd
  | update m m1 tick _ hu ih => exact yield_inv_update m m1 tick ih hu
  | trigger_event m E v _ ih => exact yield_inv_trigger_event m E v ih

/-! ## C18: the invariant of the free-list -/

/-- C18, both headers: in every state reachable from a fresh manager by
`create_coroutine`, `destroy_coroutine`, `update` and `trigger_event`
* every index in the free-list is inside the table and its slot is closed
  (null handle, id 0);
* no index occurs in the free-list twice;
* `create_coroutine` leaves every slot that holds a coroutine (non-null
  handle) as it is;
* two ids for which `exists_coroutine` is true and that name the same slot are
  equal;
* an id for which `exists_coroutine` is true is not 0, and two different slots
  never store the same id other than 0. -/
theorem C18_free_list_invariant :
    (∀ m : coroutine_await.coroutine_manager, coroutine_await.reachable m →
      (∀ i ∈ m.free_indexes, i < m.coroutines.length ∧
        m.coroutines[i]? = some { handle := none, id := 0 }) ∧
      m.free_indexes.Nodup ∧
      (∀ (handler : coroutine_await.coroutine_t) (id : Nat) (m1 : coroutine_await.coroutine_manager),
        coroutine_await.create_coroutine m handler = .ok (id, m1) →
        ∀ (j : Nat) (c : coroutine_await.coroutine_t), m.coroutines[j]? = some c → c.handle ≠ none →
          m1.coroutines[j]? = some c) ∧
      (∀ a b : Nat, coroutine_await.exists_coroutine m a = .ok true →
        coroutine_await.exists_coroutine m b = .ok true → index_of a = index_of b → a = b) ∧
      (∀ id : Nat, coroutine_await.exists_coroutine m id = .ok true → id ≠ 0) ∧
      (∀ (i j : Nat) (ci cj : coroutine_await.coroutine_t), m.coroutines[i]? = some ci →
        m.coroutines[j]? = some cj → i ≠ j → ci.id ≠ 0 → ci.id ≠ cj.id)) ∧
    (∀ m : coroutine_yield.coroutine_manager, coroutine_yield.reachable m →
      (∀ i ∈ m.free_indexes, i < m.coroutines.length ∧
        m.coroutines[i]? = some { handle := none, id := 0 }) ∧
      m.free_indexes.Nodup ∧
      (∀ (handler : coroutine_yield.coroutine_t) (id : Nat) (m1 : coroutine_yield.coroutine_manager),
        coroutine_yield.create_coroutine m handler = .ok (id, m1) →
        ∀ (j : Nat) (c : coroutine_yield.coroutine_t), m.coroutines[j]? = some c → c.handle ≠ none →
          m1.coroutines[j]? = some c) ∧
      (∀ a b : Nat, coroutine_yield.exists_coroutine m a = .ok true →
        coroutine_yield.exists_coroutine m b = .ok true → index_of a = index_of b → a = b) ∧
      (∀ id : Nat, coroutine_yield.exists_coroutine m id = .ok true → id ≠ 0) ∧
      (∀ (i j : Nat) (ci cj : coroutine_yield.coroutine_t), m.coroutines[i]? = some ci →
        m.coroutines[j]? = some cj → i ≠ j → ci.id ≠ 0 → ci.id ≠ cj.id)) := by
  constructor
  · intro m hr
    have hinv := await_inv_reachable m hr
    exact ⟨await_inv_free_inside m hinv, hinv.2.1,
      fun handler id m1 h => await_create_keeps_occupied m m1 handler id hinv h,
      await_live_ids_share_no_slot m, await_live_id_ne_zero m hinv,
      fun i j ci cj hi hj hij hid => await_nonzero_ids_differ m hinv i j ci cj hi hj hij hid⟩
  · intro m hr
    have hinv := yield_inv_reachable m hr
    exact ⟨yield_inv_free_inside m hinv, hinv.2.1,
      fun handler id m1 h => yield_create_keeps_occupied m m1 handler id hinv h,
      yield_live_ids_share_no_slot m, yield_live_id_ne_zero m hinv,
      fun i j ci cj hi hj hij hid => yield_nonzero_ids_differ m hinv i j ci cj hi hj hij hid⟩

/-- C18 at a concrete input: on a manager constructed at tick 0 two coroutines
that wait for the next frame are created (ids 1 and 4294967298) and the first
is destroyed. The state is reachable, its free-list `[0]` names the closed
slot 0 inside the table and has no index twice, the next `create_coroutine`
returns id 3 and leaves slot 1 as it is, and the id in slot 1 exists and is
not 0. -/
theorem C18_free_list_invariant_witness :
    coroutine_await.reachable
      ⟨[⟨none, 0⟩,
        ⟨some (coroutine_await.run (coroutine_await.coroutine2_wait_for_frame 0) 0), 4294967298⟩],
        [0], 2, 0⟩ ∧
    (0 < 2 ∧ ([⟨none, 0⟩,
        ⟨some (coroutine_await.run (coroutine_await.coroutine2_wait_for_frame 0) 0), 4294967298⟩] :
        List coroutine_await.coroutine_t)[0]? = some ⟨none, 0⟩) ∧
    ([0] : List Nat).Nodup ∧
    (([⟨some (coroutine_await.run (coroutine_await.coroutine2_wait_for_frame 0) 0), 3⟩,
        ⟨some (coroutine_await.run (coroutine_await.coroutine2_wait_for_frame 0) 0), 4294967298⟩] :
        List coroutine_await.coroutine_t)[1]?
      = some ⟨some (coroutine_await.run (coroutine_await.coroutine2_wait_for_frame 0) 0),
          4294967298⟩) ∧
    4294967298 ≠ 0 := by
  have hr : coroutine_await.reachable
      ⟨[⟨none, 0⟩,
        ⟨some (coroutine_await.run (coroutine_await.coroutine2_wait_for_frame 0) 0), 4294967298⟩],
        [0], 2, 0⟩ :=
    coroutine_await.reachable.destroy
      ⟨[⟨some (coroutine_await.run (coroutine_await.coroutine2_wait_for_frame 0) 0), 1⟩,
        ⟨some (coroutine_await.run (coroutine_await.coroutine2_wait_for_frame 0) 0), 4294967298⟩],
        [], 2, 0⟩ _ 1 true
      (coroutine_await.reachable.create
        ⟨[⟨some (coroutine_await.run (coroutine_await.coroutine2_wait_for_frame 0) 0), 1⟩],
          [], 1, 0⟩ _ coroutine_await.coroutine2_wait_for_frame 4294967298
        (coroutine_await.reachable.create (coroutine_await.new_manager 0) _
          coroutine_await.coroutine2_wait_for_frame 1 (coroutine_await.reachable.fresh 0) rfl)
        rfl)
      rfl
  obtain ⟨h1, h2, h3, _, h5, _⟩ := C18_free_list_invariant.1 _ hr
  exact ⟨hr, h1 0 (List.mem_singleton.2 rfl), h2,
    h3 ⟨some (coroutine_await.run (coroutine_await.coroutine2_wait_for_frame 0) 0), 0⟩ 3
      ⟨[⟨some (coroutine_await.run (coroutine_await.coroutine2_wait_for_frame 0) 0), 3⟩,
        ⟨some (coroutine_await.run (coroutine_await.coroutine2_wait_for_frame 0) 0), 4294967298⟩],
        [], 3, 0⟩ rfl 1 _ rfl (Option.some_ne_none _),
    h5 4294967298 rfl⟩
